import Mathlib

/-!
# GLSLStudio: shader program lifecycle and offline render pipeline

A shallow embedding of `src/main.cpp` (interactive preview with shader hot-swap and
offline render) and `src/main_noui.cpp` (fixed shader, console-driven offline render).

Conventions of the embedding:

* C++ `int` values are `Int`; the one product that can leave the 32-bit range
  (`offWidth * offHeight * 3`) is wrapped explicitly with `wrapInt32`.
* C++ `float` values are `F32`: a finite rational, an infinity or NaN.  The rounding of
  finite results to representable values is a parameter (`Rounding`); the special values
  follow IEEE 754 (signed zeros are not distinguished).
* The OpenGL driver, the file system and the `ffmpeg` pipe are external: their answers are
  fields of `Driver` and `Env`.
* Every call that a property talks about is recorded as an `Event` in a trace.
-/

namespace GLSLStudio

/-! ## `float` arithmetic -/

/-- Rounding of an exact result to a representable `float`.  IEEE 754 round-to-nearest is
monotone and leaves `0` and `1` unchanged; nothing else is assumed. -/
structure Rounding where
  rnd : ℚ → ℚ
  rnd_zero : rnd 0 = 0
  rnd_one : rnd 1 = 1
  rnd_mono : ∀ a b : ℚ, a ≤ b → rnd a ≤ rnd b

/-- Exact arithmetic: every rational is representable. -/
def Rounding.exact : Rounding where
  rnd := fun q => q
  rnd_zero := rfl
  rnd_one := rfl
  rnd_mono := fun _ _ h => h

/-- Values of the C++ type `float`. -/
inductive F32 where
  | fin (q : ℚ)
  | inf (neg : Bool)
  | nan
  deriving DecidableEq

namespace F32

/-- Conversion `static_cast<float>(i)` (also the implicit promotion of an `int` operand). -/
def ofInt (R : Rounding) (i : Int) : F32 := fin (R.rnd i)

/-- The `float` division `a / b`.  A zero divisor gives NaN for `0 / 0` and an infinity
otherwise; a finite value divided by an infinity is zero. -/
def div (R : Rounding) : F32 → F32 → F32
  | fin x, fin y =>
      if y = 0 then (if x = 0 then nan else inf (decide (x < 0)))
      else fin (R.rnd (x / y))
  | fin _, inf _ => fin 0
  | inf s, fin y => inf (xor s (decide (y < 0)))
  | inf _, inf _ => nan
  | nan, _ => nan
  | _, nan => nan

/-- The `float` product `a * b`.  Zero times an infinity is NaN. -/
def mul (R : Rounding) : F32 → F32 → F32
  | fin x, fin y => fin (R.rnd (x * y))
  | fin x, inf s => if x = 0 then nan else inf (xor s (decide (x < 0)))
  | inf s, fin y => if y = 0 then nan else inf (xor s (decide (y < 0)))
  | inf s, inf t => inf (xor s t)
  | nan, _ => nan
  | _, nan => nan

/-- The comparison `a <= b` on `float`: false as soon as one side is NaN. -/
def le : F32 → F32 → Bool
  | fin x, fin y => decide (x ≤ y)
  | fin _, inf neg => !neg
  | inf neg, fin _ => neg
  | inf s, inf t => s || !t
  | nan, _ => false
  | _, nan => false

end F32

/-! ## Frame sequencer -/

/-- The expression of `main.cpp:450` and `main_noui.cpp:265`:
`(frame / static_cast<float>(totalFrames - 1)) * desiredDuration * slowdownFactor`.
The body of the render loop runs only for `0 <= frame < totalFrames`, so the `int`
subtraction `totalFrames - 1` cannot overflow there. -/
def simulatedTime (R : Rounding) (frame totalFrames : Int) (desiredDuration slowdownFactor : F32) :
    F32 :=
  F32.mul R
    (F32.mul R (F32.div R (F32.ofInt R frame) (F32.ofInt R (totalFrames - 1))) desiredDuration)
    slowdownFactor

/-! ## Machine integers and decimal text -/

/-- The value of an `int` expression after wrapping to 32 bits (two's complement). -/
def wrapInt32 (x : Int) : Int := (x + 2147483648) % 4294967296 - 2147483648

/-- Decimal digits of `n`, most significant first; `fuel` bounds the number of digits. -/
def decimalDigits : Nat → Nat → List Char
  | 0, _ => []
  | fuel + 1, n =>
      if n < 10 then [Nat.digitChar n]
      else decimalDigits fuel (n / 10) ++ [Nat.digitChar (n % 10)]

/-- Decimal text of a non-negative `int`, as `operator<<` and `std::to_string` print it. -/
def decimal (n : Nat) : String := String.mk (decimalDigits (n + 1) n)

/-- Decimal text of an `int`. -/
def decimalInt (i : Int) : String :=
  if i < 0 then "-" ++ decimal (-i).toNat else decimal i.toNat

/-- The number a string of decimal digits denotes (used to read `decimal` back). -/
def decimalValue (cs : List Char) : Nat :=
  cs.foldl (fun acc c => 10 * acc + (c.toNat - 48)) 0

/-! ## Output path selection -/

/-- The local `baseName` of `main`. -/
def baseName : String := "output"

/-- The local `extension` of `main`. -/
def extension : String := ".mp4"

/-- The loop `while (fs::exists(outputFile)) { ...; counter++; }` of `main.cpp:414-419` and
`main_noui.cpp:225-230`, with the current `outputFile` and `counter` as arguments.  `none`
when the fuel runs out before a free path is found.  `counter` starts at 1 and only grows;
it is a `Nat` here (the `int` would overflow only after 2147483647 existing files). -/
def uniqueNameLoop (fsExists : String → Bool) : Nat → String → Nat → Option String
  | 0, _, _ => none
  | fuel + 1, outputFile, counter =>
      if fsExists outputFile then
        uniqueNameLoop fsExists fuel (baseName ++ "_" ++ decimal counter ++ extension)
          (counter + 1)
      else some outputFile

/-- The whole selection of `main.cpp:410-419`: start at `baseName + extension`, counter 1. -/
def uniqueOutputFile (fsExists : String → Bool) (fuel : Nat) : Option String :=
  uniqueNameLoop fsExists fuel (baseName ++ extension) 1

/-- The sequence of the specification: `output.mp4`, `output_1.mp4`, `output_2.mp4`, ... -/
def outputCandidate : Nat → String
  | 0 => baseName ++ extension
  | k + 1 => baseName ++ "_" ++ decimal (k + 1) ++ extension

/-! ## The OpenGL driver, the file system and the encoder pipe -/

/-- The two shader stages (`GL_VERTEX_SHADER`, `GL_FRAGMENT_SHADER`). -/
inductive ShaderKind where
  | vertex
  | fragment
  deriving DecidableEq

/-- The stage name `compileShader` puts into its message (`main.cpp:56`). -/
def ShaderKind.text : ShaderKind → String
  | .vertex => "vertex"
  | .fragment => "fragment"

/-- Everything outside the program.  The answers of the driver may depend on the name of the
object they are asked about, so two compilations of the same text may differ. -/
structure Env where
  /-- Rounding of `float` results. -/
  R : Rounding
  /-- `GL_COMPILE_STATUS` of shader object `name` holding `source`. -/
  compileStatus : (name : Nat) → ShaderKind → (source : String) → Bool
  /-- `glGetShaderInfoLog` after a failed compilation. -/
  shaderInfoLog : (name : Nat) → ShaderKind → (source : String) → String
  /-- `GL_LINK_STATUS` of program `name` with the given shaders attached. -/
  linkStatus : (name : Nat) → List (ShaderKind × String) → Bool
  /-- `GL_VALIDATE_STATUS` of program `name` with the given shaders attached. -/
  validateStatus : (name : Nat) → List (ShaderKind × String) → Bool
  /-- `glGetProgramInfoLog` after a failed link or validation. -/
  programInfoLog : (name : Nat) → List (ShaderKind × String) → String
  /-- `glGetUniformLocation`; `-1` when the program has no such uniform. -/
  uniformLocation : (program : Nat) → String → Int
  /-- The paths `loadShaderFiles("shaders", loadError)` returns. -/
  scannedFiles : List String
  /-- The text `loadShaderFiles` leaves in `loadError`. -/
  loadError : String
  /-- Content of a shader file; `none` when it cannot be opened. -/
  readFile : String → Option String
  /-- The paths for which `fs::exists` holds when the output name is chosen. -/
  existingPaths : List String
  /-- Whether `popen` of the command returns a stream. -/
  popenOk : String → Bool
  /-- Whether `glCheckFramebufferStatus` reports `GL_FRAMEBUFFER_COMPLETE` for a colour
  texture of the given size. -/
  framebufferComplete : Int → Int → Bool
  /-- Number of bytes `fwrite` reports as written for the given frame and length. -/
  fwriteAccepted : (frame : Int) → (len : Nat) → Nat

/-- The calls the properties of the program talk about, in the order they are made. -/
inductive Event where
  | createShader (kind : ShaderKind) (name : Nat)
  /-- `glShaderSource` + `glCompileShader` + the status query. -/
  | compileShader (name : Nat) (kind : ShaderKind) (source : String) (ok : Bool)
  | deleteShader (name : Nat)
  | createProgram (name : Nat)
  | attachShader (program shader : Nat)
  /-- `glLinkProgram` + the status query. -/
  | linkProgram (program : Nat) (ok : Bool)
  /-- `glValidateProgram` + the status query. -/
  | validateProgram (program : Nat) (ok : Bool)
  | deleteProgram (name : Nat)
  | useProgram (name : Nat)
  | uniform1f (loc : Int) (v : F32)
  | uniform2f (loc : Int) (x y : F32)
  | uniform3f (loc : Int) (x y z : F32)
  | drawArrays
  /-- `glCheckFramebufferStatus` after the colour texture of the given size is attached. -/
  | checkFramebuffer (width height : Int) (complete : Bool)
  | readPixels (width height : Int)
  | popen (cmd : String) (ok : Bool)
  /-- `fwrite(frameBuffer.data(), 1, len, ffmpegPipe)` made for loop index `frame`, with
  the number of bytes it reports. -/
  | fwrite (frame : Int) (len accepted : Nat)
  | pclose
  /-- `ImGui::TextWrapped("%s", errorMessage.c_str())` in the control panel. -/
  | showError (msg : String)
  /-- An error message written to `std::cerr`. -/
  | cerr (msg : String)
  deriving DecidableEq

/-- The part of the OpenGL context the program depends on.  Names are never reused;
deletion takes effect at once. -/
structure GLState where
  /-- The next unused object name (shaders and programs share the name space). -/
  nextName : Nat
  /-- The live shader objects with their stage and source. -/
  shaders : List (Nat × ShaderKind × String)
  /-- The live program objects. -/
  programs : List Nat
  /-- The error flag `glGetError` reads; `0` is `GL_NO_ERROR`. -/
  error : Nat

/-- `GL_INVALID_VALUE`. -/
def GL_INVALID_VALUE : Nat := 1281

/-- Record an error unless one is already pending. -/
def GLState.raise (g : GLState) (code : Nat) : GLState :=
  if g.error = 0 then { g with error := code } else g

/-- The local variables of `main` together with the OpenGL context and the trace of calls.
`iZoomLoc` and `iCenterLoc` exist in `main_noui.cpp` only. -/
structure App where
  gl : GLState
  trace : List Event
  shaderProgram : Nat
  vertShader : Nat
  fragShader : Nat
  shaderError : String
  errorMessage : String
  iTimeLoc : Int
  iResLoc : Int
  iZoomLoc : Int
  iCenterLoc : Int
  currentShaderIndex : Nat
  totalFrames : Int
  desiredDuration : F32
  slowdownFactor : F32
  offWidth : Int
  offHeight : Int
  startOfflineRender : Bool
  applyShader : Bool

/-- Effect of `glDeleteShader` on the context: `0` is ignored, a name that is not a live
shader raises `GL_INVALID_VALUE`. -/
def GLState.deleteShader (g : GLState) (shader : Nat) : GLState :=
  if shader = 0 then g
  else if g.shaders.any (fun s => s.1 == shader) then
    { g with shaders := g.shaders.filter (fun s => s.1 != shader) }
  else g.raise GL_INVALID_VALUE

/-- Effect of `glDeleteProgram` on the context: `0` is ignored, a name that is not a live
program raises `GL_INVALID_VALUE`. -/
def GLState.deleteProgram (g : GLState) (program : Nat) : GLState :=
  if program = 0 then g
  else if g.programs.contains program then
    { g with programs := g.programs.filter (fun q => q != program) }
  else g.raise GL_INVALID_VALUE

/-- Stage and source of the live shader `shader`, as a list: empty when there is none. -/
def GLState.attachable (g : GLState) (shader : Nat) : List (ShaderKind × String) :=
  match g.shaders.find? (fun s => s.1 == shader) with
  | some s => [s.2]
  | none => []

/-- Effect of `glAttachShader` on the context: a name that is not a live shader raises
`GL_INVALID_VALUE` (and nothing is attached). -/
def GLState.attachShader (g : GLState) (shader : Nat) : GLState :=
  if (g.attachable shader).isEmpty then g.raise GL_INVALID_VALUE else g

/-- Append one call to the trace. -/
def App.emit (st : App) (e : Event) : App := { st with trace := st.trace ++ [e] }

/-- The call `glDeleteShader(shader)`. -/
def glDeleteShader (shader : Nat) (st : App) : App :=
  { st with gl := st.gl.deleteShader shader, trace := st.trace ++ [.deleteShader shader] }

/-- The call `glDeleteProgram(program)`. -/
def glDeleteProgram (program : Nat) (st : App) : App :=
  { st with gl := st.gl.deleteProgram program, trace := st.trace ++ [.deleteProgram program] }

/-- The call `glAttachShader(program, shader)`. -/
def glAttachShader (program shader : Nat) (st : App) : App :=
  { st with gl := st.gl.attachShader shader,
            trace := st.trace ++ [.attachShader program shader] }

/-! ## Shader sources -/

/-- The constant `vertexShaderSource` of `main.cpp:23-33`. -/
def vertexShaderSource : String :=
  "\n#version 330 core\nlayout(location = 0) in vec3 aPosition;\n" ++
  "layout(location = 1) in vec2 aTexCoord;\nout vec2 fragUV;\nvoid main()\n\x7b\n" ++
  "    gl_Position = vec4(aPosition, 1.0);\n    fragUV = aTexCoord;\n\x7d\n"

/-- The constant `fallbackFragmentShaderSource` of `main.cpp:36-43`. -/
def fallbackFragmentShaderSource : String :=
  "\n#version 330 core\nout vec4 FragColor;\nvoid main()\n\x7b\n" ++
  "    FragColor = vec4(1.0, 0.0, 0.0, 1.0); // Red color\n\x7d\n"

/-! ## `compileShader`, `linkProgram`, `loadShaderFile` (`main.cpp:46-109`) -/

/-- The function `compileShader(type, source, shader, error)` of `main.cpp:46-62`.  Returns
the result, the name written to `shader`, and the state, in which `shaderError` holds the
message after a failure (every call site passes `shaderError` as `error`). -/
def compileShader (env : Env) (kind : ShaderKind) (source : String) (st : App) :
    Bool × Nat × App :=
  let shader := st.gl.nextName
  let st := { st with gl := { st.gl with nextName := shader + 1,
                                         shaders := st.gl.shaders ++ [(shader, kind, source)] } }
  let st := st.emit (.createShader kind shader)
  let success := env.compileStatus shader kind source
  let st := st.emit (.compileShader shader kind source success)
  if !success then
    let st := { st with shaderError := "Shader compilation failed (" ++ kind.text ++ "):\n" ++
                                        env.shaderInfoLog shader kind source }
    (false, shader, glDeleteShader shader st)
  else (true, shader, st)

/-- The function `linkProgram(vertShader, fragShader, program, error)` of `main.cpp:65-89`.
Every call site passes `shaderProgram` as `program` and `shaderError` as `error`, so the new
name is in `shaderProgram` from the first line on. -/
def linkProgram (env : Env) (vertShader fragShader : Nat) (st : App) : Bool × App :=
  let program := st.gl.nextName
  let attached := st.gl.attachable vertShader ++ st.gl.attachable fragShader
  let st := { st with gl := { st.gl with nextName := program + 1,
                                         programs := st.gl.programs ++ [program] },
                      shaderProgram := program }
  let st := st.emit (.createProgram program)
  let st := glAttachShader program vertShader st
  let st := glAttachShader program fragShader st
  let success := env.linkStatus program attached
  let st := st.emit (.linkProgram program success)
  if !success then
    let st := { st with shaderError := "Program linking failed:\n" ++
                                        env.programInfoLog program attached }
    (false, glDeleteProgram program st)
  else
    let success := env.validateStatus program attached
    let st := st.emit (.validateProgram program success)
    if !success then
      let st := { st with shaderError := "Program validation failed:\n" ++
                                          env.programInfoLog program attached }
      (false, glDeleteProgram program st)
    else (true, st)

/-- The function `loadShaderFile(filepath, error)` of `main.cpp:92-109`: the content and the
new value of `error`. -/
def loadShaderFile (env : Env) (filepath error : String) (st : App) : String × String × App :=
  match env.readFile filepath with
  | none =>
      let error := "Failed to open shader file: " ++ filepath
      ("", error, st.emit (.cerr (error ++ "\n")))
  | some content =>
      if content.isEmpty then
        let error := "Shader file is empty: " ++ filepath
        ("", error, st.emit (.cerr (error ++ "\n")))
      else (content, error, st)

/-- The vector `shaderFiles` of `main.cpp:183-187`: the scanned files, or the single entry
`"fallback"` when there are none. -/
def shaderFiles (env : Env) : List String :=
  if env.scannedFiles.isEmpty then ["fallback"] else env.scannedFiles

/-! ## Initial build (`main.cpp:203-241`) -/

/-- Lines 228-241: link the initial program, delete the shaders, look up the uniforms.  The
second component is `true` when `main` returns `-1`. -/
def initialLink (env : Env) (st : App) : App × Bool :=
  let (ok, st) := linkProgram env st.vertShader st.fragShader st
  if !ok then
    let st := st.emit (.cerr (st.shaderError ++ "\n"))
    let st := glDeleteShader st.vertShader st
    let st := glDeleteShader st.fragShader st
    (st, true)
  else
    let st := glDeleteShader st.vertShader st
    let st := glDeleteShader st.fragShader st
    ({ st with iTimeLoc := env.uniformLocation st.shaderProgram "iTime",
               iResLoc := env.uniformLocation st.shaderProgram "iResolution" }, false)

/-- Lines 217-227: compile the fragment shader, on failure delete the vertex shader and
compile the fallback.  The second component is `true` when `main` returns `-1`. -/
def initialFragment (env : Env) (fragSource : String) (st : App) : App × Bool :=
  let (ok, shader, st) := compileShader env .fragment fragSource st
  let st := { st with fragShader := shader }
  if !ok then
    let st := st.emit (.cerr (st.shaderError ++ "\n"))
    let st := glDeleteShader st.vertShader st
    let (ok, shader, st) := compileShader env .fragment fallbackFragmentShaderSource st
    let st := { st with fragShader := shader }
    if !ok then (st.emit (.cerr (st.shaderError ++ "\n")), true)
    else (st, false)
  else (st, false)

/-- Lines 212-216: the fragment source of the first catalog entry, or the fallback source
when the entry is `"fallback"` or `shaderError` is not empty after loading. -/
def initialSource (env : Env) (st : App) : String × App :=
  let file := (shaderFiles env).getD 0 "fallback"
  let (fragSource, st) :=
    if file = "fallback" then (fallbackFragmentShaderSource, st)
    else
      let (content, error, st) := loadShaderFile env file st.shaderError st
      (content, { st with shaderError := error })
  if st.shaderError ≠ "" then
    (fallbackFragmentShaderSource, st.emit (.cerr (st.shaderError ++ "\n")))
  else (fragSource, st)

/-- Lines 212-241, reached when the vertex shader compiled: choose the fragment source,
compile it (with the fallback as second attempt), link. -/
def initialBuildRest (env : Env) (st : App) : App × Bool :=
  let (fragSource, st) := initialSource env st
  let (st, exit) := initialFragment env fragSource st
  if exit then (st, true) else initialLink env st

/-- Lines 204-241.  The second component is `true` when `main` returns `-1`. -/
def initialBuild (env : Env) (st : App) : App × Bool :=
  let (ok, shader, st) := compileShader env .vertex vertexShaderSource st
  let st := { st with vertShader := shader }
  if !ok then (st.emit (.cerr (st.shaderError ++ "\n")), true)
  else initialBuildRest env st

/-! ## The `Apply Shader` block (`main.cpp:316-354`) -/

/-- Lines 342-353: link, delete the shaders, look up the uniforms.  The second component is
`true` when the block leaves through `continue`. -/
def applyLink (env : Env) (st : App) : App × Bool :=
  let (ok, st) := linkProgram env st.vertShader st.fragShader st
  if !ok then
    let st := st.emit (.cerr (st.shaderError ++ "\n"))
    let st := glDeleteShader st.vertShader st
    let st := glDeleteShader st.fragShader st
    ({ st with shaderProgram := 0 }, true)
  else
    let st := glDeleteShader st.vertShader st
    let st := glDeleteShader st.fragShader st
    ({ st with iTimeLoc := env.uniformLocation st.shaderProgram "iTime",
               iResLoc := env.uniformLocation st.shaderProgram "iResolution" }, false)

/-- Lines 331-341: compile the fragment shader, on failure delete the vertex shader and
compile the fallback.  The second component is `true` when the block leaves through
`continue`. -/
def applyFragment (env : Env) (newFragSource : String) (st : App) : App × Bool :=
  let (ok, shader, st) := compileShader env .fragment newFragSource st
  let st := { st with fragShader := shader }
  if !ok then
    let st := st.emit (.cerr (st.shaderError ++ "\n"))
    let st := glDeleteShader st.vertShader st
    let (ok, shader, st) := compileShader env .fragment fallbackFragmentShaderSource st
    let st := { st with fragShader := shader }
    if !ok then
      let st := st.emit (.cerr (st.shaderError ++ "\n"))
      let st := glDeleteShader st.vertShader st
      ({ st with shaderProgram := 0 }, true)
    else (st, false)
  else (st, false)

/-- Lines 325-329: the fragment source of the selected catalog entry, or the fallback source
when the entry is `"fallback"` or `errorMessage` is not empty after loading. -/
def applySource (env : Env) (st : App) : String × App :=
  let file := (shaderFiles env).getD st.currentShaderIndex "fallback"
  let (newFragSource, st) :=
    if file = "fallback" then (fallbackFragmentShaderSource, st)
    else
      let (content, error, st) := loadShaderFile env file st.errorMessage st
      (content, { st with errorMessage := error })
  if st.errorMessage ≠ "" then
    (fallbackFragmentShaderSource, st.emit (.cerr (st.errorMessage ++ "\n")))
  else (newFragSource, st)

/-- Lines 317-319: reset the flag, delete the active program if there is one, clear
`errorMessage`. -/
def applyRelease (st : App) : App :=
  let st := { st with applyShader := false }
  let st := if st.shaderProgram ≠ 0 then glDeleteProgram st.shaderProgram st else st
  { st with errorMessage := "" }

/-- Lines 325-353, reached when the vertex shader compiled: choose the fragment source,
compile it (with the fallback as second attempt), link. -/
def applyBuild (env : Env) (st : App) : App × Bool :=
  let (newFragSource, st) := applySource env st
  let (st, continued) := applyFragment env newFragSource st
  if continued then (st, true) else applyLink env st

/-- Lines 317-353, the body of `if (applyShader)`.  The second component is `true` when the
block leaves through `continue`. -/
def applyShaderBlock (env : Env) (st : App) : App × Bool :=
  let st := applyRelease st
  let (ok, shader, st) := compileShader env .vertex vertexShaderSource st
  let st := { st with vertShader := shader }
  if !ok then
    let st := st.emit (.cerr (st.shaderError ++ "\n"))
    ({ st with shaderProgram := 0 }, true)
  else applyBuild env st

/-! ## The interactive loop (`main.cpp:285-405`) -/

/-- The global `WIN_WIDTH`. -/
def WIN_WIDTH : Int := 3840

/-- The global `WIN_HEIGHT`. -/
def WIN_HEIGHT : Int := 2160

/-- What the user and the window system do during one iteration of the loop. -/
structure FrameInput where
  /-- `glfwWindowShouldClose(window)` at the loop test. -/
  windowShouldClose : Bool
  /-- The entry the combo box holds after this frame. -/
  shaderIndex : Nat
  /-- Whether `Apply Shader` was pressed. -/
  applyClicked : Bool
  /-- The values the render-setting widgets hold after this frame. -/
  offWidth : Int
  offHeight : Int
  totalFrames : Int
  desiredDuration : F32
  slowdownFactor : F32
  /-- Whether `Start Offline Render` was pressed. -/
  startClicked : Bool
  /-- `static_cast<float>(glfwGetTime() - previewStart)` at the draw. -/
  elapsed : F32
  /-- Whether the escape key is down at the end of the iteration. -/
  escapePressed : Bool

/-- Lines 357-360: show `errorMessage` when it is not empty. -/
def displayErrors (st : App) : App :=
  if st.errorMessage ≠ "" then st.emit (.showError st.errorMessage) else st

/-- Lines 379-387: draw the preview with the active program, if there is one. -/
def previewDraw (env : Env) (elapsed : F32) (st : App) : App :=
  if st.shaderProgram ≠ 0 then
    let st := st.emit (.useProgram st.shaderProgram)
    let st := if st.iTimeLoc ≠ -1 then st.emit (.uniform1f st.iTimeLoc elapsed) else st
    let st :=
      if st.iResLoc ≠ -1 then
        st.emit (.uniform3f st.iResLoc (F32.ofInt env.R WIN_WIDTH) (F32.ofInt env.R WIN_HEIGHT)
          (F32.fin 1))
      else st
    st.emit .drawArrays
  else st

/-- Lines 390-394: read and clear the error flag; a pending error replaces `errorMessage`. -/
def checkGLError (st : App) : App :=
  let err := st.gl.error
  let st := { st with gl := { st.gl with error := 0 } }
  if err ≠ 0 then
    let st := { st with errorMessage := "OpenGL error: " ++ decimal err }
    st.emit (.cerr (st.errorMessage ++ "\n"))
  else st

/-- One iteration of the loop body, lines 286-404.  The second component is `true` when the
iteration ends with `break`.  After `continue` in the apply block the rest of the body,
including the test for `break`, is skipped. -/
def loopBody (env : Env) (inp : FrameInput) (st : App) : App × Bool :=
  let st :=
    if inp.shaderIndex < (shaderFiles env).length then
      { st with currentShaderIndex := inp.shaderIndex }
    else st
  let st := if inp.applyClicked then { st with applyShader := true } else st
  let (st, continued) := if st.applyShader then applyShaderBlock env st else (st, false)
  if continued then (st, false)
  else
    let st := displayErrors st
    let st := { st with offWidth := inp.offWidth, offHeight := inp.offHeight,
                        totalFrames := inp.totalFrames,
                        desiredDuration := inp.desiredDuration,
                        slowdownFactor := inp.slowdownFactor }
    let st := if inp.startClicked then { st with startOfflineRender := true } else st
    let st := previewDraw env inp.elapsed st
    let st := checkGLError st
    (st, inp.escapePressed || st.startOfflineRender)

/-- The loop `while (!glfwWindowShouldClose(window))`, one list entry per iteration.  The
loop also ends when the list does: nothing more is observed. -/
def mainLoop (env : Env) : List FrameInput → App → App
  | [], st => st
  | inp :: rest, st =>
      if inp.windowShouldClose then st
      else
        let (st, stop) := loopBody env inp st
        if stop then st else mainLoop env rest st

/-! ## Offline rendering (`main.cpp:407-476`) -/

/-- The string `ffmpegCmd` of `main.cpp:422-424` and `main_noui.cpp:233-235`. -/
def ffmpegCommand (width height : Int) (outputFile : String) : String :=
  "ffmpeg -y -f rawvideo -pixel_format rgb24 -video_size " ++ decimalInt width ++ "x" ++
    decimalInt height ++ " -framerate 60 -i - -c:v libx264 -pix_fmt yuv420p " ++ outputFile

/-- The output name chosen against the existing paths of the environment.  The fuel is
enough for the loop to end (`uniqueOutputFile_spec`), so the default is never used. -/
def selectOutputFile (env : Env) : String :=
  (uniqueOutputFile (fun p => decide (p ∈ env.existingPaths))
    (env.existingPaths.length + 1)).getD ""

/-- Lines 433-445: create the framebuffer and its colour texture and check the status; an
incomplete framebuffer is reported and nothing else. -/
def setupFramebuffer (env : Env) (width height : Int) (st : App) : App :=
  let complete := env.framebufferComplete width height
  let st := st.emit (.checkFramebuffer width height complete)
  if !complete then st.emit (.cerr "Framebuffer incomplete!\n") else st

/-- The size of `std::vector<unsigned char> frameBuffer(offWidth * offHeight * 3)`
(`main.cpp:448`): the product is taken in `int`, and a negative `int` converts to a
`size_t` above `max_size()`, for which the constructor throws (`none`). -/
def frameBufferSize (offWidth offHeight : Int) : Option Nat :=
  let n := wrapInt32 (wrapInt32 (offWidth * offHeight) * 3)
  if n < 0 then none else some n.toNat

/-- The body of the offline loop, `main.cpp:450-467`, for one frame. -/
def renderFrame (env : Env) (bufLen : Nat) (frame : Int) (st : App) : App :=
  let time := simulatedTime env.R frame st.totalFrames st.desiredDuration st.slowdownFactor
  let st := st.emit (.useProgram st.shaderProgram)
  let st := if st.iTimeLoc ≠ -1 then st.emit (.uniform1f st.iTimeLoc time) else st
  let st :=
    if st.iResLoc ≠ -1 then
      st.emit (.uniform3f st.iResLoc (F32.ofInt env.R st.offWidth) (F32.ofInt env.R st.offHeight)
        (F32.fin 1))
    else st
  let st := st.emit .drawArrays
  let st := st.emit (.readPixels st.offWidth st.offHeight)
  let accepted := env.fwriteAccepted frame bufLen
  let st := st.emit (.fwrite frame bufLen accepted)
  if accepted ≠ bufLen then
    st.emit (.cerr ("Error writing frame " ++ decimalInt frame ++ " to ffmpeg.\n"))
  else st

/-- The loop `for (int frame = 0; frame < totalFrames; ++frame)` of `main.cpp:449-468`,
entered with the current value of `frame`. -/
def renderLoop (env : Env) (bufLen : Nat) : Nat → Int → App → App
  | 0, _, st => st
  | fuel + 1, frame, st =>
      if frame < st.totalFrames then
        renderLoop env bufLen fuel (frame + 1) (renderFrame env bufLen frame st)
      else st

/-- Lines 432-474, run with the pipe open: framebuffer, frame buffer, loop, `pclose`.  The
second component is `true` when the constructor of `frameBuffer` throws, which ends the
process. -/
def renderToPipe (env : Env) (st : App) : App × Bool :=
  let st := setupFramebuffer env st.offWidth st.offHeight st
  match frameBufferSize st.offWidth st.offHeight with
  | none => (st, true)
  | some bufLen => ((renderLoop env bufLen st.totalFrames.toNat 0 st).emit .pclose, false)

/-- Lines 408-476.  The second component is `true` when the constructor of `frameBuffer`
throws, which ends the process. -/
def offlineRender (env : Env) (st : App) : App × Bool :=
  if st.startOfflineRender && st.shaderProgram ≠ 0 then
    let outputFile := selectOutputFile env
    let cmd := ffmpegCommand st.offWidth st.offHeight outputFile
    let ok := env.popenOk cmd
    let st := st.emit (.popen cmd ok)
    if !ok then (st.emit (.cerr "Failed to open ffmpeg pipe.\n"), false)
    else renderToPipe env st
  else (st, false)

/-! ## `main` of `main.cpp` -/

/-- How `main` ends. -/
inductive Exit where
  | returned (code : Int)
  | terminated
  deriving DecidableEq

/-- The state before the first shader is compiled: a fresh context, the initial values of
the GUI variables (`main.cpp:266-275`), zero for the locals that are not yet assigned. -/
def initialApp (env : Env) : App where
  gl := { nextName := 1, shaders := [], programs := [], error := 0 }
  trace := []
  shaderProgram := 0
  vertShader := 0
  fragShader := 0
  shaderError := ""
  errorMessage := env.loadError
  iTimeLoc := -1
  iResLoc := -1
  iZoomLoc := -1
  iCenterLoc := -1
  currentShaderIndex := 0
  totalFrames := 1800
  desiredDuration := F32.fin 30
  slowdownFactor := F32.fin 1
  offWidth := 3840
  offHeight := 2160
  startOfflineRender := false
  applyShader := false

/-- Lines 478-481 of the cleanup: delete the active program, if there is one. -/
def cleanup (st : App) : App :=
  if st.shaderProgram ≠ 0 then glDeleteProgram st.shaderProgram st else st

/-- The program `main.cpp` from the first compilation on, run on the given iterations of the
interactive loop. -/
def mainProgram (env : Env) (inputs : List FrameInput) : App × Exit :=
  let (st, exit) := initialBuild env (initialApp env)
  if exit then (st, .returned (-1))
  else
    let st := mainLoop env inputs st
    let (st, thrown) := offlineRender env st
    if thrown then (st, .terminated) else (cleanup st, .returned 0)

/-! ## Offline rendering of `main_noui.cpp` (lines 210-299) -/

/-- The constant `OFF_WIDTH` of `main_noui.cpp`. -/
def OFF_WIDTH : Int := 3840

/-- The constant `OFF_HEIGHT` of `main_noui.cpp`. -/
def OFF_HEIGHT : Int := 2160

/-- The body of the offline loop, `main_noui.cpp:265-285`, for one frame. -/
def renderFrameNoUI (env : Env) (bufLen : Nat) (frame : Int) (st : App) : App :=
  let time := simulatedTime env.R frame st.totalFrames st.desiredDuration st.slowdownFactor
  let st := st.emit (.useProgram st.shaderProgram)
  let st := st.emit (.uniform1f st.iTimeLoc time)
  let st := st.emit (.uniform2f st.iResLoc (F32.ofInt env.R OFF_WIDTH) (F32.ofInt env.R OFF_HEIGHT))
  let st := st.emit (.uniform1f st.iZoomLoc (F32.fin 2))
  let st := st.emit (.uniform2f st.iCenterLoc (F32.fin 0) (F32.fin 0))
  let st := st.emit .drawArrays
  let st := st.emit (.readPixels OFF_WIDTH OFF_HEIGHT)
  let accepted := env.fwriteAccepted frame bufLen
  let st := st.emit (.fwrite frame bufLen accepted)
  if accepted ≠ bufLen then
    st.emit (.cerr ("Error writing frame " ++ decimalInt frame ++ " to ffmpeg.\n"))
  else st

/-- The loop of `main_noui.cpp:264-286`, entered with the current value of `frame`. -/
def renderLoopNoUI (env : Env) (bufLen : Nat) : Nat → Int → App → App
  | 0, _, st => st
  | fuel + 1, frame, st =>
      if frame < st.totalFrames then
        renderLoopNoUI env bufLen fuel (frame + 1) (renderFrameNoUI env bufLen frame st)
      else st

/-- Lines 247-295 of `main_noui.cpp`, run with the pipe open: framebuffer, frame buffer,
loop, `pclose`, deletion of the program. -/
def renderToPipeNoUI (env : Env) (st : App) : App × Exit :=
  let st := setupFramebuffer env OFF_WIDTH OFF_HEIGHT st
  match frameBufferSize OFF_WIDTH OFF_HEIGHT with
  | none => (st, .terminated)
  | some bufLen =>
      let st := (renderLoopNoUI env bufLen st.totalFrames.toNat 0 st).emit .pclose
      (glDeleteProgram st.shaderProgram st, .returned 0)

/-- Lines 210-299 of `main_noui.cpp`, reached when `R` was pressed: the three values read
from `std::cin`, the output name, the pipe, and the rendering. -/
def offlineRenderNoUI (env : Env) (totalFrames : Int) (desiredDuration slowdownFactor : F32)
    (st : App) : App × Exit :=
  let st := { st with totalFrames := totalFrames, desiredDuration := desiredDuration,
                      slowdownFactor := slowdownFactor }
  let outputFile := selectOutputFile env
  let cmd := ffmpegCommand OFF_WIDTH OFF_HEIGHT outputFile
  let ok := env.popenOk cmd
  let st := st.emit (.popen cmd ok)
  if !ok then (st.emit (.cerr "Failed to open ffmpeg pipe.\n"), .returned (-1))
  else renderToPipeNoUI env st

/-! ## Reading traces -/

/-- The calls made between two states (the trace only grows at its end). -/
def eventsSince (st st' : App) : List Event := st'.trace.drop st.trace.length

/-- Source and result of every fragment-shader compilation, in order. -/
def fragmentCompiles (evs : List Event) : List (String × Bool) :=
  evs.filterMap fun e =>
    match e with
    | .compileShader _ .fragment source ok => some (source, ok)
    | _ => none

/-- Stage, source and result of every shader compilation, in order. -/
def compiles (evs : List Event) : List (ShaderKind × String × Bool) :=
  evs.filterMap fun e =>
    match e with
    | .compileShader _ kind source ok => some (kind, source, ok)
    | _ => none

/-- Program and result of every link attempt, in order. -/
def linkAttempts (evs : List Event) : List (Nat × Bool) :=
  evs.filterMap fun e =>
    match e with
    | .linkProgram program ok => some (program, ok)
    | _ => none

/-- Whether a call reports a failed link or a failed validation. -/
def Event.isLinkFailure : Event → Bool
  | .linkProgram _ false => true
  | .validateProgram _ false => true
  | _ => false

/-- The calls that follow the first failed link or validation (empty when there is none). -/
def afterLinkFailure (evs : List Event) : List Event :=
  (evs.dropWhile fun e => !e.isLinkFailure).drop 1

/-- The calls that reach the encoder stream: every `fwrite` and every `pclose`. -/
def encoderCalls (evs : List Event) : List Event :=
  evs.filter fun e =>
    match e with
    | .fwrite _ _ _ => true
    | .pclose => true
    | _ => false

/-- The values written to the uniform at `loc` by `glUniform1f`, in order. -/
def uniform1fValues (loc : Int) (evs : List Event) : List F32 :=
  evs.filterMap fun e =>
    match e with
    | .uniform1f l v => if l = loc then some v else none
    | _ => none

/-- The calls `renderFrame` makes for one frame, written out. -/
def frameCalls (env : Env) (bufLen : Nat) (st : App) (frame : Int) : List Event :=
  [.useProgram st.shaderProgram] ++
  (if st.iTimeLoc ≠ -1 then
    [.uniform1f st.iTimeLoc
      (simulatedTime env.R frame st.totalFrames st.desiredDuration st.slowdownFactor)]
   else []) ++
  (if st.iResLoc ≠ -1 then
    [.uniform3f st.iResLoc (F32.ofInt env.R st.offWidth) (F32.ofInt env.R st.offHeight)
      (F32.fin 1)]
   else []) ++
  [.drawArrays, .readPixels st.offWidth st.offHeight,
   .fwrite frame bufLen (env.fwriteAccepted frame bufLen)] ++
  (if env.fwriteAccepted frame bufLen ≠ bufLen then
    [.cerr ("Error writing frame " ++ decimalInt frame ++ " to ffmpeg.\n")]
   else [])

/-- The calls `previewDraw` makes when there is an active program, written out. -/
def previewCalls (env : Env) (st : App) (elapsed : F32) : List Event :=
  [.useProgram st.shaderProgram] ++
  (if st.iTimeLoc ≠ -1 then [.uniform1f st.iTimeLoc elapsed] else []) ++
  (if st.iResLoc ≠ -1 then
    [.uniform3f st.iResLoc (F32.ofInt env.R WIN_WIDTH) (F32.ofInt env.R WIN_HEIGHT) (F32.fin 1)]
   else []) ++
  [.drawArrays]

/-- The calls `renderFrameNoUI` makes for one frame, written out. -/
def frameCallsNoUI (env : Env) (bufLen : Nat) (st : App) (frame : Int) : List Event :=
  [.useProgram st.shaderProgram,
   .uniform1f st.iTimeLoc
      (simulatedTime env.R frame st.totalFrames st.desiredDuration st.slowdownFactor),
   .uniform2f st.iResLoc (F32.ofInt env.R OFF_WIDTH) (F32.ofInt env.R OFF_HEIGHT),
   .uniform1f st.iZoomLoc (F32.fin 2),
   .uniform2f st.iCenterLoc (F32.fin 0) (F32.fin 0),
   .drawArrays, .readPixels OFF_WIDTH OFF_HEIGHT,
   .fwrite frame bufLen (env.fwriteAccepted frame bufLen)] ++
  (if env.fwriteAccepted frame bufLen ≠ bufLen then
    [.cerr ("Error writing frame " ++ decimalInt frame ++ " to ffmpeg.\n")]
   else [])

/-- The calls `compileShader` makes when the new shader gets the name `name`. -/
def compileCalls (env : Env) (kind : ShaderKind) (source : String) (name : Nat) : List Event :=
  [.createShader kind name, .compileShader name kind source (env.compileStatus name kind source)]
    ++ (if env.compileStatus name kind source then [] else [.deleteShader name])

/-- The calls `linkProgram` makes when the new program gets the name `program` and the
shaders in `attached` are the ones really attached. -/
def linkCalls (env : Env) (program vertShader fragShader : Nat)
    (attached : List (ShaderKind × String)) : List Event :=
  [.createProgram program, .attachShader program vertShader, .attachShader program fragShader,
   .linkProgram program (env.linkStatus program attached)] ++
  (if env.linkStatus program attached then
    [.validateProgram program (env.validateStatus program attached)] ++
      (if env.validateStatus program attached then [] else [.deleteProgram program])
   else [.deleteProgram program])

/-- The programs passed to `glDeleteProgram`, in order. -/
def deletedPrograms (evs : List Event) : List Nat :=
  evs.filterMap fun e =>
    match e with
    | .deleteProgram name => some name
    | _ => none

/-- The programs bound by `glUseProgram`, in order. -/
def usedPrograms (evs : List Event) : List Nat :=
  evs.filterMap fun e =>
    match e with
    | .useProgram name => some name
    | _ => none

/-- Program `p` is fit for drawing after the calls `pre`: it is a program name, its link
and its validation have succeeded, and it has not been deleted. -/
def Drawable (pre : List Event) (p : Nat) : Prop :=
  p ≠ 0 ∧ Event.linkProgram p true ∈ pre ∧ Event.validateProgram p true ∈ pre ∧
    Event.deleteProgram p ∉ pre

/-- Every `glUseProgram` of the trace binds a program that is fit for drawing at that
moment. -/
def BoundOK (trace : List Event) : Prop :=
  ∀ pre p post, trace = pre ++ Event.useProgram p :: post → Drawable pre p

/-- The invariant of `main`: every program bound so far was fit for drawing, every deleted
name is below the next unused name, and `shaderProgram` is zero or fit for drawing. -/
def Inv (st : App) : Prop :=
  BoundOK st.trace ∧
  (∀ n, n ∈ deletedPrograms st.trace → n < st.gl.nextName) ∧
  st.shaderProgram < st.gl.nextName ∧
  (st.shaderProgram ≠ 0 → Drawable st.trace st.shaderProgram)

/-! ## A sample environment -/

/-- A driver and file system for concrete runs: the catalog holds `shaders/good.txt` (text
`GOOD`) and `shaders/bad.txt` (text `BAD`); every shader compiles; a program links unless
the fragment text `BAD` is attached; validation succeeds; the uniform `iTime` is at
location 0 and `iResolution` at location 1; a framebuffer is complete for sizes from 1 to
16384; `output.mp4` and `output_1.mp4` exist; the pipe opens and takes every byte. -/
def Env.sample : Env where
  R := Rounding.exact
  compileStatus := fun _ _ _ => true
  shaderInfoLog := fun _ _ _ => ""
  linkStatus := fun _ attached => !attached.contains (ShaderKind.fragment, "BAD")
  validateStatus := fun _ _ => true
  programInfoLog := fun _ _ => "error: unresolved symbol"
  uniformLocation := fun _ name => if name = "iTime" then 0 else 1
  scannedFiles := ["shaders/good.txt", "shaders/bad.txt"]
  loadError := ""
  readFile := fun path =>
    if path = "shaders/good.txt" then some "GOOD"
    else if path = "shaders/bad.txt" then some "BAD" else none
  existingPaths := ["output.mp4", "output_1.mp4"]
  popenOk := fun _ => true
  framebufferComplete := fun w h => decide (0 < w ∧ w ≤ 16384 ∧ 0 < h ∧ h ≤ 16384)
  fwriteAccepted := fun _ len => len

/-- One iteration in which nothing is pressed and the widgets keep their initial values. -/
def FrameInput.idle : FrameInput where
  windowShouldClose := false
  shaderIndex := 0
  applyClicked := false
  offWidth := 3840
  offHeight := 2160
  totalFrames := 1800
  desiredDuration := F32.fin 30
  slowdownFactor := F32.fin 1
  startClicked := false
  elapsed := F32.fin 0
  escapePressed := false

/-- The state of the sample run after the initial build: program 3 is active. -/
def Sample.built : App := (initialBuild Env.sample (initialApp Env.sample)).1

/-- An iteration in which the user selects `shaders/bad.txt` and presses `Apply Shader`. -/
def FrameInput.applyBad : FrameInput :=
  { FrameInput.idle with shaderIndex := 1, applyClicked := true }

/-- An iteration in which the user asks for 3 frames of 4 x 4 pixels over 2 seconds and
presses `Start Offline Render`. -/
def FrameInput.render3 : FrameInput :=
  { FrameInput.idle with offWidth := 4, offHeight := 4, totalFrames := 3,
                         desiredDuration := F32.fin 2, startClicked := true }

/-- The state of the sample run when the interactive loop ends on `FrameInput.render3`. -/
def Sample.beforeRender : App := mainLoop Env.sample [FrameInput.render3] Sample.built

/-- An iteration in which the user asks for one frame of 2 x 715827883 pixels and presses
`Start Offline Render`. -/
def FrameInput.renderHuge : FrameInput :=
  { FrameInput.idle with offWidth := 2, offHeight := 715827883, totalFrames := 1,
                         startClicked := true }

/-! ## Runs with a short write -/

/-- The sample environment with a pipe that takes only half of the bytes of frame 1. -/
def Env.shortWrite : Env :=
  { Env.sample with fwriteAccepted := fun frame len => if frame = 1 then len / 2 else len }

/-- An iteration in which the user asks for 5 frames of 4 x 4 pixels and presses
`Start Offline Render`. -/
def FrameInput.render5 : FrameInput :=
  { FrameInput.idle with offWidth := 4, offHeight := 4, totalFrames := 5,
                         startClicked := true }

/-- The state of the run with the short write when the interactive loop ends on
`FrameInput.render5`. -/
def Sample.beforeRender5 : App :=
  mainLoop Env.shortWrite [FrameInput.render5]
    (initialBuild Env.shortWrite (initialApp Env.shortWrite)).1

/-! ## Invalid render requests -/

/-- The state of the sample run when the interactive loop has run the iteration `inp` after
the initial build. -/
def Sample.requested (inp : FrameInput) : App := mainLoop Env.sample [inp] Sample.built

/-- A request for no frame at all: 4 x 4 pixels, `Total Frames` set to 0. -/
def FrameInput.renderNoFrames : FrameInput :=
  { FrameInput.idle with offWidth := 4, offHeight := 4, totalFrames := 0,
                         startClicked := true }

/-- A request with `Render Width` set to 0: 2 frames of 0 x 4 pixels. -/
def FrameInput.renderNoWidth : FrameInput :=
  { FrameInput.idle with offWidth := 0, offHeight := 4, totalFrames := 2,
                         startClicked := true }

/-- A request with `Render Height` set to 0: 2 frames of 4 x 0 pixels. -/
def FrameInput.renderNoHeight : FrameInput :=
  { FrameInput.idle with offWidth := 4, offHeight := 0, totalFrames := 2,
                         startClicked := true }

/-- The number of draw calls. -/
def drawCount (evs : List Event) : Nat := evs.count Event.drawArrays

/-! ## A driver without complete framebuffers -/

/-- The sample environment with a driver that reports every framebuffer as incomplete. -/
def Env.noTarget : Env := { Env.sample with framebufferComplete := fun _ _ => false }

/-- The state of the run without a complete framebuffer when the interactive loop ends on
`FrameInput.render3`. -/
def Sample.noTargetBeforeRender : App :=
  mainLoop Env.noTarget [FrameInput.render3]
    (initialBuild Env.noTarget (initialApp Env.noTarget)).1

/-! ## Diagnostics and a strict compiler -/

/-- The message `compileShader` builds after a failed compilation of `source` in the shader
object `name` (`main.cpp:55-57`). -/
def compileDiagnostic (env : Env) (kind : ShaderKind) (name : Nat) (source : String) : String :=
  "Shader compilation failed (" ++ kind.text ++ "):\n" ++ env.shaderInfoLog name kind source

/-- The texts shown in the control panel by `ImGui::TextWrapped`, in order. -/
def shownErrors (evs : List Event) : List String :=
  evs.filterMap fun e =>
    match e with
    | .showError m => some m
    | _ => none

/-- The messages written to `std::cerr`, in order. -/
def cerrMessages (evs : List Event) : List String :=
  evs.filterMap fun e =>
    match e with
    | .cerr m => some m
    | _ => none

/-- The sample environment with a compiler that rejects the text `BAD`. -/
def Env.strict : Env :=
  { Env.sample with compileStatus := fun _ _ source => source != "BAD",
                    shaderInfoLog := fun _ _ _ => "0:1: syntax error" }

/-- The state of the run with the strict compiler after the initial build. -/
def Sample.strictBuilt : App := (initialBuild Env.strict (initialApp Env.strict)).1

/-- The state of that run when the user has selected `shaders/bad.txt` and pressed
`Apply Shader`. -/
def Sample.strictSelected : App :=
  { Sample.strictBuilt with currentShaderIndex := 1, applyShader := true }

/-! ## Shape of a build -/

/-- The calls `evs` of the build stages that follow the vertex shader `v` (fragment shader,
fallback, link), started with the next unused name `n`: either the supplied fragment source
and the fallback fail to compile, or a program is linked from `v` and the fragment shader
that compiled.  `flag` tells whether the build failed, `sp` is the value of `shaderProgram`
after a success and `n'` the next unused name afterwards. -/
def BuildShape (env : Env) (n v : Nat) (evs : List Event) (flag : Bool) (sp n' : Nat) : Prop :=
  (∃ src L m m' tail,
    (∀ e ∈ L, ∃ t, e = Event.cerr t) ∧ (∀ e ∈ tail, ∃ t, e = Event.deleteShader t) ∧
    env.compileStatus n .fragment src = false ∧
    env.compileStatus (n + 1) .fragment fallbackFragmentShaderSource = false ∧
    flag = true ∧ n' = n + 2 ∧
    evs = L ++ compileCalls env .fragment src n ++ [.cerr m, .deleteShader v] ++
      compileCalls env .fragment fallbackFragmentShaderSource (n + 1) ++
      [.cerr m'] ++ tail) ∨
  (∃ src L F p f attached m,
    (∀ e ∈ L, ∃ t, e = Event.cerr t) ∧
    ((env.compileStatus n .fragment src = true ∧
        F = compileCalls env .fragment src n ∧ p = n + 1 ∧ f = n) ∨
     (env.compileStatus n .fragment src = false ∧
        env.compileStatus (n + 1) .fragment fallbackFragmentShaderSource = true ∧
        (∃ m1, F = compileCalls env .fragment src n ++ [.cerr m1, .deleteShader v] ++
          compileCalls env .fragment fallbackFragmentShaderSource (n + 1)) ∧
        p = n + 2 ∧ f = n + 1)) ∧
    flag = !(env.linkStatus p attached && env.validateStatus p attached) ∧
    (flag = false → sp = p) ∧ n' = p + 1 ∧
    evs = L ++ F ++ linkCalls env p v f attached ++
      (if flag then [Event.cerr m] else []) ++ [.deleteShader v, .deleteShader f])

/-- The sample environment with the strict compiler and a catalog whose first entry is
`shaders/bad.txt`. -/
def Env.strictBadFirst : Env := { Env.strict with scannedFiles := ["shaders/bad.txt"] }

/-! ## Ownership of programs -/

/-- The programs created by `glCreateProgram`, in order. -/
def createdPrograms (evs : List Event) : List Nat :=
  evs.filterMap fun e =>
    match e with
    | .createProgram name => some name
    | _ => none

/-- Scan of a trace for the binding discipline.  The state tells whether a program has been
bound by `glUseProgram` and the draw call has not been issued yet; the result is `none` when
a `glDeleteProgram` is met in that state. -/
def bindScan : Bool → List Event → Option Bool
  | b, [] => some b
  | _, .useProgram _ :: rest => bindScan true rest
  | _, .drawArrays :: rest => bindScan false rest
  | b, .deleteProgram _ :: rest => if b then none else bindScan b rest
  | b, _ :: rest => bindScan b rest

/-- The ownership invariant of `main` for the trace, the next unused name and the value of
`shaderProgram`: every created program has a positive name below the next unused name, no
name is created twice or deleted twice, the deleted programs are the created ones other
than `shaderProgram`, `shaderProgram` is zero or a created program, and no program was
deleted between a `glUseProgram` and the draw call that follows it. -/
def Life (trace : List Event) (next sp : Nat) : Prop :=
  0 < next ∧
  (∀ p ∈ createdPrograms trace, 0 < p ∧ p < next) ∧
  (createdPrograms trace).Nodup ∧
  (deletedPrograms trace).Nodup ∧
  (∀ p, p ∈ deletedPrograms trace ↔ p ∈ createdPrograms trace ∧ p ≠ sp) ∧
  (sp ≠ 0 → sp ∈ createdPrograms trace) ∧
  bindScan false trace = some false

/-- An iteration in which the user selects `shaders/good.txt` and presses `Apply Shader`. -/
def FrameInput.applyGood : FrameInput := { FrameInput.idle with applyClicked := true }

/-- The ownership invariant for a state of `main`. -/
def Owned (st : App) : Prop := Life st.trace st.gl.nextName st.shaderProgram

/-- An iteration in which the user sets `Render Width` to -1 and presses
`Start Offline Render`. -/
def FrameInput.renderNegative : FrameInput :=
  { FrameInput.idle with offWidth := -1, offHeight := 4, totalFrames := 2,
                         startClicked := true }

/-- The sample environment with an encoder that cannot be started: `popen` fails. -/
def Env.noPipe : Env := { Env.sample with popenOk := fun _ => false }

/-! # Theorems -/

/-! ## Frame sequencer -/

theorem Rounding.one_le (R : Rounding) (q : ℚ) (h : 1 ≤ q) : 1 ≤ R.rnd q := by
  have := R.rnd_mono 1 q h
  rwa [R.rnd_one] at this

theorem Rounding.divisor_ne_zero (R : Rounding) (n : Int) (hn : 1 < n) :
    R.rnd ((n : ℚ) - 1) ≠ 0 := by
  have h : (1 : ℚ) ≤ (n : ℚ) - 1 := by
    have : (2 : ℚ) ≤ (n : ℚ) := by exact_mod_cast hn
    linarith
  have := R.one_le _ h
  linarith

/-- For more than one frame the divisor is not zero and the simulated time is the finite
value obtained by rounding after each of the three operations. -/
theorem simulatedTime_fin (R : Rounding) (frame n : Int) (hn : 1 < n) (d s : ℚ) :
    simulatedTime R frame n (F32.fin d) (F32.fin s) =
      F32.fin (R.rnd (R.rnd (R.rnd (R.rnd (frame : ℚ) / R.rnd ((n : ℚ) - 1)) * d) * s)) := by
  have h0 := R.divisor_ne_zero n hn
  simp [simulatedTime, F32.mul, F32.div, F32.ofInt, h0]

/-- C5, as stated, fails: for an infinite or NaN `desiredDuration`, and for an infinite
`slowdownFactor`, the simulated time of frame `0` is `0 * inf` or a product with NaN, which
is NaN and not `0` (3 frames). -/
theorem simulatedTime_endpoint_not_zero :
    simulatedTime Rounding.exact 0 3 (F32.inf false) (F32.fin 1) = F32.nan ∧
    simulatedTime Rounding.exact 0 3 F32.nan (F32.fin 1) = F32.nan ∧
    simulatedTime Rounding.exact 0 3 (F32.fin 30) (F32.inf false) = F32.nan ∧
    F32.nan ≠ F32.fin 0 := by
  refine ⟨?_, ?_, ?_, by decide⟩ <;>
    simp [simulatedTime, F32.mul, F32.div, F32.ofInt, Rounding.exact]

/-- C5 (amended): for `totalFrames > 1` and finite `float` values of `desiredDuration` and
`slowdownFactor`, the simulated time of frame `0` is
`0` and the simulated time of frame `totalFrames - 1` is the `float` product
`desiredDuration * slowdownFactor`. -/
theorem simulatedTime_endpoints (R : Rounding) (n : Int) (hn : 1 < n) (d s : ℚ)
    (hd : R.rnd d = d) :
    simulatedTime R 0 n (F32.fin d) (F32.fin s) = F32.fin 0 ∧
    simulatedTime R (n - 1) n (F32.fin d) (F32.fin s) = F32.mul R (F32.fin d) (F32.fin s) := by
  have h0 := R.divisor_ne_zero n hn
  constructor
  · rw [simulatedTime_fin R 0 n hn]
    simp [R.rnd_zero]
  · rw [simulatedTime_fin R (n - 1) n hn]
    simp [F32.mul, div_self h0, R.rnd_one, hd]

/-- C5 (amended) at 1800 frames, 30 seconds, slowdown 1 (the defaults of the control
panel). -/
theorem simulatedTime_endpoints_witness :
    simulatedTime Rounding.exact 0 1800 (F32.fin 30) (F32.fin 1) = F32.fin 0 ∧
    simulatedTime Rounding.exact (1800 - 1) 1800 (F32.fin 30) (F32.fin 1) =
      F32.mul Rounding.exact (F32.fin 30) (F32.fin 1) :=
  simulatedTime_endpoints Rounding.exact 1800 (by decide) 30 1 rfl

/-- C6, as stated, fails: with 3 frames, duration `-1` and slowdown `1` the simulated times
are `0`, `-1/2`, `-1`, so frame `0` is not below frame `1`. -/
theorem simulatedTime_not_monotone :
    simulatedTime Rounding.exact 0 3 (F32.fin (-1)) (F32.fin 1) = F32.fin 0 ∧
    simulatedTime Rounding.exact 1 3 (F32.fin (-1)) (F32.fin 1) = F32.fin (-1 / 2) ∧
    F32.le (simulatedTime Rounding.exact 0 3 (F32.fin (-1)) (F32.fin 1))
      (simulatedTime Rounding.exact 1 3 (F32.fin (-1)) (F32.fin 1)) = false := by
  have h0 : simulatedTime Rounding.exact 0 3 (F32.fin (-1)) (F32.fin 1) = F32.fin 0 := by
    rw [simulatedTime_fin _ _ _ (by decide)]
    simp [Rounding.exact]
  have h1 : simulatedTime Rounding.exact 1 3 (F32.fin (-1)) (F32.fin 1) = F32.fin (-1 / 2) := by
    rw [simulatedTime_fin _ _ _ (by decide)]
    simp only [Rounding.exact]
    norm_num
  refine ⟨h0, h1, ?_⟩
  rw [h0, h1]
  simp only [F32.le]
  norm_num

/-- C6 (amended): for `totalFrames > 1` and finite `desiredDuration`, `slowdownFactor` whose
product is not negative, the simulated time is non-decreasing in the frame index. -/
theorem simulatedTime_monotone (R : Rounding) (n : Int) (hn : 1 < n) (d s : ℚ)
    (hds : 0 ≤ d * s) (i j : Int) (_hi : 0 ≤ i) (hij : i ≤ j) (_hj : j < n) :
    F32.le (simulatedTime R i n (F32.fin d) (F32.fin s))
      (simulatedTime R j n (F32.fin d) (F32.fin s)) = true := by
  rw [simulatedTime_fin R i n hn, simulatedTime_fin R j n hn]
  simp only [F32.le, decide_eq_true_eq]
  have hc : 0 < R.rnd ((n : ℚ) - 1) := by
    have h : (1 : ℚ) ≤ (n : ℚ) - 1 := by
      have : (2 : ℚ) ≤ (n : ℚ) := by exact_mod_cast hn
      linarith
    have := R.one_le _ h
    linarith
  have hq : (i : ℚ) ≤ (j : ℚ) := by exact_mod_cast hij
  have ha : R.rnd (R.rnd (i : ℚ) / R.rnd ((n : ℚ) - 1)) ≤
      R.rnd (R.rnd (j : ℚ) / R.rnd ((n : ℚ) - 1)) :=
    R.rnd_mono _ _ (div_le_div_of_nonneg_right (R.rnd_mono _ _ hq) hc.le)
  rcases lt_trichotomy d 0 with hd | hd | hd
  · have hs : s ≤ 0 := by
      by_contra hs
      have := mul_neg_of_neg_of_pos hd (not_le.mp hs)
      linarith
    have hb := R.rnd_mono _ _ (mul_le_mul_of_nonpos_right ha hd.le)
    exact R.rnd_mono _ _ (mul_le_mul_of_nonpos_right hb hs)
  · subst hd
    simp
  · have hs : 0 ≤ s := by
      by_contra hs
      have := mul_neg_of_pos_of_neg hd (not_le.mp hs)
      linarith
    have hb := R.rnd_mono _ _ (mul_le_mul_of_nonneg_right ha hd.le)
    exact R.rnd_mono _ _ (mul_le_mul_of_nonneg_right hb hs)

/-- C6 (amended) at 3 frames, duration 2, slowdown 1, frames 1 and 2. -/
theorem simulatedTime_monotone_witness :
    F32.le (simulatedTime Rounding.exact 1 3 (F32.fin 2) (F32.fin 1))
      (simulatedTime Rounding.exact 2 3 (F32.fin 2) (F32.fin 1)) = true :=
  simulatedTime_monotone Rounding.exact 3 (by decide) 2 1 (by norm_num) 1 2 (by decide)
    (by decide) (by decide)

/-- C7: with `totalFrames = 1` the divisor `static_cast<float>(totalFrames - 1)` is zero and
the single frame's simulated time is `0.0f / 0.0f`, which is NaN, whatever the duration and
the slowdown factor are. -/
theorem simulatedTime_single_frame_nan (R : Rounding) (d s : F32) :
    F32.ofInt R (1 - 1) = F32.fin 0 ∧ simulatedTime R 0 1 d s = F32.nan := by
  constructor
  · simp [F32.ofInt, R.rnd_zero]
  · cases d <;> cases s <;> simp [simulatedTime, F32.mul, F32.div, F32.ofInt, R.rnd_zero]

/-! ## Output path selection -/

theorem digitChar_value (d : Nat) (h : d < 10) : (Nat.digitChar d).toNat - 48 = d := by
  interval_cases d <;> rfl

theorem decimalValue_snoc (cs : List Char) (c : Char) :
    decimalValue (cs ++ [c]) = 10 * decimalValue cs + (c.toNat - 48) := by
  simp [decimalValue, List.foldl_append]

/-- Reading the digits back gives the number: `decimalDigits` loses nothing. -/
theorem decimalValue_digits :
    ∀ (fuel n : Nat), n < fuel → decimalValue (decimalDigits fuel n) = n
  | 0, n, h => by omega
  | fuel + 1, n, h => by
      unfold decimalDigits
      split
      · rename_i h10
        simp [decimalValue, digitChar_value n h10]
      · rw [decimalValue_snoc, decimalValue_digits fuel (n / 10) (by omega),
          digitChar_value _ (Nat.mod_lt _ (by decide))]
        omega

theorem decimal_injective {a b : Nat} (h : decimal a = decimal b) : a = b := by
  have h' : decimalDigits (a + 1) a = decimalDigits (b + 1) b := congrArg String.data h
  have := congrArg decimalValue h'
  rwa [decimalValue_digits _ _ (Nat.lt_succ_self a),
    decimalValue_digits _ _ (Nat.lt_succ_self b)] at this

/-- Distinct indices give distinct candidate paths. -/
theorem outputCandidate_injective : Function.Injective outputCandidate := by
  intro j k h
  have hd := congrArg String.data h
  cases j with
  | zero =>
    cases k with
    | zero => rfl
    | succ k =>
      exfalso
      simp [outputCandidate, baseName, extension] at hd
  | succ j =>
    cases k with
    | zero =>
      exfalso
      simp [outputCandidate, baseName, extension] at hd
    | succ k =>
      simp [outputCandidate, baseName, extension] at hd
      exact decimal_injective (String.ext hd)

theorem outputCandidate_succ (c : Nat) :
    baseName ++ "_" ++ decimal (c + 1) ++ extension = outputCandidate (c + 1) := rfl

/-- Some candidate among the first `files.length + 1` is not in `files`. -/
theorem exists_free_candidate (files : List String) :
    ∃ k, k ≤ files.length ∧ outputCandidate k ∉ files := by
  by_contra hcon
  push_neg at hcon
  have hsub : (Finset.range (files.length + 1)).image outputCandidate ⊆ files.toFinset := by
    intro p hp
    rcases Finset.mem_image.mp hp with ⟨k, hk, rfl⟩
    exact List.mem_toFinset.mpr (hcon k (by simpa [Nat.lt_succ_iff] using hk))
  have h1 := Finset.card_le_card hsub
  rw [Finset.card_image_of_injective _ outputCandidate_injective, Finset.card_range] at h1
  have h2 := List.toFinset_card_le files
  omega

/-- The loop started at candidate `c` walks over `m` existing candidates and stops at the
first free one, provided the fuel exceeds `m`. -/
theorem uniqueNameLoop_spec (fsExists : String → Bool) :
    ∀ (m c fuel : Nat), (∀ j, j < m → fsExists (outputCandidate (c + j)) = true) →
      fsExists (outputCandidate (c + m)) = false → m < fuel →
      uniqueNameLoop fsExists fuel (outputCandidate c) (c + 1) = some (outputCandidate (c + m))
  | 0, c, fuel, _, hfree, hfuel => by
      obtain ⟨f, rfl⟩ : ∃ f, fuel = f + 1 := ⟨fuel - 1, by omega⟩
      simp only [uniqueNameLoop]
      simp at hfree
      simp [hfree]
  | m + 1, c, fuel, hex, hfree, hfuel => by
      obtain ⟨f, rfl⟩ : ∃ f, fuel = f + 1 := ⟨fuel - 1, by omega⟩
      have h0 : fsExists (outputCandidate c) = true := by simpa using hex 0 (by omega)
      simp only [uniqueNameLoop, h0, if_true]
      rw [outputCandidate_succ]
      have := uniqueNameLoop_spec fsExists m (c + 1) f
        (fun j hj => by
          have := hex (j + 1) (by omega)
          rwa [show c + (j + 1) = c + 1 + j by omega] at this)
        (by rwa [show c + (m + 1) = c + 1 + m by omega] at hfree) (by omega)
      rwa [show c + 1 + m = c + (m + 1) by omega] at this

/-- The first free index and the result of the selection, for shared use. -/
theorem uniqueOutputFile_spec (files : List String) :
    ∃ k, k ≤ files.length ∧
      (∀ fuel, files.length + 1 ≤ fuel →
        uniqueOutputFile (fun p => decide (p ∈ files)) fuel = some (outputCandidate k)) ∧
      outputCandidate k ∉ files ∧ ∀ j, j < k → outputCandidate j ∈ files := by
  classical
  have hex : ∃ k, outputCandidate k ∉ files := by
    obtain ⟨k, _, hk⟩ := exists_free_candidate files
    exact ⟨k, hk⟩
  have hle : Nat.find hex ≤ files.length := by
    obtain ⟨k, hk, hk'⟩ := exists_free_candidate files
    exact le_trans (Nat.find_min' hex hk') hk
  refine ⟨Nat.find hex, hle, ?_, Nat.find_spec hex, ?_⟩
  · intro fuel hfuel
    have := uniqueNameLoop_spec (fun p => decide (p ∈ files)) (Nat.find hex) 0 fuel
      (fun j hj => by simpa using Nat.find_min hex hj)
      (by simpa using Nat.find_spec hex) (by omega)
    simpa [uniqueOutputFile, outputCandidate] using this
  · intro j hj
    simpa using Nat.find_min hex hj

/-- C8: for every finite list of existing paths the selection loop ends (any fuel above the
number of existing paths gives the same result) with the first path of `output.mp4`,
`output_1.mp4`, `output_2.mp4`, ... that does not exist: the result does not exist and
every earlier candidate does.  With `output.mp4` and `output_1.mp4` present the result is
`output_2.mp4`. -/
theorem uniqueOutputFile_first_free (files : List String) :
    (∃ k, (∀ fuel, files.length + 1 ≤ fuel →
        uniqueOutputFile (fun p => decide (p ∈ files)) fuel = some (outputCandidate k)) ∧
      outputCandidate k ∉ files ∧ ∀ j, j < k → outputCandidate j ∈ files) ∧
    uniqueOutputFile (fun p => decide (p ∈ ["output.mp4", "output_1.mp4"])) 3 =
      some "output_2.mp4" := by
  refine ⟨?_, by decide⟩
  obtain ⟨k, _, h1, h2, h3⟩ := uniqueOutputFile_spec files
  exact ⟨k, h1, h2, h3⟩

/-! ## Effects of the primitive calls -/

theorem GLState.raise_nextName (g : GLState) (c : Nat) : (g.raise c).nextName = g.nextName := by
  unfold GLState.raise; split <;> rfl

theorem GLState.raise_programs (g : GLState) (c : Nat) : (g.raise c).programs = g.programs := by
  unfold GLState.raise; split <;> rfl

theorem GLState.raise_shaders (g : GLState) (c : Nat) : (g.raise c).shaders = g.shaders := by
  unfold GLState.raise; split <;> rfl

theorem GLState.deleteShader_nextName (g : GLState) (s : Nat) :
    (g.deleteShader s).nextName = g.nextName := by
  unfold GLState.deleteShader
  split_ifs <;> simp [GLState.raise_nextName]

theorem GLState.deleteShader_programs (g : GLState) (s : Nat) :
    (g.deleteShader s).programs = g.programs := by
  unfold GLState.deleteShader
  split_ifs <;> simp [GLState.raise_programs]

theorem GLState.attachShader_nextName (g : GLState) (s : Nat) :
    (g.attachShader s).nextName = g.nextName := by
  unfold GLState.attachShader
  split_ifs <;> simp [GLState.raise_nextName]

theorem GLState.attachShader_programs (g : GLState) (s : Nat) :
    (g.attachShader s).programs = g.programs := by
  unfold GLState.attachShader
  split_ifs <;> simp [GLState.raise_programs]

theorem GLState.deleteProgram_nextName (g : GLState) (p : Nat) :
    (g.deleteProgram p).nextName = g.nextName := by
  unfold GLState.deleteProgram
  split_ifs <;> simp [GLState.raise_nextName]

/-- Deleting a program never adds one. -/
theorem GLState.mem_deleteProgram (g : GLState) (p x : Nat)
    (h : x ∈ (g.deleteProgram p).programs) : x ∈ g.programs := by
  unfold GLState.deleteProgram at h
  split_ifs at h
  · exact h
  · exact (List.mem_filter.mp h).1
  · rwa [GLState.raise_programs] at h

/-- After `glDeleteProgram(p)` with `p` not zero, `p` is not a live program. -/
theorem GLState.not_mem_deleteProgram (g : GLState) (p : Nat) (hp : p ≠ 0) :
    p ∉ (g.deleteProgram p).programs := by
  unfold GLState.deleteProgram
  split_ifs with h1 h2
  · exact absurd h1 hp
  · intro h
    simpa using (List.mem_filter.mp h).2
  · rw [GLState.raise_programs]
    simpa using h2

/-- What `compileShader` returns and how it changes the state: only the context, the trace
and `shaderError` change. -/
theorem compileShader_spec (env : Env) (kind : ShaderKind) (source : String) (st : App) :
    ∃ g e,
      compileShader env kind source st =
        (env.compileStatus st.gl.nextName kind source, st.gl.nextName,
          { st with gl := g, trace := st.trace ++ compileCalls env kind source st.gl.nextName,
                    shaderError := e }) ∧
      g.nextName = st.gl.nextName + 1 ∧ g.programs = st.gl.programs := by
  refine ⟨(compileShader env kind source st).2.2.gl,
    (compileShader env kind source st).2.2.shaderError, ?_⟩
  unfold compileShader compileCalls
  cases h : env.compileStatus st.gl.nextName kind source <;>
    simp [h, App.emit, glDeleteShader, GLState.deleteShader_nextName,
      GLState.deleteShader_programs]

/-- What `linkProgram` returns and how it changes the state: only the context, the trace,
`shaderProgram` and `shaderError` change; the new program has the name `nextName`, it is the
value of `shaderProgram` afterwards, and it is live afterwards only when the result is
`true` (or the name is `0`, which `glDeleteProgram` ignores). -/
theorem linkProgram_spec (env : Env) (v f : Nat) (st : App) :
    ∃ attached g e,
      linkProgram env v f st =
        (env.linkStatus st.gl.nextName attached && env.validateStatus st.gl.nextName attached,
          { st with gl := g, trace := st.trace ++ linkCalls env st.gl.nextName v f attached,
                    shaderProgram := st.gl.nextName, shaderError := e }) ∧
      g.nextName = st.gl.nextName + 1 ∧
      (∀ x, x ∈ g.programs →
        x ∈ st.gl.programs ∨
          (x = st.gl.nextName ∧
            ((env.linkStatus st.gl.nextName attached &&
              env.validateStatus st.gl.nextName attached) = true ∨ st.gl.nextName = 0))) := by
  have hdel : ∀ (g : GLState) (x : Nat), g.programs = st.gl.programs ++ [st.gl.nextName] →
      x ∈ (g.deleteProgram st.gl.nextName).programs →
      x ∈ st.gl.programs ∨ (x = st.gl.nextName ∧ st.gl.nextName = 0) := by
    intro g x hg hx
    have h1 := GLState.mem_deleteProgram _ _ _ hx
    rw [hg] at h1
    rcases List.mem_append.mp h1 with h2 | h2
    · exact Or.inl h2
    · have hxn : x = st.gl.nextName := by simpa using h2
      by_cases h0 : st.gl.nextName = 0
      · exact Or.inr ⟨hxn, h0⟩
      · exact absurd (hxn ▸ hx) (GLState.not_mem_deleteProgram _ _ h0)
  refine ⟨st.gl.attachable v ++ st.gl.attachable f, (linkProgram env v f st).2.gl,
    (linkProgram env v f st).2.shaderError, ?_⟩
  unfold linkProgram linkCalls
  cases h : env.linkStatus st.gl.nextName (st.gl.attachable v ++ st.gl.attachable f) <;>
  cases h' : env.validateStatus st.gl.nextName (st.gl.attachable v ++ st.gl.attachable f) <;>
    simp [h, h', App.emit, glDeleteProgram, glAttachShader, GLState.deleteProgram_nextName,
      GLState.attachShader_nextName, GLState.attachShader_programs]
  all_goals
    intro x hx
    rcases hdel _ x (by simp [GLState.attachShader_programs]) hx with h | h
    · exact Or.inl h
    · exact Or.inr ⟨h.1, h.2⟩

theorem glDeleteShader_trace (s : Nat) (st : App) :
    (glDeleteShader s st).trace = st.trace ++ [.deleteShader s] := rfl


/-- `loadShaderFile` changes nothing but the trace, to which it adds at most a message. -/
theorem loadShaderFile_spec (env : Env) (file error : String) (st : App) :
    ∃ L : List Event, (∀ e ∈ L, ∃ m, e = Event.cerr m) ∧
      (loadShaderFile env file error st).2.2 = { st with trace := st.trace ++ L } := by
  unfold loadShaderFile
  cases env.readFile file with
  | none => exact ⟨[_], by simp, rfl⟩
  | some content =>
    by_cases hc : content.isEmpty
    · simp only [hc, if_true]
      exact ⟨[_], by simp, rfl⟩
    · simp only [hc]
      exact ⟨[], by simp, by simp⟩

/-- The source stage only writes messages to `std::cerr`. -/
theorem applySource_spec (env : Env) (st : App) :
    ∃ L : List Event, (∀ e ∈ L, ∃ m, e = Event.cerr m) ∧
      (applySource env st).2.trace = st.trace ++ L ∧
      (applySource env st).2.gl = st.gl ∧
      (applySource env st).2.shaderProgram = st.shaderProgram ∧
      (applySource env st).2.vertShader = st.vertShader := by
  unfold applySource
  simp only []
  by_cases hf : (shaderFiles env).getD st.currentShaderIndex "fallback" = "fallback"
  · simp only [hf, if_true]
    by_cases he : st.errorMessage = ""
    · simp only [he, ne_eq, not_true_eq_false, if_false]
      exact ⟨[], by simp, by simp, by trivial, by trivial, by trivial⟩
    · simp only [he, ne_eq, not_false_eq_true, if_true]
      exact ⟨[_], by simp, rfl, rfl, rfl, rfl⟩
  · simp only [hf, if_false]
    obtain ⟨L, hL, hst⟩ := loadShaderFile_spec env
      ((shaderFiles env).getD st.currentShaderIndex "fallback") st.errorMessage st
    rcases hr : loadShaderFile env ((shaderFiles env).getD st.currentShaderIndex "fallback")
      st.errorMessage st with ⟨content, error, st1⟩
    rw [hr] at hst
    simp only at hst ⊢
    subst hst
    by_cases he : error = ""
    · simp only [he, ne_eq, not_true_eq_false, if_false]
      exact ⟨L, hL, by trivial, by trivial, by trivial, by trivial⟩
    · simp only [he, ne_eq, not_false_eq_true, if_true]
      refine ⟨L ++ [_], ?_, by simp [App.emit]; rfl, rfl, rfl, rfl⟩
      intro e hmem
      rcases List.mem_append.mp hmem with h | h
      · exact hL e h
      · exact ⟨_, by simpa using h⟩


/-- The source stage of the initial build only writes messages to `std::cerr`. -/
theorem initialSource_spec (env : Env) (st : App) :
    ∃ L : List Event, (∀ e ∈ L, ∃ m, e = Event.cerr m) ∧
      (initialSource env st).2.trace = st.trace ++ L ∧
      (initialSource env st).2.gl = st.gl ∧
      (initialSource env st).2.shaderProgram = st.shaderProgram ∧
      (initialSource env st).2.vertShader = st.vertShader := by
  unfold initialSource
  simp only []
  by_cases hf : (shaderFiles env).getD 0 "fallback" = "fallback"
  · simp only [hf, if_true]
    by_cases he : st.shaderError = ""
    · simp only [he, ne_eq, not_true_eq_false, if_false]
      exact ⟨[], by simp, by simp, by trivial, by trivial, by trivial⟩
    · simp only [he, ne_eq, not_false_eq_true, if_true]
      exact ⟨[_], by simp, rfl, rfl, rfl, rfl⟩
  · simp only [hf, if_false]
    obtain ⟨L, hL, hst⟩ := loadShaderFile_spec env
      ((shaderFiles env).getD 0 "fallback") st.shaderError st
    rcases hr : loadShaderFile env ((shaderFiles env).getD 0 "fallback")
      st.shaderError st with ⟨content, error, st1⟩
    rw [hr] at hst
    simp only at hst ⊢
    subst hst
    by_cases he : error = ""
    · simp only [he, ne_eq, not_true_eq_false, if_false]
      exact ⟨L, hL, by trivial, by trivial, by trivial, by trivial⟩
    · simp only [he, ne_eq, not_false_eq_true, if_true]
      refine ⟨L ++ [_], ?_, by simp [App.emit]; rfl, rfl, rfl, rfl⟩
      intro e hmem
      rcases List.mem_append.mp hmem with h | h
      · exact hL e h
      · exact ⟨_, by simpa using h⟩

/-- The link stage of the `Apply Shader` block: on failure the block leaves through
`continue` with no active program, on success the new program is the active one. -/
theorem applyLink_spec (env : Env) (st : App) :
    ∃ attached m,
      (applyLink env st).2 =
        !(env.linkStatus st.gl.nextName attached && env.validateStatus st.gl.nextName attached) ∧
      (applyLink env st).1.shaderProgram =
        (if (applyLink env st).2 then 0 else st.gl.nextName) ∧
      (applyLink env st).1.gl.nextName = st.gl.nextName + 1 ∧
      (applyLink env st).1.trace =
        st.trace ++ linkCalls env st.gl.nextName st.vertShader st.fragShader attached ++
          (if (applyLink env st).2 then [Event.cerr m] else []) ++
          [.deleteShader st.vertShader, .deleteShader st.fragShader] ∧
      (∀ x, x ∈ (applyLink env st).1.gl.programs →
        x ∈ st.gl.programs ∨
          (x = st.gl.nextName ∧ ((applyLink env st).2 = false ∨ st.gl.nextName = 0))) := by
  obtain ⟨attached, g, e, h1, h2, h3⟩ := linkProgram_spec env st.vertShader st.fragShader st
  refine ⟨attached, e ++ "\n", ?_⟩
  unfold applyLink
  rw [h1]
  cases hok : (env.linkStatus st.gl.nextName attached &&
      env.validateStatus st.gl.nextName attached)
  · rw [hok] at h3
    simp [App.emit, glDeleteShader, GLState.deleteShader_nextName,
      GLState.deleteShader_programs, h2]
    intro x hx
    rcases h3 x hx with h | ⟨h, h'⟩
    · exact Or.inl h
    · exact Or.inr ⟨h, by simpa using h'⟩
  · rw [hok] at h3
    simp [App.emit, glDeleteShader, GLState.deleteShader_nextName,
      GLState.deleteShader_programs, h2]
    intro x hx
    rcases h3 x hx with h | ⟨h, _⟩
    · exact Or.inl h
    · exact Or.inr h

/-- The link stage of the initial build: on failure `main` returns `-1`, on success the new
program is the active one. -/
theorem initialLink_spec (env : Env) (st : App) :
    ∃ attached m,
      (initialLink env st).2 =
        !(env.linkStatus st.gl.nextName attached && env.validateStatus st.gl.nextName attached) ∧
      (initialLink env st).1.shaderProgram = st.gl.nextName ∧
      (initialLink env st).1.gl.nextName = st.gl.nextName + 1 ∧
      (initialLink env st).1.trace =
        st.trace ++ linkCalls env st.gl.nextName st.vertShader st.fragShader attached ++
          (if (initialLink env st).2 then [Event.cerr m] else []) ++
          [.deleteShader st.vertShader, .deleteShader st.fragShader] ∧
      (∀ x, x ∈ (initialLink env st).1.gl.programs →
        x ∈ st.gl.programs ∨
          (x = st.gl.nextName ∧ ((initialLink env st).2 = false ∨ st.gl.nextName = 0))) := by
  obtain ⟨attached, g, e, h1, h2, h3⟩ := linkProgram_spec env st.vertShader st.fragShader st
  refine ⟨attached, e ++ "\n", ?_⟩
  unfold initialLink
  rw [h1]
  cases hok : (env.linkStatus st.gl.nextName attached &&
      env.validateStatus st.gl.nextName attached)
  · rw [hok] at h3
    simp [App.emit, glDeleteShader, GLState.deleteShader_nextName,
      GLState.deleteShader_programs, h2]
    intro x hx
    rcases h3 x hx with h | ⟨h, h'⟩
    · exact Or.inl h
    · exact Or.inr ⟨h, by simpa using h'⟩
  · rw [hok] at h3
    simp [App.emit, glDeleteShader, GLState.deleteShader_nextName,
      GLState.deleteShader_programs, h2]
    intro x hx
    rcases h3 x hx with h | ⟨h, _⟩
    · exact Or.inl h
    · exact Or.inr h

/-- The fragment stage of the `Apply Shader` block: the supplied source compiles; or it
fails and the fallback compiles; or both fail and the block leaves through `continue` with
no active program. -/
theorem applyFragment_spec (env : Env) (src : String) (st : App) :
    (applyFragment env src st).1.gl.programs = st.gl.programs ∧
    (applyFragment env src st).1.vertShader = st.vertShader ∧
    ((env.compileStatus st.gl.nextName .fragment src = true ∧
        (applyFragment env src st).2 = false ∧
        (applyFragment env src st).1.trace =
          st.trace ++ compileCalls env .fragment src st.gl.nextName ∧
        (applyFragment env src st).1.gl.nextName = st.gl.nextName + 1 ∧
        (applyFragment env src st).1.fragShader = st.gl.nextName ∧
        (applyFragment env src st).1.shaderProgram = st.shaderProgram) ∨
     (env.compileStatus st.gl.nextName .fragment src = false ∧
        env.compileStatus (st.gl.nextName + 1) .fragment fallbackFragmentShaderSource = true ∧
        (applyFragment env src st).2 = false ∧
        (∃ m, (applyFragment env src st).1.trace =
          st.trace ++ compileCalls env .fragment src st.gl.nextName ++
            [.cerr m, .deleteShader st.vertShader] ++
            compileCalls env .fragment fallbackFragmentShaderSource (st.gl.nextName + 1)) ∧
        (applyFragment env src st).1.gl.nextName = st.gl.nextName + 2 ∧
        (applyFragment env src st).1.fragShader = st.gl.nextName + 1 ∧
        (applyFragment env src st).1.shaderProgram = st.shaderProgram) ∨
     (env.compileStatus st.gl.nextName .fragment src = false ∧
        env.compileStatus (st.gl.nextName + 1) .fragment fallbackFragmentShaderSource = false ∧
        (applyFragment env src st).2 = true ∧
        (∃ m m', (applyFragment env src st).1.trace =
          st.trace ++ compileCalls env .fragment src st.gl.nextName ++
            [.cerr m, .deleteShader st.vertShader] ++
            compileCalls env .fragment fallbackFragmentShaderSource (st.gl.nextName + 1) ++
            [.cerr m', .deleteShader st.vertShader]) ∧
        (applyFragment env src st).1.gl.nextName = st.gl.nextName + 2 ∧
        (applyFragment env src st).1.shaderProgram = 0)) := by
  obtain ⟨g, e, h1, h2, h3⟩ := compileShader_spec env .fragment src st
  unfold applyFragment
  rw [h1]
  cases hok : env.compileStatus st.gl.nextName .fragment src
  · -- the supplied source fails
    simp only [Bool.not_false, if_true]
    generalize hst1 : glDeleteShader _ _ = st1
    have t1 : st1.trace = st.trace ++ compileCalls env .fragment src st.gl.nextName ++
        [.cerr (e ++ "\n"), .deleteShader st.vertShader] := by
      subst hst1; simp [glDeleteShader, App.emit]
    have n1 : st1.gl.nextName = st.gl.nextName + 1 := by
      subst hst1; simp [glDeleteShader, App.emit, GLState.deleteShader_nextName, h2]
    have p1 : st1.gl.programs = st.gl.programs := by
      subst hst1; simp [glDeleteShader, App.emit, GLState.deleteShader_programs, h3]
    have v1 : st1.vertShader = st.vertShader := by subst hst1; rfl
    have s1 : st1.shaderProgram = st.shaderProgram := by subst hst1; rfl
    obtain ⟨g', e', k1, k2, k3⟩ := compileShader_spec env .fragment fallbackFragmentShaderSource st1
    rw [k1, n1]
    cases hok' : env.compileStatus (st.gl.nextName + 1) .fragment fallbackFragmentShaderSource
    · refine ⟨?_, ?_, Or.inr (Or.inr ⟨?_, ?_, ?_, ⟨e ++ "\n", e' ++ "\n", ?_⟩, ?_, ?_⟩)⟩ <;>
        simp [App.emit, glDeleteShader, GLState.deleteShader_programs,
          GLState.deleteShader_nextName, k2, k3, n1, p1, v1, t1]
    · refine ⟨?_, ?_, Or.inr (Or.inl ⟨?_, ?_, ?_, ⟨e ++ "\n", ?_⟩, ?_, ?_, ?_⟩)⟩ <;>
        simp [App.emit, k2, k3, n1, p1, v1, t1, s1]
  · refine ⟨?_, ?_, Or.inl ⟨?_, ?_, ?_, ?_, ?_, ?_⟩⟩ <;> simp [h2, h3]


/-- The fragment stage of the initial build: the supplied source compiles; or it fails and
the fallback compiles; or both fail and `main` returns `-1`. -/
theorem initialFragment_spec (env : Env) (src : String) (st : App) :
    (initialFragment env src st).1.gl.programs = st.gl.programs ∧
    (initialFragment env src st).1.vertShader = st.vertShader ∧
    (initialFragment env src st).1.shaderProgram = st.shaderProgram ∧
    ((env.compileStatus st.gl.nextName .fragment src = true ∧
        (initialFragment env src st).2 = false ∧
        (initialFragment env src st).1.trace =
          st.trace ++ compileCalls env .fragment src st.gl.nextName ∧
        (initialFragment env src st).1.gl.nextName = st.gl.nextName + 1 ∧
        (initialFragment env src st).1.fragShader = st.gl.nextName) ∨
     (env.compileStatus st.gl.nextName .fragment src = false ∧
        env.compileStatus (st.gl.nextName + 1) .fragment fallbackFragmentShaderSource = true ∧
        (initialFragment env src st).2 = false ∧
        (∃ m, (initialFragment env src st).1.trace =
          st.trace ++ compileCalls env .fragment src st.gl.nextName ++
            [.cerr m, .deleteShader st.vertShader] ++
            compileCalls env .fragment fallbackFragmentShaderSource (st.gl.nextName + 1)) ∧
        (initialFragment env src st).1.gl.nextName = st.gl.nextName + 2 ∧
        (initialFragment env src st).1.fragShader = st.gl.nextName + 1) ∨
     (env.compileStatus st.gl.nextName .fragment src = false ∧
        env.compileStatus (st.gl.nextName + 1) .fragment fallbackFragmentShaderSource = false ∧
        (initialFragment env src st).2 = true ∧
        (∃ m m', (initialFragment env src st).1.trace =
          st.trace ++ compileCalls env .fragment src st.gl.nextName ++
            [.cerr m, .deleteShader st.vertShader] ++
            compileCalls env .fragment fallbackFragmentShaderSource (st.gl.nextName + 1) ++
            [.cerr m']) ∧
        (initialFragment env src st).1.gl.nextName = st.gl.nextName + 2)) := by
  obtain ⟨g, e, h1, h2, h3⟩ := compileShader_spec env .fragment src st
  unfold initialFragment
  rw [h1]
  cases hok : env.compileStatus st.gl.nextName .fragment src
  · simp only [Bool.not_false, if_true]
    generalize hst1 : glDeleteShader _ _ = st1
    have t1 : st1.trace = st.trace ++ compileCalls env .fragment src st.gl.nextName ++
        [.cerr (e ++ "\n"), .deleteShader st.vertShader] := by
      subst hst1; simp [glDeleteShader, App.emit]
    have n1 : st1.gl.nextName = st.gl.nextName + 1 := by
      subst hst1; simp [glDeleteShader, App.emit, GLState.deleteShader_nextName, h2]
    have p1 : st1.gl.programs = st.gl.programs := by
      subst hst1; simp [glDeleteShader, App.emit, GLState.deleteShader_programs, h3]
    have v1 : st1.vertShader = st.vertShader := by subst hst1; rfl
    have s1 : st1.shaderProgram = st.shaderProgram := by subst hst1; rfl
    obtain ⟨g', e', k1, k2, k3⟩ := compileShader_spec env .fragment fallbackFragmentShaderSource st1
    rw [k1, n1]
    cases hok' : env.compileStatus (st.gl.nextName + 1) .fragment fallbackFragmentShaderSource
    · refine ⟨?_, ?_, ?_, Or.inr (Or.inr ⟨?_, ?_, ?_, ⟨e ++ "\n", e' ++ "\n", ?_⟩, ?_⟩)⟩ <;>
        simp [App.emit, k2, k3, n1, p1, v1, t1, s1]
    · refine ⟨?_, ?_, ?_, Or.inr (Or.inl ⟨?_, ?_, ?_, ⟨e ++ "\n", ?_⟩, ?_, ?_⟩)⟩ <;>
        simp [App.emit, k2, k3, n1, p1, v1, t1, s1]
  · refine ⟨?_, ?_, ?_, Or.inl ⟨?_, ?_, ?_, ?_, ?_⟩⟩ <;> simp [h2, h3]

/-- The release stage: the active program, if any, is deleted and is not live afterwards. -/
theorem applyRelease_spec (st : App) :
    (applyRelease st).trace = st.trace ++
      (if st.shaderProgram ≠ 0 then [Event.deleteProgram st.shaderProgram] else []) ∧
    (applyRelease st).gl.nextName = st.gl.nextName ∧
    (applyRelease st).shaderProgram = st.shaderProgram ∧
    (∀ x, x ∈ (applyRelease st).gl.programs →
      x ∈ st.gl.programs ∧ (st.shaderProgram = 0 ∨ x ≠ st.shaderProgram)) := by
  unfold applyRelease
  by_cases h : st.shaderProgram = 0
  · simp [h]
  · simp only [ne_eq, h, not_false_eq_true, if_true, glDeleteProgram,
      GLState.deleteProgram_nextName, true_and]
    intro x hx
    refine ⟨GLState.mem_deleteProgram _ _ _ hx, Or.inr ?_⟩
    rintro rfl
    exact GLState.not_mem_deleteProgram _ _ h hx


/-- The part of the `Apply Shader` block after the vertex shader has compiled, started with
`n = nextName` and the vertex shader `v`: either the fragment shader and the fallback do not
compile, or the link stage is reached and decides the outcome. -/
theorem applyBuild_spec (env : Env) (st : App) :
    (∀ x, x ∈ (applyBuild env st).1.gl.programs →
      x ∈ st.gl.programs ∨
        ((applyBuild env st).2 = false ∧ x = (applyBuild env st).1.shaderProgram)) ∧
    ((∃ src L m m',
        (∀ e ∈ L, ∃ t, e = Event.cerr t) ∧
        env.compileStatus st.gl.nextName .fragment src = false ∧
        env.compileStatus (st.gl.nextName + 1) .fragment fallbackFragmentShaderSource = false ∧
        (applyBuild env st).2 = true ∧
        (applyBuild env st).1.shaderProgram = 0 ∧
        (applyBuild env st).1.gl.nextName = st.gl.nextName + 2 ∧
        (applyBuild env st).1.trace =
          st.trace ++ L ++ compileCalls env .fragment src st.gl.nextName ++
            [.cerr m, .deleteShader st.vertShader] ++
            compileCalls env .fragment fallbackFragmentShaderSource (st.gl.nextName + 1) ++
            [.cerr m', .deleteShader st.vertShader]) ∨
     (∃ src L F p f attached m,
        (∀ e ∈ L, ∃ t, e = Event.cerr t) ∧
        ((env.compileStatus st.gl.nextName .fragment src = true ∧
            F = compileCalls env .fragment src st.gl.nextName ∧
            p = st.gl.nextName + 1 ∧ f = st.gl.nextName) ∨
         (env.compileStatus st.gl.nextName .fragment src = false ∧
            env.compileStatus (st.gl.nextName + 1) .fragment fallbackFragmentShaderSource = true ∧
            (∃ m1, F = compileCalls env .fragment src st.gl.nextName ++
              [.cerr m1, .deleteShader st.vertShader] ++
              compileCalls env .fragment fallbackFragmentShaderSource (st.gl.nextName + 1)) ∧
            p = st.gl.nextName + 2 ∧ f = st.gl.nextName + 1)) ∧
        (applyBuild env st).2 =
          !(env.linkStatus p attached && env.validateStatus p attached) ∧
        (applyBuild env st).1.shaderProgram = (if (applyBuild env st).2 then 0 else p) ∧
        (applyBuild env st).1.gl.nextName = p + 1 ∧
        (applyBuild env st).1.trace =
          st.trace ++ L ++ F ++ linkCalls env p st.vertShader f attached ++
            (if (applyBuild env st).2 then [Event.cerr m] else []) ++
            [.deleteShader st.vertShader, .deleteShader f])) := by
  obtain ⟨L, hL, a1, a2, a3, a4⟩ := applySource_spec env st
  unfold applyBuild
  rcases hsrc : applySource env st with ⟨src, st2⟩
  rw [hsrc] at a1 a2 a3 a4
  simp only at a1 a2 a3 a4 ⊢
  obtain ⟨f1, f2, f3⟩ := applyFragment_spec env src st2
  obtain ⟨attached, ml, l1, l2, l3, l4, l5⟩ := applyLink_spec env (applyFragment env src st2).1
  rw [a2] at f1 f3
  rw [a4] at f2 f3
  rw [a1, a3] at f3
  rcases f3 with ⟨c1, c2, c3, c4, c5, c6⟩ | ⟨c1, c2, c3, ⟨m, c4⟩, c5, c6, c7⟩ |
    ⟨c1, c2, c3, ⟨m, m', c4⟩, c5, c6⟩
  · -- the supplied fragment shader compiles
    simp only [c2, Bool.false_eq_true, if_false]
    rw [c4] at l1 l2 l3 l4 l5
    rw [f2, c5, c3] at l4
    refine ⟨?_, Or.inr ⟨src, L, _, _, _, attached, ml, hL,
      Or.inl ⟨c1, rfl, rfl, rfl⟩, l1, l2, l3, ?_⟩⟩
    · intro x hx
      rcases l5 x hx with h | ⟨h, h'⟩
      · rw [f1] at h
        exact Or.inl h
      · rcases h' with h' | h'
        · refine Or.inr ⟨h', ?_⟩
          rw [l2, h', h]
          simp
        · omega
    · rw [l4]
  · -- the fallback compiles
    simp only [c3, Bool.false_eq_true, if_false]
    rw [c5] at l1 l2 l3 l4 l5
    rw [f2, c6, c4] at l4
    refine ⟨?_, Or.inr ⟨src, L, _, _, _, attached, ml, hL,
      Or.inr ⟨c1, c2, ⟨m, rfl⟩, rfl, rfl⟩, l1, l2, l3, ?_⟩⟩
    · intro x hx
      rcases l5 x hx with h | ⟨h, h'⟩
      · rw [f1] at h
        exact Or.inl h
      · rcases h' with h' | h'
        · refine Or.inr ⟨h', ?_⟩
          rw [l2, h', h]
          simp
        · omega
    · rw [l4]
      simp [List.append_assoc]
  · -- neither compiles
    simp only [c3, if_true]
    refine ⟨?_, Or.inl ⟨src, L, m, m', hL, c1, c2, trivial, c6, c5, ?_⟩⟩
    · intro x hx
      rw [f1] at hx
      exact Or.inl hx
    · rw [c4]


/-- The part of the initial build after the vertex shader has compiled: either the fragment
shader and the fallback do not compile and `main` returns `-1`, or the link stage is reached
and decides the outcome. -/
theorem initialBuildRest_spec (env : Env) (st : App) :
    (∀ x, x ∈ (initialBuildRest env st).1.gl.programs →
      x ∈ st.gl.programs ∨
        ((initialBuildRest env st).2 = false ∧ x = (initialBuildRest env st).1.shaderProgram)) ∧
    ((∃ src L m m',
        (∀ e ∈ L, ∃ t, e = Event.cerr t) ∧
        env.compileStatus st.gl.nextName .fragment src = false ∧
        env.compileStatus (st.gl.nextName + 1) .fragment fallbackFragmentShaderSource = false ∧
        (initialBuildRest env st).2 = true ∧
        (initialBuildRest env st).1.gl.nextName = st.gl.nextName + 2 ∧
        (initialBuildRest env st).1.trace =
          st.trace ++ L ++ compileCalls env .fragment src st.gl.nextName ++
            [.cerr m, .deleteShader st.vertShader] ++
            compileCalls env .fragment fallbackFragmentShaderSource (st.gl.nextName + 1) ++
            [.cerr m']) ∨
     (∃ src L F p f attached m,
        (∀ e ∈ L, ∃ t, e = Event.cerr t) ∧
        ((env.compileStatus st.gl.nextName .fragment src = true ∧
            F = compileCalls env .fragment src st.gl.nextName ∧
            p = st.gl.nextName + 1 ∧ f = st.gl.nextName) ∨
         (env.compileStatus st.gl.nextName .fragment src = false ∧
            env.compileStatus (st.gl.nextName + 1) .fragment fallbackFragmentShaderSource = true ∧
            (∃ m1, F = compileCalls env .fragment src st.gl.nextName ++
              [.cerr m1, .deleteShader st.vertShader] ++
              compileCalls env .fragment fallbackFragmentShaderSource (st.gl.nextName + 1)) ∧
            p = st.gl.nextName + 2 ∧ f = st.gl.nextName + 1)) ∧
        (initialBuildRest env st).2 =
          !(env.linkStatus p attached && env.validateStatus p attached) ∧
        (initialBuildRest env st).1.shaderProgram = p ∧
        (initialBuildRest env st).1.gl.nextName = p + 1 ∧
        (initialBuildRest env st).1.trace =
          st.trace ++ L ++ F ++ linkCalls env p st.vertShader f attached ++
            (if (initialBuildRest env st).2 then [Event.cerr m] else []) ++
            [.deleteShader st.vertShader, .deleteShader f])) := by
  obtain ⟨L, hL, a1, a2, a3, a4⟩ := initialSource_spec env st
  unfold initialBuildRest
  rcases hsrc : initialSource env st with ⟨src, st2⟩
  rw [hsrc] at a1 a2 a3 a4
  simp only at a1 a2 a3 a4 ⊢
  obtain ⟨f1, f2, f0, f3⟩ := initialFragment_spec env src st2
  obtain ⟨attached, ml, l1, l2, l3, l4, l5⟩ :=
    initialLink_spec env (initialFragment env src st2).1
  rw [a2] at f1 f3
  rw [a4] at f2 f3
  rw [a1] at f3
  rcases f3 with ⟨c1, c2, c3, c4, c5⟩ | ⟨c1, c2, c3, ⟨m, c4⟩, c5, c6⟩ |
    ⟨c1, c2, c3, ⟨m, m', c4⟩, c5⟩
  · -- the supplied fragment shader compiles
    simp only [c2, Bool.false_eq_true, if_false]
    rw [c4] at l1 l2 l3 l4 l5
    rw [f2, c5, c3] at l4
    refine ⟨?_, Or.inr ⟨src, L, _, _, _, attached, ml, hL,
      Or.inl ⟨c1, rfl, rfl, rfl⟩, l1, l2, l3, ?_⟩⟩
    · intro x hx
      rcases l5 x hx with h | ⟨h, h'⟩
      · rw [f1] at h
        exact Or.inl h
      · rcases h' with h' | h'
        · exact Or.inr ⟨h', by rw [l2, h]⟩
        · omega
    · rw [l4]
  · -- the fallback compiles
    simp only [c3, Bool.false_eq_true, if_false]
    rw [c5] at l1 l2 l3 l4 l5
    rw [f2, c6, c4] at l4
    refine ⟨?_, Or.inr ⟨src, L, _, _, _, attached, ml, hL,
      Or.inr ⟨c1, c2, ⟨m, rfl⟩, rfl, rfl⟩, l1, l2, l3, ?_⟩⟩
    · intro x hx
      rcases l5 x hx with h | ⟨h, h'⟩
      · rw [f1] at h
        exact Or.inl h
      · rcases h' with h' | h'
        · exact Or.inr ⟨h', by rw [l2, h]⟩
        · omega
    · rw [l4]
      simp [List.append_assoc]
  · -- neither compiles
    simp only [c3, if_true]
    refine ⟨?_, Or.inl ⟨src, L, m, m', hL, c1, c2, trivial, c5, ?_⟩⟩
    · intro x hx
      rw [f1] at hx
      exact Or.inl hx
    · rw [c4]

/-- The `Apply Shader` block up to the vertex shader: either it does not compile and the
block leaves through `continue` with no active program, or the rest of the block runs from a
state in which the old program is deleted and the vertex shader has the name `nextName`. -/
theorem applyShaderBlock_cases (env : Env) (st : App) :
    (env.compileStatus st.gl.nextName .vertex vertexShaderSource = false ∧
      (applyShaderBlock env st).2 = true ∧
      (applyShaderBlock env st).1.shaderProgram = 0 ∧
      (applyShaderBlock env st).1.gl.nextName = st.gl.nextName + 1 ∧
      (∃ m, (applyShaderBlock env st).1.trace =
        st.trace ++
          (if st.shaderProgram ≠ 0 then [Event.deleteProgram st.shaderProgram] else []) ++
          compileCalls env .vertex vertexShaderSource st.gl.nextName ++ [.cerr m]) ∧
      (∀ x, x ∈ (applyShaderBlock env st).1.gl.programs →
        x ∈ st.gl.programs ∧ (st.shaderProgram = 0 ∨ x ≠ st.shaderProgram))) ∨
    (env.compileStatus st.gl.nextName .vertex vertexShaderSource = true ∧
      ∃ st1, applyShaderBlock env st = applyBuild env st1 ∧
        st1.trace = st.trace ++
          (if st.shaderProgram ≠ 0 then [Event.deleteProgram st.shaderProgram] else []) ++
          compileCalls env .vertex vertexShaderSource st.gl.nextName ∧
        st1.gl.nextName = st.gl.nextName + 1 ∧
        st1.vertShader = st.gl.nextName ∧
        st1.shaderProgram = st.shaderProgram ∧
        (∀ x, x ∈ st1.gl.programs →
          x ∈ st.gl.programs ∧ (st.shaderProgram = 0 ∨ x ≠ st.shaderProgram))) := by
  obtain ⟨r1, r2, r3, r4⟩ := applyRelease_spec st
  obtain ⟨g, e, h1, h2, h3⟩ := compileShader_spec env .vertex vertexShaderSource (applyRelease st)
  unfold applyShaderBlock
  simp only []
  rw [h1, r2]
  cases hokv : env.compileStatus st.gl.nextName .vertex vertexShaderSource
  · refine Or.inl ⟨rfl, rfl, rfl, ?_, ⟨e ++ "\n", ?_⟩, ?_⟩
    · simp [App.emit, h2, r2]
    · simp [App.emit, r1]
    · intro x hx
      simp only [App.emit, Bool.not_false, if_true] at hx
      rw [h3] at hx
      exact r4 x hx
  · refine Or.inr ⟨rfl, _, by simp; rfl, ?_, ?_, rfl, ?_, ?_⟩
    · simp [r1]
    · simp [h2, r2]
    · simp [r3]
    · intro x hx
      simp only [h3] at hx
      exact r4 x hx


/-- The initial build up to the vertex shader: either it does not compile and `main` returns
`-1`, or the rest of the build runs from a state in which the vertex shader has the name
`nextName`. -/
theorem initialBuild_cases (env : Env) (st : App) :
    (env.compileStatus st.gl.nextName .vertex vertexShaderSource = false ∧
      (initialBuild env st).2 = true ∧
      (initialBuild env st).1.shaderProgram = st.shaderProgram ∧
      (initialBuild env st).1.gl.nextName = st.gl.nextName + 1 ∧
      (∃ m, (initialBuild env st).1.trace =
        st.trace ++ compileCalls env .vertex vertexShaderSource st.gl.nextName ++ [.cerr m]) ∧
      (initialBuild env st).1.gl.programs = st.gl.programs) ∨
    (env.compileStatus st.gl.nextName .vertex vertexShaderSource = true ∧
      ∃ st1, initialBuild env st = initialBuildRest env st1 ∧
        st1.trace = st.trace ++ compileCalls env .vertex vertexShaderSource st.gl.nextName ∧
        st1.gl.nextName = st.gl.nextName + 1 ∧
        st1.vertShader = st.gl.nextName ∧
        st1.shaderProgram = st.shaderProgram ∧
        st1.gl.programs = st.gl.programs) := by
  obtain ⟨g, e, h1, h2, h3⟩ := compileShader_spec env .vertex vertexShaderSource st
  unfold initialBuild
  simp only []
  rw [h1]
  cases hokv : env.compileStatus st.gl.nextName .vertex vertexShaderSource
  · refine Or.inl ⟨rfl, rfl, rfl, ?_, ⟨e ++ "\n", ?_⟩, ?_⟩
    · simp [App.emit, h2]
    · simp [App.emit]
    · simp [App.emit, h3]
  · refine Or.inr ⟨rfl, _, by simp; rfl, ?_, ?_, rfl, ?_, ?_⟩
    · simp
    · simp [h2]
    · simp
    · simp [h3]

/-! ## Reading traces -/

theorem eventsSince_of_trace {st st' : App} {evs : List Event}
    (h : st'.trace = st.trace ++ evs) : eventsSince st st' = evs := by
  simp [eventsSince, h]

theorem fragmentCompiles_append (a b : List Event) :
    fragmentCompiles (a ++ b) = fragmentCompiles a ++ fragmentCompiles b := by
  simp [fragmentCompiles, List.filterMap_append]

theorem compiles_append (a b : List Event) : compiles (a ++ b) = compiles a ++ compiles b := by
  simp [compiles, List.filterMap_append]

theorem linkAttempts_append (a b : List Event) :
    linkAttempts (a ++ b) = linkAttempts a ++ linkAttempts b := by
  simp [linkAttempts, List.filterMap_append]

theorem fragmentCompiles_cerr (L : List Event) (hL : ∀ e ∈ L, ∃ t, e = Event.cerr t) :
    fragmentCompiles L = [] := by
  induction L with
  | nil => rfl
  | cons e L ih =>
    obtain ⟨t, rfl⟩ := hL _ (List.mem_cons_self _ _)
    have := ih (fun e he => hL e (List.mem_cons_of_mem _ he))
    simpa [fragmentCompiles] using this

theorem compiles_cerr (L : List Event) (hL : ∀ e ∈ L, ∃ t, e = Event.cerr t) :
    compiles L = [] := by
  induction L with
  | nil => rfl
  | cons e L ih =>
    obtain ⟨t, rfl⟩ := hL _ (List.mem_cons_self _ _)
    have := ih (fun e he => hL e (List.mem_cons_of_mem _ he))
    simpa [compiles] using this

theorem linkAttempts_cerr (L : List Event) (hL : ∀ e ∈ L, ∃ t, e = Event.cerr t) :
    linkAttempts L = [] := by
  induction L with
  | nil => rfl
  | cons e L ih =>
    obtain ⟨t, rfl⟩ := hL _ (List.mem_cons_self _ _)
    have := ih (fun e he => hL e (List.mem_cons_of_mem _ he))
    simpa [linkAttempts] using this

theorem fragmentCompiles_compileCalls_fragment (env : Env) (src : String) (n : Nat) :
    fragmentCompiles (compileCalls env .fragment src n) =
      [(src, env.compileStatus n .fragment src)] := by
  unfold compileCalls fragmentCompiles
  cases env.compileStatus n .fragment src <;> simp

theorem fragmentCompiles_compileCalls_vertex (env : Env) (src : String) (n : Nat) :
    fragmentCompiles (compileCalls env .vertex src n) = [] := by
  unfold compileCalls fragmentCompiles
  cases env.compileStatus n .vertex src <;> simp

theorem compiles_compileCalls (env : Env) (kind : ShaderKind) (src : String) (n : Nat) :
    compiles (compileCalls env kind src n) = [(kind, src, env.compileStatus n kind src)] := by
  unfold compileCalls compiles
  cases env.compileStatus n kind src <;> simp

theorem linkAttempts_compileCalls (env : Env) (kind : ShaderKind) (src : String) (n : Nat) :
    linkAttempts (compileCalls env kind src n) = [] := by
  unfold compileCalls linkAttempts
  cases env.compileStatus n kind src <;> simp

theorem fragmentCompiles_linkCalls (env : Env) (p v f : Nat)
    (attached : List (ShaderKind × String)) :
    fragmentCompiles (linkCalls env p v f attached) = [] := by
  unfold linkCalls fragmentCompiles
  cases env.linkStatus p attached <;> cases env.validateStatus p attached <;> simp

theorem compiles_linkCalls (env : Env) (p v f : Nat) (attached : List (ShaderKind × String)) :
    compiles (linkCalls env p v f attached) = [] := by
  unfold linkCalls compiles
  cases env.linkStatus p attached <;> cases env.validateStatus p attached <;> simp

theorem linkAttempts_linkCalls (env : Env) (p v f : Nat)
    (attached : List (ShaderKind × String)) :
    linkAttempts (linkCalls env p v f attached) = [(p, env.linkStatus p attached)] := by
  unfold linkCalls linkAttempts
  cases env.linkStatus p attached <;> cases env.validateStatus p attached <;> simp

theorem fragmentCompiles_release (sp : Nat) :
    fragmentCompiles (if sp ≠ 0 then [Event.deleteProgram sp] else []) = [] := by
  split <;> simp [fragmentCompiles]

theorem compiles_release (sp : Nat) :
    compiles (if sp ≠ 0 then [Event.deleteProgram sp] else []) = [] := by
  split <;> simp [compiles]

theorem linkAttempts_release (sp : Nat) :
    linkAttempts (if sp ≠ 0 then [Event.deleteProgram sp] else []) = [] := by
  split <;> simp [linkAttempts]

theorem fragmentCompiles_failure (b : Bool) (m : String) :
    fragmentCompiles (if b then [Event.cerr m] else []) = [] := by
  cases b <;> simp [fragmentCompiles]

theorem compiles_failure (b : Bool) (m : String) :
    compiles (if b then [Event.cerr m] else []) = [] := by
  cases b <;> simp [compiles]

theorem linkAttempts_failure (b : Bool) (m : String) :
    linkAttempts (if b then [Event.cerr m] else []) = [] := by
  cases b <;> simp [linkAttempts]


/-! ## Fallback retry (C3) -/

/-- The fragment compilations of the `Apply Shader` block from the vertex shader on. -/
theorem applyBuild_fragmentCompiles (env : Env) (st : App) :
    ∃ src,
      (fragmentCompiles (eventsSince st (applyBuild env st).1) = [(src, true)] ∧
        compiles (eventsSince st (applyBuild env st).1) = [(.fragment, src, true)]) ∨
      (fragmentCompiles (eventsSince st (applyBuild env st).1) =
          [(src, false), (fallbackFragmentShaderSource, true)] ∧
        compiles (eventsSince st (applyBuild env st).1) =
          [(.fragment, src, false), (.fragment, fallbackFragmentShaderSource, true)]) ∨
      (fragmentCompiles (eventsSince st (applyBuild env st).1) =
          [(src, false), (fallbackFragmentShaderSource, false)] ∧
        compiles (eventsSince st (applyBuild env st).1) =
          [(.fragment, src, false), (.fragment, fallbackFragmentShaderSource, false)] ∧
        linkAttempts (eventsSince st (applyBuild env st).1) = [] ∧
        (applyBuild env st).2 = true ∧ (applyBuild env st).1.shaderProgram = 0) := by
  obtain ⟨_, h⟩ := applyBuild_spec env st
  rcases h with ⟨src, L, m, m', hL, c1, c2, c3, c4, c5, c6⟩ |
    ⟨src, L, F, p, f, attached, m, hL, hF, c3, c4, c5, c6⟩
  · refine ⟨src, Or.inr (Or.inr ?_)⟩
    rw [eventsSince_of_trace (by rw [c6]; simp only [List.append_assoc]; rfl)]
    simp only [fragmentCompiles_append, compiles_append, linkAttempts_append,
      fragmentCompiles_cerr L hL, compiles_cerr L hL, linkAttempts_cerr L hL,
      fragmentCompiles_compileCalls_fragment, compiles_compileCalls, linkAttempts_compileCalls,
      c1, c2, c3, c4]
    simp [fragmentCompiles, compiles, linkAttempts]
  · refine ⟨src, ?_⟩
    rw [eventsSince_of_trace (by rw [c6]; simp only [List.append_assoc]; rfl)]
    rcases hF with ⟨d1, rfl, rfl, rfl⟩ | ⟨d1, d2, ⟨m1, rfl⟩, rfl, rfl⟩
    · refine Or.inl ?_
      simp only [fragmentCompiles_append, compiles_append,
        fragmentCompiles_cerr L hL, compiles_cerr L hL,
        fragmentCompiles_compileCalls_fragment, compiles_compileCalls,
        fragmentCompiles_linkCalls, compiles_linkCalls, fragmentCompiles_failure,
        compiles_failure, d1]
      simp [fragmentCompiles, compiles]
    · refine Or.inr (Or.inl ?_)
      simp only [fragmentCompiles_append, compiles_append,
        fragmentCompiles_cerr L hL, compiles_cerr L hL,
        fragmentCompiles_compileCalls_fragment, compiles_compileCalls,
        fragmentCompiles_linkCalls, compiles_linkCalls, fragmentCompiles_failure,
        compiles_failure, d1, d2]
      simp [fragmentCompiles, compiles]


/-- The fragment compilations of the initial build from the vertex shader on. -/
theorem initialBuildRest_fragmentCompiles (env : Env) (st : App) :
    ∃ src,
      (fragmentCompiles (eventsSince st (initialBuildRest env st).1) = [(src, true)] ∧
        compiles (eventsSince st (initialBuildRest env st).1) = [(.fragment, src, true)]) ∨
      (fragmentCompiles (eventsSince st (initialBuildRest env st).1) =
          [(src, false), (fallbackFragmentShaderSource, true)] ∧
        compiles (eventsSince st (initialBuildRest env st).1) =
          [(.fragment, src, false), (.fragment, fallbackFragmentShaderSource, true)]) ∨
      (fragmentCompiles (eventsSince st (initialBuildRest env st).1) =
          [(src, false), (fallbackFragmentShaderSource, false)] ∧
        compiles (eventsSince st (initialBuildRest env st).1) =
          [(.fragment, src, false), (.fragment, fallbackFragmentShaderSource, false)] ∧
        linkAttempts (eventsSince st (initialBuildRest env st).1) = [] ∧
        (initialBuildRest env st).2 = true) := by
  obtain ⟨_, h⟩ := initialBuildRest_spec env st
  rcases h with ⟨src, L, m, m', hL, c1, c2, c3, c5, c6⟩ |
    ⟨src, L, F, p, f, attached, m, hL, hF, c3, c4, c5, c6⟩
  · refine ⟨src, Or.inr (Or.inr ?_)⟩
    rw [eventsSince_of_trace (by rw [c6]; simp only [List.append_assoc]; rfl)]
    simp only [fragmentCompiles_append, compiles_append, linkAttempts_append,
      fragmentCompiles_cerr L hL, compiles_cerr L hL, linkAttempts_cerr L hL,
      fragmentCompiles_compileCalls_fragment, compiles_compileCalls, linkAttempts_compileCalls,
      c1, c2, c3]
    simp [fragmentCompiles, compiles, linkAttempts]
  · refine ⟨src, ?_⟩
    rw [eventsSince_of_trace (by rw [c6]; simp only [List.append_assoc]; rfl)]
    rcases hF with ⟨d1, rfl, rfl, rfl⟩ | ⟨d1, d2, ⟨m1, rfl⟩, rfl, rfl⟩
    · refine Or.inl ?_
      simp only [fragmentCompiles_append, compiles_append,
        fragmentCompiles_cerr L hL, compiles_cerr L hL,
        fragmentCompiles_compileCalls_fragment, compiles_compileCalls,
        fragmentCompiles_linkCalls, compiles_linkCalls, fragmentCompiles_failure,
        compiles_failure, d1]
      simp [fragmentCompiles, compiles]
    · refine Or.inr (Or.inl ?_)
      simp only [fragmentCompiles_append, compiles_append,
        fragmentCompiles_cerr L hL, compiles_cerr L hL,
        fragmentCompiles_compileCalls_fragment, compiles_compileCalls,
        fragmentCompiles_linkCalls, compiles_linkCalls, fragmentCompiles_failure,
        compiles_failure, d1, d2]
      simp [fragmentCompiles, compiles]

theorem applyBuild_trace (env : Env) (st : App) :
    ∃ Y, (applyBuild env st).1.trace = st.trace ++ Y := by
  obtain ⟨_, h⟩ := applyBuild_spec env st
  rcases h with ⟨src, L, m, m', hL, c1, c2, c3, c4, c5, c6⟩ |
    ⟨src, L, F, p, f, attached, m, hL, hF, c3, c4, c5, c6⟩
  · exact ⟨_, by rw [c6]; simp only [List.append_assoc]; rfl⟩
  · exact ⟨_, by rw [c6]; simp only [List.append_assoc]; rfl⟩

theorem initialBuildRest_trace (env : Env) (st : App) :
    ∃ Y, (initialBuildRest env st).1.trace = st.trace ++ Y := by
  obtain ⟨_, h⟩ := initialBuildRest_spec env st
  rcases h with ⟨src, L, m, m', hL, c1, c2, c3, c5, c6⟩ |
    ⟨src, L, F, p, f, attached, m, hL, hF, c3, c4, c5, c6⟩
  · exact ⟨_, by rw [c6]; simp only [List.append_assoc]; rfl⟩
  · exact ⟨_, by rw [c6]; simp only [List.append_assoc]; rfl⟩

theorem eventsSince_trans {st st1 st2 : App} {X Y : List Event}
    (h1 : st1.trace = st.trace ++ X) (h2 : st2.trace = st1.trace ++ Y) :
    eventsSince st st2 = X ++ eventsSince st1 st2 := by
  rw [eventsSince_of_trace h2, eventsSince_of_trace (by rw [h2, h1, List.append_assoc])]

/-- C3: in the `Apply Shader` block and in the initial build no more than two fragment
shaders are compiled; when the supplied fragment source fails to compile, exactly one further
fragment compilation follows, with the built-in fallback source; when that fails too the
activation ends as failed (`continue` with no active program, or `return -1`), the three
compilations made so far are the only ones and no link is attempted. -/
theorem fallback_retry_bounded (env : Env) (st : App) :
    ((fragmentCompiles (eventsSince st (applyShaderBlock env st).1)).length ≤ 2 ∧
      ∀ src rest,
        fragmentCompiles (eventsSince st (applyShaderBlock env st).1) = (src, false) :: rest →
        ∃ ok, rest = [(fallbackFragmentShaderSource, ok)] ∧
          (ok = false →
            (applyShaderBlock env st).2 = true ∧
            (applyShaderBlock env st).1.shaderProgram = 0 ∧
            linkAttempts (eventsSince st (applyShaderBlock env st).1) = [] ∧
            compiles (eventsSince st (applyShaderBlock env st).1) =
              [(.vertex, vertexShaderSource, true), (.fragment, src, false),
               (.fragment, fallbackFragmentShaderSource, false)])) ∧
    ((fragmentCompiles (eventsSince st (initialBuild env st).1)).length ≤ 2 ∧
      ∀ src rest,
        fragmentCompiles (eventsSince st (initialBuild env st).1) = (src, false) :: rest →
        ∃ ok, rest = [(fallbackFragmentShaderSource, ok)] ∧
          (ok = false →
            (initialBuild env st).2 = true ∧
            linkAttempts (eventsSince st (initialBuild env st).1) = [] ∧
            compiles (eventsSince st (initialBuild env st).1) =
              [(.vertex, vertexShaderSource, true), (.fragment, src, false),
               (.fragment, fallbackFragmentShaderSource, false)])) := by
  constructor
  · rcases applyShaderBlock_cases env st with ⟨c1, c2, c3, c4, ⟨m, c5⟩, _⟩ |
      ⟨c1, st1, e1, t1, n1, v1, s1, _⟩
    · rw [eventsSince_of_trace (by rw [c5]; simp only [List.append_assoc]; rfl)]
      simp only [fragmentCompiles_append, fragmentCompiles_release,
        fragmentCompiles_compileCalls_vertex, List.nil_append]
      simp [fragmentCompiles]
    · obtain ⟨Y, hY⟩ := applyBuild_trace env st1
      rw [e1, eventsSince_trans (by rw [t1]; simp only [List.append_assoc]; rfl) hY]
      simp only [fragmentCompiles_append, fragmentCompiles_release,
        fragmentCompiles_compileCalls_vertex, List.nil_append, compiles_append,
        compiles_release, compiles_compileCalls, linkAttempts_append, linkAttempts_release,
        linkAttempts_compileCalls, c1]
      obtain ⟨src0, h⟩ := applyBuild_fragmentCompiles env st1
      rcases h with ⟨h1, h2⟩ | ⟨h1, h2⟩ | ⟨h1, h2, h3, h4, h5⟩
      · rw [h1]
        exact ⟨by simp, by intro src rest hh; simp at hh⟩
      · rw [h1, h2]
        refine ⟨by simp, ?_⟩
        intro src rest hh
        simp only [List.cons.injEq, Prod.mk.injEq] at hh
        exact ⟨true, hh.2.symm, by simp⟩
      · rw [h1, h2, h3]
        refine ⟨by simp, ?_⟩
        intro src rest hh
        simp only [List.cons.injEq, Prod.mk.injEq] at hh
        obtain ⟨⟨rfl, _⟩, rfl⟩ := hh
        exact ⟨false, rfl, fun _ => ⟨h4, h5, rfl, by simp⟩⟩
  · rcases initialBuild_cases env st with ⟨c1, c2, c3, c4, ⟨m, c5⟩, _⟩ |
      ⟨c1, st1, e1, t1, n1, v1, s1, _⟩
    · rw [eventsSince_of_trace (by rw [c5]; simp only [List.append_assoc]; rfl)]
      simp only [fragmentCompiles_append, fragmentCompiles_compileCalls_vertex,
        List.nil_append]
      simp [fragmentCompiles]
    · obtain ⟨Y, hY⟩ := initialBuildRest_trace env st1
      rw [e1, eventsSince_trans t1 hY]
      simp only [fragmentCompiles_append,
        fragmentCompiles_compileCalls_vertex, List.nil_append, compiles_append,
        compiles_compileCalls, linkAttempts_append,
        linkAttempts_compileCalls, c1]
      obtain ⟨src0, h⟩ := initialBuildRest_fragmentCompiles env st1
      rcases h with ⟨h1, h2⟩ | ⟨h1, h2⟩ | ⟨h1, h2, h3, h4⟩
      · rw [h1]
        exact ⟨by simp, by intro src rest hh; simp at hh⟩
      · rw [h1, h2]
        refine ⟨by simp, ?_⟩
        intro src rest hh
        simp only [List.cons.injEq, Prod.mk.injEq] at hh
        exact ⟨true, hh.2.symm, by simp⟩
      · rw [h1, h2, h3]
        refine ⟨by simp, ?_⟩
        intro src rest hh
        simp only [List.cons.injEq, Prod.mk.injEq] at hh
        obtain ⟨⟨rfl, _⟩, rfl⟩ := hh
        exact ⟨false, rfl, fun _ => ⟨h4, rfl, by simp⟩⟩

/-! ## Link and validation failures (C4) -/

theorem afterLinkFailure_append_left (pre l : List Event)
    (h : ∀ e ∈ pre, e.isLinkFailure = false) :
    afterLinkFailure (pre ++ l) = afterLinkFailure l := by
  induction pre with
  | nil => rfl
  | cons e pre ih =>
    have he : e.isLinkFailure = false := h e (List.mem_cons_self _ _)
    have := ih (fun x hx => h x (List.mem_cons_of_mem _ hx))
    simp only [afterLinkFailure] at this ⊢
    simp [List.dropWhile, he, this]

theorem compileCalls_no_linkFailure (env : Env) (kind : ShaderKind) (src : String) (n : Nat) :
    ∀ e ∈ compileCalls env kind src n, e.isLinkFailure = false := by
  have : (compileCalls env kind src n).all (fun e => !e.isLinkFailure) = true := by
    unfold compileCalls
    cases h : env.compileStatus n kind src <;> simp [Event.isLinkFailure]
  simpa using this

theorem release_no_linkFailure (sp : Nat) :
    ∀ e ∈ (if sp ≠ 0 then [Event.deleteProgram sp] else []), e.isLinkFailure = false := by
  intro e he
  split at he
  · simp at he
    subst he
    rfl
  · simp at he

theorem cerr_no_linkFailure (L : List Event) (hL : ∀ e ∈ L, ∃ t, e = Event.cerr t) :
    ∀ e ∈ L, e.isLinkFailure = false := by
  intro e he
  obtain ⟨t, rfl⟩ := hL e he
  rfl

theorem linkCalls_no_linkFailure (env : Env) (p v f : Nat)
    (attached : List (ShaderKind × String))
    (h : (env.linkStatus p attached && env.validateStatus p attached) = true) :
    ∀ e ∈ linkCalls env p v f attached, e.isLinkFailure = false := by
  have : (linkCalls env p v f attached).all (fun e => !e.isLinkFailure) = true := by
    unfold linkCalls
    cases h1 : env.linkStatus p attached <;> cases h2 : env.validateStatus p attached <;>
      simp [h1, h2] at h
    all_goals simp [Event.isLinkFailure]
  simpa using this

/-- After a failed link or validation `linkProgram` only deletes the program. -/
theorem afterLinkFailure_linkCalls (env : Env) (p v f : Nat)
    (attached : List (ShaderKind × String)) (post : List Event)
    (h : (env.linkStatus p attached && env.validateStatus p attached) = false) :
    afterLinkFailure (linkCalls env p v f attached ++ post) = [.deleteProgram p] ++ post := by
  unfold linkCalls afterLinkFailure
  cases h1 : env.linkStatus p attached <;> cases h2 : env.validateStatus p attached <;>
    simp [h1, h2] at h <;> simp [List.dropWhile, Event.isLinkFailure]

/-- The `Apply Shader` block from the vertex shader on makes at most one link attempt, and a
failed link or validation ends it at once. -/
theorem applyBuild_linkFailure (env : Env) (st : App) :
    (linkAttempts (eventsSince st (applyBuild env st).1)).length ≤ 1 ∧
    ∀ e ∈ eventsSince st (applyBuild env st).1, e.isLinkFailure = true →
      (applyBuild env st).2 = true ∧ (applyBuild env st).1.shaderProgram = 0 ∧
      compiles (afterLinkFailure (eventsSince st (applyBuild env st).1)) = [] ∧
      linkAttempts (afterLinkFailure (eventsSince st (applyBuild env st).1)) = [] := by
  obtain ⟨_, h⟩ := applyBuild_spec env st
  rcases h with ⟨src, L, m, m', hL, c1, c2, c3, c4, c5, c6⟩ |
    ⟨src, L, F, p, f, attached, m, hL, hF, c3, c4, c5, c6⟩
  · rw [eventsSince_of_trace (by rw [c6]; simp only [List.append_assoc]; rfl)]
    constructor
    · simp only [linkAttempts_append, linkAttempts_cerr L hL, linkAttempts_compileCalls]
      simp [linkAttempts]
    · intro e he hfail
      exfalso
      simp only [List.mem_append] at he
      rcases he with he | he | he | he | he
      · rw [cerr_no_linkFailure L hL e he] at hfail; cases hfail
      · rw [compileCalls_no_linkFailure _ _ _ _ e he] at hfail; cases hfail
      · simp at he; rcases he with rfl | rfl <;> cases hfail
      · rw [compileCalls_no_linkFailure _ _ _ _ e he] at hfail; cases hfail
      · simp at he; rcases he with rfl | rfl <;> cases hfail
  · have hFn : ∀ e ∈ F, e.isLinkFailure = false := by
      rcases hF with ⟨_, rfl, _, _⟩ | ⟨_, _, ⟨m1, rfl⟩, _, _⟩
      · exact compileCalls_no_linkFailure _ _ _ _
      · intro e he
        simp only [List.mem_append] at he
        rcases he with (he | he) | he
        · exact compileCalls_no_linkFailure _ _ _ _ e he
        · simp at he; rcases he with rfl | rfl <;> rfl
        · exact compileCalls_no_linkFailure _ _ _ _ e he
    have hFl : linkAttempts F = [] := by
      rcases hF with ⟨_, rfl, _, _⟩ | ⟨_, _, ⟨m1, rfl⟩, _, _⟩
      · exact linkAttempts_compileCalls _ _ _ _
      · simp only [linkAttempts_append, linkAttempts_compileCalls]
        simp [linkAttempts]
    have hpre : ∀ e ∈ L ++ F, e.isLinkFailure = false := by
      intro e he
      rcases List.mem_append.mp he with he | he
      · exact cerr_no_linkFailure L hL e he
      · exact hFn e he
    have hev : eventsSince st (applyBuild env st).1 =
        (L ++ F) ++ (linkCalls env p st.vertShader f attached ++
          ((if (applyBuild env st).2 then [Event.cerr m] else []) ++
            [.deleteShader st.vertShader, .deleteShader f])) :=
      eventsSince_of_trace (by rw [c6]; simp only [List.append_assoc])
    rw [hev]
    constructor
    · simp only [linkAttempts_append, linkAttempts_cerr L hL, hFl, linkAttempts_linkCalls,
        linkAttempts_failure]
      simp [linkAttempts]
    · intro e he hfail
      cases hflag : (applyBuild env st).2
      · -- the link succeeded: no call reports a failure
        exfalso
        have hok : (env.linkStatus p attached && env.validateStatus p attached) = true := by
          rw [hflag] at c3
          cases hb : (env.linkStatus p attached && env.validateStatus p attached)
          · rw [hb] at c3; cases c3
          · rfl
        rw [hflag] at he
        simp only [List.mem_append] at he
        rcases he with he | he | he | he
        · rw [hpre e (List.mem_append.mpr he)] at hfail; cases hfail
        · rw [linkCalls_no_linkFailure env p _ f attached hok e he] at hfail; cases hfail
        · simp at he
        · simp at he; rcases he with rfl | rfl <;> cases hfail
      · have hbad : (env.linkStatus p attached && env.validateStatus p attached) = false := by
          rw [hflag] at c3
          cases hb : (env.linkStatus p attached && env.validateStatus p attached)
          · rfl
          · rw [hb] at c3; cases c3
        refine ⟨rfl, by rw [c4, hflag]; rfl, ?_, ?_⟩
        · rw [afterLinkFailure_append_left _ _ hpre, afterLinkFailure_linkCalls _ _ _ _ _ _ hbad]
          simp [compiles]
        · rw [afterLinkFailure_append_left _ _ hpre, afterLinkFailure_linkCalls _ _ _ _ _ _ hbad]
          simp [linkAttempts]


/-- The initial build from the vertex shader on makes at most one link attempt, and a failed
link or validation ends it at once. -/
theorem initialBuildRest_linkFailure (env : Env) (st : App) :
    (linkAttempts (eventsSince st (initialBuildRest env st).1)).length ≤ 1 ∧
    ∀ e ∈ eventsSince st (initialBuildRest env st).1, e.isLinkFailure = true →
      (initialBuildRest env st).2 = true ∧
      compiles (afterLinkFailure (eventsSince st (initialBuildRest env st).1)) = [] ∧
      linkAttempts (afterLinkFailure (eventsSince st (initialBuildRest env st).1)) = [] := by
  obtain ⟨_, h⟩ := initialBuildRest_spec env st
  rcases h with ⟨src, L, m, m', hL, c1, c2, c3, c5, c6⟩ |
    ⟨src, L, F, p, f, attached, m, hL, hF, c3, c4, c5, c6⟩
  · rw [eventsSince_of_trace (by rw [c6]; simp only [List.append_assoc]; rfl)]
    constructor
    · simp only [linkAttempts_append, linkAttempts_cerr L hL, linkAttempts_compileCalls]
      simp [linkAttempts]
    · intro e he hfail
      exfalso
      simp only [List.mem_append] at he
      rcases he with he | he | he | he | he
      · rw [cerr_no_linkFailure L hL e he] at hfail; cases hfail
      · rw [compileCalls_no_linkFailure _ _ _ _ e he] at hfail; cases hfail
      · simp at he; rcases he with rfl | rfl <;> cases hfail
      · rw [compileCalls_no_linkFailure _ _ _ _ e he] at hfail; cases hfail
      · simp at he; subst he; cases hfail
  · have hFn : ∀ e ∈ F, e.isLinkFailure = false := by
      rcases hF with ⟨_, rfl, _, _⟩ | ⟨_, _, ⟨m1, rfl⟩, _, _⟩
      · exact compileCalls_no_linkFailure _ _ _ _
      · intro e he
        simp only [List.mem_append] at he
        rcases he with (he | he) | he
        · exact compileCalls_no_linkFailure _ _ _ _ e he
        · simp at he; rcases he with rfl | rfl <;> rfl
        · exact compileCalls_no_linkFailure _ _ _ _ e he
    have hFl : linkAttempts F = [] := by
      rcases hF with ⟨_, rfl, _, _⟩ | ⟨_, _, ⟨m1, rfl⟩, _, _⟩
      · exact linkAttempts_compileCalls _ _ _ _
      · simp only [linkAttempts_append, linkAttempts_compileCalls]
        simp [linkAttempts]
    have hpre : ∀ e ∈ L ++ F, e.isLinkFailure = false := by
      intro e he
      rcases List.mem_append.mp he with he | he
      · exact cerr_no_linkFailure L hL e he
      · exact hFn e he
    have hev : eventsSince st (initialBuildRest env st).1 =
        (L ++ F) ++ (linkCalls env p st.vertShader f attached ++
          ((if (initialBuildRest env st).2 then [Event.cerr m] else []) ++
            [.deleteShader st.vertShader, .deleteShader f])) :=
      eventsSince_of_trace (by rw [c6]; simp only [List.append_assoc])
    rw [hev]
    constructor
    · simp only [linkAttempts_append, linkAttempts_cerr L hL, hFl, linkAttempts_linkCalls,
        linkAttempts_failure]
      simp [linkAttempts]
    · intro e he hfail
      cases hflag : (initialBuildRest env st).2
      · exfalso
        have hok : (env.linkStatus p attached && env.validateStatus p attached) = true := by
          rw [hflag] at c3
          cases hb : (env.linkStatus p attached && env.validateStatus p attached)
          · rw [hb] at c3; cases c3
          · rfl
        rw [hflag] at he
        simp only [List.mem_append] at he
        rcases he with he | he | he | he
        · rw [hpre e (List.mem_append.mpr he)] at hfail; cases hfail
        · rw [linkCalls_no_linkFailure env p _ f attached hok e he] at hfail; cases hfail
        · simp at he
        · simp at he; rcases he with rfl | rfl <;> cases hfail
      · have hbad : (env.linkStatus p attached && env.validateStatus p attached) = false := by
          rw [hflag] at c3
          cases hb : (env.linkStatus p attached && env.validateStatus p attached)
          · rfl
          · rw [hb] at c3; cases c3
        refine ⟨rfl, ?_, ?_⟩
        · rw [afterLinkFailure_append_left _ _ hpre, afterLinkFailure_linkCalls _ _ _ _ _ _ hbad]
          simp [compiles]
        · rw [afterLinkFailure_append_left _ _ hpre, afterLinkFailure_linkCalls _ _ _ _ _ _ hbad]
          simp [linkAttempts]

/-- C4, as stated, fails: in the sample run the fragment text `BAD` compiles and the program
does not link; the block then makes no second fragment compilation and no second link,
although the fallback would compile and link, and it ends with no active program. -/
theorem link_failure_not_retried :
    fragmentCompiles (eventsSince Sample.built
      (loopBody Env.sample FrameInput.applyBad Sample.built).1) = [("BAD", true)] ∧
    linkAttempts (eventsSince Sample.built
      (loopBody Env.sample FrameInput.applyBad Sample.built).1) = [(6, false)] ∧
    (loopBody Env.sample FrameInput.applyBad Sample.built).1.shaderProgram = 0 ∧
    Env.sample.compileStatus 7 .fragment fallbackFragmentShaderSource = true ∧
    Env.sample.linkStatus 8
      [(.vertex, vertexShaderSource), (.fragment, fallbackFragmentShaderSource)] = true := by
  decide

/-- C4 (amended): in the `Apply Shader` block and in the initial build at most one link is
attempted; when the link or the validation fails there is no retry: no shader is compiled
and no program is linked afterwards, and the activation ends as failed at once (`continue`
with no active program, or `return -1`). -/
theorem link_failure_ends_activation (env : Env) (st : App) :
    ((linkAttempts (eventsSince st (applyShaderBlock env st).1)).length ≤ 1 ∧
      ∀ e ∈ eventsSince st (applyShaderBlock env st).1, e.isLinkFailure = true →
        (applyShaderBlock env st).2 = true ∧ (applyShaderBlock env st).1.shaderProgram = 0 ∧
        compiles (afterLinkFailure (eventsSince st (applyShaderBlock env st).1)) = [] ∧
        linkAttempts (afterLinkFailure (eventsSince st (applyShaderBlock env st).1)) = []) ∧
    ((linkAttempts (eventsSince st (initialBuild env st).1)).length ≤ 1 ∧
      ∀ e ∈ eventsSince st (initialBuild env st).1, e.isLinkFailure = true →
        (initialBuild env st).2 = true ∧
        compiles (afterLinkFailure (eventsSince st (initialBuild env st).1)) = [] ∧
        linkAttempts (afterLinkFailure (eventsSince st (initialBuild env st).1)) = []) := by
  constructor
  · rcases applyShaderBlock_cases env st with ⟨c1, c2, c3, c4, ⟨m, c5⟩, _⟩ |
      ⟨c1, st1, e1, t1, n1, v1, s1, _⟩
    · rw [eventsSince_of_trace (by rw [c5]; simp only [List.append_assoc]; rfl)]
      constructor
      · simp only [linkAttempts_append, linkAttempts_release, linkAttempts_compileCalls]
        simp [linkAttempts]
      · intro e he hfail
        exfalso
        simp only [List.mem_append] at he
        rcases he with he | he | he
        · rw [release_no_linkFailure _ e he] at hfail; cases hfail
        · rw [compileCalls_no_linkFailure _ _ _ _ e he] at hfail; cases hfail
        · simp at he; subst he; cases hfail
    · obtain ⟨Y, hY⟩ := applyBuild_trace env st1
      have hpre : ∀ e ∈ (if st.shaderProgram ≠ 0 then [Event.deleteProgram st.shaderProgram]
          else []) ++ compileCalls env .vertex vertexShaderSource st.gl.nextName,
          e.isLinkFailure = false := by
        intro e he
        rcases List.mem_append.mp he with he | he
        · exact release_no_linkFailure _ e he
        · exact compileCalls_no_linkFailure _ _ _ _ e he
      rw [e1, eventsSince_trans (by rw [t1]; simp only [List.append_assoc]; rfl) hY]
      obtain ⟨k1, k2⟩ := applyBuild_linkFailure env st1
      constructor
      · simp only [linkAttempts_append, linkAttempts_release, linkAttempts_compileCalls,
          List.nil_append]
        exact k1
      · intro e he hfail
        rw [afterLinkFailure_append_left _ _ hpre]
        rcases List.mem_append.mp he with he | he
        · rw [hpre e he] at hfail; cases hfail
        · exact k2 e he hfail
  · rcases initialBuild_cases env st with ⟨c1, c2, c3, c4, ⟨m, c5⟩, _⟩ |
      ⟨c1, st1, e1, t1, n1, v1, s1, _⟩
    · rw [eventsSince_of_trace (by rw [c5]; simp only [List.append_assoc]; rfl)]
      constructor
      · simp only [linkAttempts_append, linkAttempts_compileCalls]
        simp [linkAttempts]
      · intro e he hfail
        exfalso
        simp only [List.mem_append] at he
        rcases he with he | he
        · rw [compileCalls_no_linkFailure _ _ _ _ e he] at hfail; cases hfail
        · simp at he; subst he; cases hfail
    · obtain ⟨Y, hY⟩ := initialBuildRest_trace env st1
      have hpre := compileCalls_no_linkFailure env .vertex vertexShaderSource st.gl.nextName
      rw [e1, eventsSince_trans t1 hY]
      obtain ⟨k1, k2⟩ := initialBuildRest_linkFailure env st1
      constructor
      · simp only [linkAttempts_append, linkAttempts_compileCalls, List.nil_append]
        exact k1
      · intro e he hfail
        rw [afterLinkFailure_append_left _ _ hpre]
        rcases List.mem_append.mp he with he | he
        · rw [hpre e he] at hfail; cases hfail
        · exact k2 e he hfail

/-- C4 (amended) in the sample run: the link of program 6 fails. -/
theorem link_failure_ends_activation_witness :
    Event.linkProgram 6 false ∈ eventsSince
      { Sample.built with currentShaderIndex := 1 }
      (applyShaderBlock Env.sample { Sample.built with currentShaderIndex := 1 }).1 ∧
    (applyShaderBlock Env.sample { Sample.built with currentShaderIndex := 1 }).2 = true :=
  ⟨by decide,
   ((link_failure_ends_activation Env.sample { Sample.built with currentShaderIndex := 1 }).1.2
      (Event.linkProgram 6 false) (by decide) rfl).1⟩


/-! ## Hot swap (C1) -/

/-- C1, as stated, fails: in the sample run program 3 is the active program after the
initial build; the activation of `shaders/bad.txt` fails at the link; `glDeleteProgram(3)`
is the first call of that activation, afterwards no program is active, and the next
iteration draws nothing. -/
theorem failed_activation_loses_program :
    Sample.built.shaderProgram = 3 ∧
    (applyShaderBlock Env.sample { Sample.built with currentShaderIndex := 1 }).2 = true ∧
    (eventsSince Sample.built
      (loopBody Env.sample FrameInput.applyBad Sample.built).1).head? =
      some (Event.deleteProgram 3) ∧
    (loopBody Env.sample FrameInput.applyBad Sample.built).1.shaderProgram = 0 ∧
    eventsSince (loopBody Env.sample FrameInput.applyBad Sample.built).1
      (loopBody Env.sample FrameInput.idle
        (loopBody Env.sample FrameInput.applyBad Sample.built).1).1 = [] := by
  refine ⟨by decide, by decide, by decide, by decide, by decide⟩

/-- C1 (amended): when the `Apply Shader` block fails to build a new program, no program
is active afterwards (`shaderProgram` is 0); the program that was active before is not
kept: `glDeleteProgram` is called on it as the first call of the block, before any shader of
the new program is created or compiled; and the preview step, run on the state the block
leaves, draws nothing. -/
theorem failed_activation_unsets_program (env : Env) (st : App)
    (h : (applyShaderBlock env st).2 = true) :
    (applyShaderBlock env st).1.shaderProgram = 0 ∧
    (st.shaderProgram ≠ 0 →
      (eventsSince st (applyShaderBlock env st).1).head? =
        some (Event.deleteProgram st.shaderProgram)) ∧
    ∀ elapsed, previewDraw env elapsed (applyShaderBlock env st).1 =
      (applyShaderBlock env st).1 := by
  have key : (applyShaderBlock env st).1.shaderProgram = 0 ∧
      (st.shaderProgram ≠ 0 →
        (eventsSince st (applyShaderBlock env st).1).head? =
          some (Event.deleteProgram st.shaderProgram)) := by
    rcases applyShaderBlock_cases env st with ⟨c1, c2, c3, c4, ⟨m, c5⟩, c6⟩ |
      ⟨c1, st1, e1, t1, n1, v1, s1, p1⟩
    · refine ⟨c3, fun hsp => ?_⟩
      rw [eventsSince_of_trace (by rw [c5]; simp only [List.append_assoc]; rfl)]
      simp [hsp]
    · rw [e1] at h ⊢
      obtain ⟨Y, hY⟩ := applyBuild_trace env st1
      obtain ⟨hprog, hshape⟩ := applyBuild_spec env st1
      have hsp0 : (applyBuild env st1).1.shaderProgram = 0 := by
        rcases hshape with ⟨src, L, m, m', hL, c1, c2, c3, c4, c5, c6⟩ |
          ⟨src, L, F, p, f, attached, m, hL, hF, c3, c4, c5, c6⟩
        · exact c4
        · rw [c4, h]; rfl
      refine ⟨hsp0, fun hsp => ?_⟩
      rw [eventsSince_trans (by rw [t1]; simp only [List.append_assoc]; rfl) hY]
      simp [hsp]
  refine ⟨key.1, key.2, fun elapsed => ?_⟩
  unfold previewDraw
  simp [key.1]

/-- C1 (amended) in the sample run, where the activation of `shaders/bad.txt` fails. -/
theorem failed_activation_unsets_program_witness :
    (applyShaderBlock Env.sample { Sample.built with currentShaderIndex := 1 }).2 = true ∧
    (applyShaderBlock Env.sample { Sample.built with currentShaderIndex := 1 }).1.shaderProgram
      = 0 :=
  ⟨by decide,
   (failed_activation_unsets_program Env.sample { Sample.built with currentShaderIndex := 1 }
      (by decide)).1⟩

/-! ## Programs bound for drawing (C2) -/

theorem deletedPrograms_append (a b : List Event) :
    deletedPrograms (a ++ b) = deletedPrograms a ++ deletedPrograms b := by
  simp [deletedPrograms, List.filterMap_append]

theorem usedPrograms_append (a b : List Event) :
    usedPrograms (a ++ b) = usedPrograms a ++ usedPrograms b := by
  simp [usedPrograms, List.filterMap_append]

theorem mem_deletedPrograms (evs : List Event) (n : Nat) :
    n ∈ deletedPrograms evs ↔ Event.deleteProgram n ∈ evs := by
  induction evs with
  | nil => simp [deletedPrograms]
  | cons e evs ih =>
    have hc : deletedPrograms (e :: evs) = deletedPrograms [e] ++ deletedPrograms evs :=
      deletedPrograms_append [e] evs
    rw [hc, List.mem_append, ih, List.mem_cons]
    cases e <;> simp [deletedPrograms, eq_comm]

theorem mem_usedPrograms (evs : List Event) (n : Nat) :
    n ∈ usedPrograms evs ↔ Event.useProgram n ∈ evs := by
  induction evs with
  | nil => simp [usedPrograms]
  | cons e evs ih =>
    have hc : usedPrograms (e :: evs) = usedPrograms [e] ++ usedPrograms evs :=
      usedPrograms_append [e] evs
    rw [hc, List.mem_append, ih, List.mem_cons]
    cases e <;> simp [usedPrograms, eq_comm]

theorem Drawable.append {pre : List Event} {p : Nat} (h : Drawable pre p) (evs : List Event)
    (hd : p ∉ deletedPrograms evs) : Drawable (pre ++ evs) p := by
  obtain ⟨h0, h1, h2, h3⟩ := h
  refine ⟨h0, List.mem_append_left _ h1, List.mem_append_left _ h2, ?_⟩
  intro hmem
  rcases List.mem_append.mp hmem with hm | hm
  · exact h3 hm
  · exact hd ((mem_deletedPrograms _ _).mpr hm)

/-- A split of `tr ++ evs` at a `glUseProgram` falls into `tr` or into `evs`. -/
theorem split_use_append {tr evs pre post : List Event} {p : Nat}
    (h : tr ++ evs = pre ++ Event.useProgram p :: post) :
    (∃ post', tr = pre ++ Event.useProgram p :: post') ∨
    (∃ a, pre = tr ++ a ∧ evs = a ++ Event.useProgram p :: post) := by
  rcases List.append_eq_append_iff.mp h with ⟨a, h1, h2⟩ | ⟨c, h1, h2⟩
  · exact Or.inr ⟨a, h1, h2⟩
  · cases c with
    | nil =>
      refine Or.inr ⟨[], by simpa using h1.symm, by simpa using h2.symm⟩
    | cons x c =>
      simp only [List.cons_append, List.cons.injEq] at h2
      obtain ⟨rfl, _⟩ := h2
      exact Or.inl ⟨c, h1⟩

/-- Calls that bind no program keep `BoundOK`. -/
theorem BoundOK.append_noUse {tr : List Event} (h : BoundOK tr) (evs : List Event)
    (hu : usedPrograms evs = []) : BoundOK (tr ++ evs) := by
  intro pre p post hsplit
  rcases split_use_append hsplit with ⟨post', h1⟩ | ⟨a, _, h2⟩
  · exact h pre p post' h1
  · exfalso
    have : p ∈ usedPrograms evs := (mem_usedPrograms _ _).mpr (by rw [h2]; simp)
    rw [hu] at this
    cases this

/-- Calls that delete no program and bind only the drawable program `sp` keep `BoundOK`. -/
theorem BoundOK.append_draw {tr : List Event} (h : BoundOK tr) (evs : List Event) (sp : Nat)
    (hsp : Drawable tr sp) (hu : ∀ p ∈ usedPrograms evs, p = sp)
    (hd : deletedPrograms evs = []) : BoundOK (tr ++ evs) := by
  intro pre p post hsplit
  rcases split_use_append hsplit with ⟨post', h1⟩ | ⟨a, h1, h2⟩
  · exact h pre p post' h1
  · have hp : p = sp := hu p ((mem_usedPrograms _ _).mpr (by rw [h2]; simp))
    subst hp
    rw [h1]
    refine hsp.append a ?_
    intro hmem
    have : p ∈ deletedPrograms evs := by
      rw [h2, deletedPrograms_append]
      exact List.mem_append_left _ hmem
    rw [hd] at this
    cases this

/-- A step that deletes nothing, binds at most the active program, and leaves
`shaderProgram` and the next name alone keeps the invariant. -/
theorem Inv.step_draw {st st' : App} (h : Inv st) (evs : List Event)
    (ht : st'.trace = st.trace ++ evs) (hn : st'.gl.nextName = st.gl.nextName)
    (hs : st'.shaderProgram = st.shaderProgram)
    (hu : ∀ p ∈ usedPrograms evs, p = st.shaderProgram ∧ st.shaderProgram ≠ 0)
    (hd : deletedPrograms evs = []) : Inv st' := by
  obtain ⟨i1, i2, i3, i4⟩ := h
  refine ⟨?_, ?_, ?_, ?_⟩
  · rw [ht]
    by_cases h0 : st.shaderProgram = 0
    · refine i1.append_noUse evs ?_
      cases hup : usedPrograms evs with
      | nil => rfl
      | cons x xs =>
        exact absurd h0 (hu x (by rw [hup]; exact List.mem_cons_self _ _)).2
    · exact i1.append_draw evs st.shaderProgram (i4 h0) (fun p hp => (hu p hp).1) hd
  · intro n hmem
    rw [ht, deletedPrograms_append, hd, List.append_nil] at hmem
    rw [hn]
    exact i2 n hmem
  · rw [hs, hn]; exact i3
  · intro h0
    rw [hs] at h0 ⊢
    rw [ht]
    exact (i4 h0).append evs (by rw [hd]; simp)


/-- One frame of the offline loop changes only the trace, by the calls of `frameCalls`. -/
theorem renderFrame_eq (env : Env) (bufLen : Nat) (frame : Int) (st : App) :
    renderFrame env bufLen frame st =
      { st with trace := st.trace ++ frameCalls env bufLen st frame } := by
  unfold renderFrame frameCalls
  by_cases h1 : st.iTimeLoc = -1 <;> by_cases h2 : st.iResLoc = -1 <;>
    by_cases h3 : env.fwriteAccepted frame bufLen = bufLen <;>
    simp [App.emit, h1, h2, h3]

theorem usedPrograms_frameCalls (env : Env) (bufLen : Nat) (st : App) (frame : Int) :
    usedPrograms (frameCalls env bufLen st frame) = [st.shaderProgram] := by
  unfold frameCalls usedPrograms
  by_cases h1 : st.iTimeLoc = -1 <;> by_cases h2 : st.iResLoc = -1 <;>
    by_cases h3 : env.fwriteAccepted frame bufLen = bufLen <;>
    simp [h1, h2, h3]

theorem deletedPrograms_frameCalls (env : Env) (bufLen : Nat) (st : App) (frame : Int) :
    deletedPrograms (frameCalls env bufLen st frame) = [] := by
  unfold frameCalls deletedPrograms
  by_cases h1 : st.iTimeLoc = -1 <;> by_cases h2 : st.iResLoc = -1 <;>
    by_cases h3 : env.fwriteAccepted frame bufLen = bufLen <;>
    simp [h1, h2, h3]

theorem frameCalls_trace (env : Env) (bufLen : Nat) (st : App) (tr : List Event)
    (frame : Int) :
    frameCalls env bufLen { st with trace := tr } frame = frameCalls env bufLen st frame := rfl

/-- What the offline loop does from `frame` on: it changes only the trace, by the calls of
the frames `frame`, `frame + 1`, ... below `totalFrames`, as far as the fuel reaches. -/
theorem renderLoop_eq (env : Env) (bufLen : Nat) :
    ∀ (fuel : Nat) (frame : Int) (st : App),
      renderLoop env bufLen fuel frame st =
        { st with trace := st.trace ++
            ((List.range (min fuel (st.totalFrames - frame).toNat)).map
              (fun (k : Nat) => frameCalls env bufLen st (frame + (k : Int)))).flatten }
  | 0, frame, st => by simp [renderLoop]
  | fuel + 1, frame, st => by
      unfold renderLoop
      by_cases h : frame < st.totalFrames
      · simp only [h, if_true]
        rw [renderFrame_eq, renderLoop_eq env bufLen fuel (frame + 1)]
        have hm : min (fuel + 1) (st.totalFrames - frame).toNat =
            min fuel (st.totalFrames - (frame + 1)).toNat + 1 := by omega
        have key : ∀ m : Nat,
            frameCalls env bufLen st frame ++
              ((List.range m).map
                (fun (k : Nat) => frameCalls env bufLen st (frame + 1 + (k : Int)))).flatten =
            ((List.range (m + 1)).map
              (fun (k : Nat) => frameCalls env bufLen st (frame + (k : Int)))).flatten := by
          intro m
          rw [List.range_succ_eq_map]
          simp only [List.map_cons, List.flatten_cons, List.map_map, Nat.cast_zero, add_zero]
          congr 2
          apply List.map_congr_left
          intro k _
          show frameCalls env bufLen st (frame + 1 + (k : Int)) =
            frameCalls env bufLen st (frame + ((k + 1 : Nat) : Int))
          congr 1
          push_cast
          ring
        simp only [hm, frameCalls_trace, List.append_assoc, key]
      · simp only [h, if_false]
        have : (st.totalFrames - frame).toNat = 0 := by omega
        simp [this]


theorem usedPrograms_cerr (L : List Event) (hL : ∀ e ∈ L, ∃ t, e = Event.cerr t) :
    usedPrograms L = [] := by
  induction L with
  | nil => rfl
  | cons e L ih =>
    obtain ⟨t, rfl⟩ := hL _ (List.mem_cons_self _ _)
    have := ih (fun e he => hL e (List.mem_cons_of_mem _ he))
    simpa [usedPrograms] using this

theorem deletedPrograms_cerr (L : List Event) (hL : ∀ e ∈ L, ∃ t, e = Event.cerr t) :
    deletedPrograms L = [] := by
  induction L with
  | nil => rfl
  | cons e L ih =>
    obtain ⟨t, rfl⟩ := hL _ (List.mem_cons_self _ _)
    have := ih (fun e he => hL e (List.mem_cons_of_mem _ he))
    simpa [deletedPrograms] using this

theorem usedPrograms_compileCalls (env : Env) (kind : ShaderKind) (src : String) (n : Nat) :
    usedPrograms (compileCalls env kind src n) = [] := by
  unfold compileCalls usedPrograms
  cases env.compileStatus n kind src <;> simp

theorem deletedPrograms_compileCalls (env : Env) (kind : ShaderKind) (src : String) (n : Nat) :
    deletedPrograms (compileCalls env kind src n) = [] := by
  unfold compileCalls deletedPrograms
  cases env.compileStatus n kind src <;> simp

theorem usedPrograms_linkCalls (env : Env) (p v f : Nat)
    (attached : List (ShaderKind × String)) :
    usedPrograms (linkCalls env p v f attached) = [] := by
  unfold linkCalls usedPrograms
  cases env.linkStatus p attached <;> cases env.validateStatus p attached <;> simp

theorem deletedPrograms_linkCalls (env : Env) (p v f : Nat)
    (attached : List (ShaderKind × String)) :
    deletedPrograms (linkCalls env p v f attached) =
      if (env.linkStatus p attached && env.validateStatus p attached) then [] else [p] := by
  unfold linkCalls deletedPrograms
  cases env.linkStatus p attached <;> cases env.validateStatus p attached <;> simp

theorem linkCalls_success (env : Env) (p v f : Nat) (attached : List (ShaderKind × String))
    (h : (env.linkStatus p attached && env.validateStatus p attached) = true) :
    Event.linkProgram p true ∈ linkCalls env p v f attached ∧
    Event.validateProgram p true ∈ linkCalls env p v f attached := by
  unfold linkCalls
  cases h1 : env.linkStatus p attached <;> cases h2 : env.validateStatus p attached <;>
    simp [h1, h2] at h
  simp

theorem usedPrograms_release (sp : Nat) :
    usedPrograms (if sp ≠ 0 then [Event.deleteProgram sp] else []) = [] := by
  split <;> simp [usedPrograms]

theorem deletedPrograms_release (sp : Nat) :
    deletedPrograms (if sp ≠ 0 then [Event.deleteProgram sp] else []) =
      if sp ≠ 0 then [sp] else [] := by
  split <;> simp [deletedPrograms]

theorem usedPrograms_failure (b : Bool) (m : String) :
    usedPrograms (if b then [Event.cerr m] else []) = [] := by
  cases b <;> simp [usedPrograms]

theorem deletedPrograms_failure (b : Bool) (m : String) :
    deletedPrograms (if b then [Event.cerr m] else []) = [] := by
  cases b <;> simp [deletedPrograms]

theorem usedPrograms_deleteShaders (L : List Event)
    (hL : ∀ e ∈ L, ∃ t, e = Event.deleteShader t) : usedPrograms L = [] := by
  induction L with
  | nil => rfl
  | cons e L ih =>
    obtain ⟨t, rfl⟩ := hL _ (List.mem_cons_self _ _)
    have := ih (fun e he => hL e (List.mem_cons_of_mem _ he))
    simpa [usedPrograms] using this

theorem deletedPrograms_deleteShaders (L : List Event)
    (hL : ∀ e ∈ L, ∃ t, e = Event.deleteShader t) : deletedPrograms L = [] := by
  induction L with
  | nil => rfl
  | cons e L ih =>
    obtain ⟨t, rfl⟩ := hL _ (List.mem_cons_self _ _)
    have := ih (fun e he => hL e (List.mem_cons_of_mem _ he))
    simpa [deletedPrograms] using this

/-- What the invariant needs to know about the build stages that follow the vertex shader,
given the calls `evs` they make, the outcome and the final `shaderProgram` and next name. -/
theorem build_facts (env : Env) (n v : Nat) (evs : List Event) (flag : Bool) (sp' n' : Nat)
    (hshape :
      (∃ src L m m' tail,
        (∀ e ∈ L, ∃ t, e = Event.cerr t) ∧ (∀ e ∈ tail, ∃ t, e = Event.deleteShader t) ∧
        flag = true ∧ n' = n + 2 ∧
        evs = L ++ compileCalls env .fragment src n ++ [.cerr m, .deleteShader v] ++
          compileCalls env .fragment fallbackFragmentShaderSource (n + 1) ++
          [.cerr m'] ++ tail) ∨
      (∃ src L F p f attached m,
        (∀ e ∈ L, ∃ t, e = Event.cerr t) ∧
        ((env.compileStatus n .fragment src = true ∧
            F = compileCalls env .fragment src n ∧ p = n + 1 ∧ f = n) ∨
         (env.compileStatus n .fragment src = false ∧
            env.compileStatus (n + 1) .fragment fallbackFragmentShaderSource = true ∧
            (∃ m1, F = compileCalls env .fragment src n ++ [.cerr m1, .deleteShader v] ++
              compileCalls env .fragment fallbackFragmentShaderSource (n + 1)) ∧
            p = n + 2 ∧ f = n + 1)) ∧
        flag = !(env.linkStatus p attached && env.validateStatus p attached) ∧
        (flag = false → sp' = p) ∧ n' = p + 1 ∧
        evs = L ++ F ++ linkCalls env p v f attached ++
          (if flag then [Event.cerr m] else []) ++ [.deleteShader v, .deleteShader f])) :
    usedPrograms evs = [] ∧
    (∀ x ∈ deletedPrograms evs, n ≤ x ∧ x < n') ∧
    n ≤ n' ∧
    (flag = false →
      n ≤ sp' ∧ sp' < n' ∧ Event.linkProgram sp' true ∈ evs ∧
      Event.validateProgram sp' true ∈ evs ∧ sp' ∉ deletedPrograms evs) := by
  rcases hshape with ⟨src, L, m, m', tail, hL, htail, hflag, hn', rfl⟩ |
    ⟨src, L, F, p, f, attached, m, hL, hF, hflag, hsp, hn', rfl⟩
  · have hut := usedPrograms_deleteShaders tail htail
    have hdt := deletedPrograms_deleteShaders tail htail
    refine ⟨?_, ?_, by omega, ?_⟩
    · simp only [usedPrograms_append, usedPrograms_cerr L hL, usedPrograms_compileCalls, hut]
      simp [usedPrograms]
    · intro x hx
      simp only [deletedPrograms_append, deletedPrograms_cerr L hL,
        deletedPrograms_compileCalls, hdt] at hx
      simp [deletedPrograms] at hx
    · intro hf
      rw [hflag] at hf
      cases hf
  · have hFu : usedPrograms F = [] ∧ deletedPrograms F = [] ∧ n < p := by
      rcases hF with ⟨_, rfl, rfl, _⟩ | ⟨_, _, ⟨m1, rfl⟩, rfl, _⟩
      · exact ⟨usedPrograms_compileCalls _ _ _ _, deletedPrograms_compileCalls _ _ _ _, by omega⟩
      · refine ⟨?_, ?_, by omega⟩
        · simp only [usedPrograms_append, usedPrograms_compileCalls]
          simp [usedPrograms]
        · simp only [deletedPrograms_append, deletedPrograms_compileCalls]
          simp [deletedPrograms]
    obtain ⟨hFu, hFd, hnp⟩ := hFu
    have hdel : deletedPrograms (L ++ F ++ linkCalls env p v f attached ++
        (if flag then [Event.cerr m] else []) ++ [.deleteShader v, .deleteShader f]) =
        if (env.linkStatus p attached && env.validateStatus p attached) then [] else [p] := by
      simp only [deletedPrograms_append, deletedPrograms_cerr L hL, hFd,
        deletedPrograms_linkCalls, deletedPrograms_failure]
      simp [deletedPrograms]
    refine ⟨?_, ?_, by omega, ?_⟩
    · simp only [usedPrograms_append, usedPrograms_cerr L hL, hFu, usedPrograms_linkCalls,
        usedPrograms_failure]
      simp [usedPrograms]
    · intro x hx
      rw [hdel] at hx
      split at hx
      · cases hx
      · simp at hx
        omega
    · intro hf
      have hok : (env.linkStatus p attached && env.validateStatus p attached) = true := by
        rw [hf] at hflag
        cases hb : (env.linkStatus p attached && env.validateStatus p attached)
        · rw [hb] at hflag; cases hflag
        · rfl
      obtain ⟨hl, hv⟩ := linkCalls_success env p v f attached hok
      rw [hsp hf]
      refine ⟨by omega, by omega, ?_, ?_, ?_⟩
      · simp only [List.mem_append]
        exact Or.inl (Or.inl (Or.inr hl))
      · simp only [List.mem_append]
        exact Or.inl (Or.inl (Or.inr hv))
      · rw [hdel, hok]
        simp


/-- A step that binds nothing, deletes only names below the new next name, and ends with no
active program or with a freshly linked and validated one keeps the invariant. -/
theorem Inv.step_build {st st' : App} (h : Inv st) (evs : List Event)
    (ht : st'.trace = st.trace ++ evs) (hu : usedPrograms evs = [])
    (hd : ∀ x ∈ deletedPrograms evs, x < st'.gl.nextName)
    (hn : st.gl.nextName ≤ st'.gl.nextName)
    (hsp : st'.shaderProgram = 0 ∨
      (st.gl.nextName ≤ st'.shaderProgram ∧ st'.shaderProgram < st'.gl.nextName ∧
        Event.linkProgram st'.shaderProgram true ∈ evs ∧
        Event.validateProgram st'.shaderProgram true ∈ evs ∧
        st'.shaderProgram ∉ deletedPrograms evs)) : Inv st' := by
  obtain ⟨i1, i2, i3, i4⟩ := h
  refine ⟨?_, ?_, ?_, ?_⟩
  · rw [ht]
    exact i1.append_noUse evs hu
  · intro x hx
    rw [ht, deletedPrograms_append] at hx
    rcases List.mem_append.mp hx with hx | hx
    · exact lt_of_lt_of_le (i2 x hx) hn
    · exact hd x hx
  · rcases hsp with h0 | ⟨_, h1, _⟩
    · rw [h0]; omega
    · exact h1
  · intro h0
    rcases hsp with h0' | ⟨h1, h2, h3, h4, h5⟩
    · exact absurd h0' h0
    · refine ⟨h0, ?_, ?_, ?_⟩
      · rw [ht]; exact List.mem_append_right _ h3
      · rw [ht]; exact List.mem_append_right _ h4
      · rw [ht]
        intro hmem
        rcases List.mem_append.mp hmem with hm | hm
        · have := i2 _ ((mem_deletedPrograms _ _).mpr hm)
          omega
        · exact h5 ((mem_deletedPrograms _ _).mpr hm)

/-- The `Apply Shader` block keeps the invariant. -/
theorem applyShaderBlock_inv (env : Env) (st : App) (h : Inv st) :
    Inv (applyShaderBlock env st).1 := by
  have i3 := h.2.2.1
  rcases applyShaderBlock_cases env st with ⟨c1, c2, c3, c4, ⟨m, c5⟩, _⟩ |
    ⟨c1, st1, e1, t1, n1, v1, s1, _⟩
  · refine h.step_build _ (by rw [c5]; simp only [List.append_assoc]; rfl) ?_ ?_
      (by omega) (Or.inl c3)
    · simp only [usedPrograms_append, usedPrograms_release, usedPrograms_compileCalls]
      simp [usedPrograms]
    · intro x hx
      simp only [deletedPrograms_append, deletedPrograms_release,
        deletedPrograms_compileCalls] at hx
      simp [deletedPrograms] at hx
      omega
  · rw [e1]
    obtain ⟨_, hshape⟩ := applyBuild_spec env st1
    have hfacts := build_facts env st1.gl.nextName st1.vertShader
      (eventsSince st1 (applyBuild env st1).1) (applyBuild env st1).2
      (applyBuild env st1).1.shaderProgram (applyBuild env st1).1.gl.nextName (by
        rcases hshape with ⟨src, L, m, m', hL, c1, c2, c3, c4, c5, c6⟩ |
          ⟨src, L, F, p, f, attached, m, hL, hF, c3, c4, c5, c6⟩
        · refine Or.inl ⟨src, L, m, m', [.deleteShader st1.vertShader], hL, ?_, c3, c5, ?_⟩
          · intro e he
            exact ⟨_, by simpa using he⟩
          · rw [eventsSince_of_trace (by rw [c6]; simp only [List.append_assoc]; rfl)]
            simp only [List.append_assoc, List.cons_append, List.nil_append]
        · refine Or.inr ⟨src, L, F, p, f, attached, m, hL, hF, c3, ?_, c5, ?_⟩
          · intro hf
            rw [c4, hf]
            rfl
          · rw [eventsSince_of_trace (by rw [c6]; simp only [List.append_assoc]; rfl)]
            simp only [List.append_assoc])
    obtain ⟨f1, f2, f3, f4⟩ := hfacts
    obtain ⟨Y, hY⟩ := applyBuild_trace env st1
    have hev : eventsSince st1 (applyBuild env st1).1 = Y := eventsSince_of_trace hY
    rw [hev] at f1 f2 f4
    have hsp0 : (applyBuild env st1).2 = true → (applyBuild env st1).1.shaderProgram = 0 := by
      intro hf
      rcases hshape with ⟨src, L, m, m', hL, c1, c2, c3, c4, c5, c6⟩ |
        ⟨src, L, F, p, f, attached, m, hL, hF, c3, c4, c5, c6⟩
      · exact c4
      · rw [c4, hf]; rfl
    refine h.step_build
      ((if st.shaderProgram ≠ 0 then [Event.deleteProgram st.shaderProgram] else []) ++
        compileCalls env .vertex vertexShaderSource st.gl.nextName ++ Y)
      (by rw [hY, t1]; simp only [List.append_assoc]) ?_ ?_ (by omega) ?_
    · simp only [usedPrograms_append, usedPrograms_release, usedPrograms_compileCalls, f1]
      rfl
    · intro x hx
      simp only [deletedPrograms_append, deletedPrograms_release,
        deletedPrograms_compileCalls, List.append_nil, List.mem_append] at hx
      rcases hx with hx | hx
      · split at hx
        · simp at hx; omega
        · cases hx
      · exact (f2 x hx).2
    · cases hflag : (applyBuild env st1).2
      · obtain ⟨g1, g2, g3, g4, g5⟩ := f4 hflag
        refine Or.inr ⟨by omega, g2, ?_, ?_, ?_⟩
        · exact List.mem_append_right _ g3
        · exact List.mem_append_right _ g4
        · simp only [deletedPrograms_append, deletedPrograms_release,
            deletedPrograms_compileCalls, List.append_nil, List.mem_append]
          rintro (hx | hx)
          · split at hx
            · simp at hx; omega
            · cases hx
          · exact g5 hx
      · exact Or.inl (hsp0 hflag)


/-- The initial build binds no program, and when it succeeds it establishes the
invariant. -/
theorem initialBuild_inv (env : Env) (st : App) (h : Inv st) :
    BoundOK (initialBuild env st).1.trace ∧
    ((initialBuild env st).2 = false → Inv (initialBuild env st).1) := by
  have i3 := h.2.2.1
  rcases initialBuild_cases env st with ⟨c1, c2, c3, c4, ⟨m, c5⟩, _⟩ |
    ⟨c1, st1, e1, t1, n1, v1, s1, _⟩
  · constructor
    · rw [c5, List.append_assoc]
      refine h.1.append_noUse _ ?_
      simp only [usedPrograms_append, usedPrograms_compileCalls]
      simp [usedPrograms]
    · intro hf
      rw [c2] at hf
      cases hf
  · rw [e1]
    obtain ⟨_, hshape⟩ := initialBuildRest_spec env st1
    have hfacts := build_facts env st1.gl.nextName st1.vertShader
      (eventsSince st1 (initialBuildRest env st1).1) (initialBuildRest env st1).2
      (initialBuildRest env st1).1.shaderProgram (initialBuildRest env st1).1.gl.nextName (by
        rcases hshape with ⟨src, L, m, m', hL, c1, c2, c3, c5, c6⟩ |
          ⟨src, L, F, p, f, attached, m, hL, hF, c3, c4, c5, c6⟩
        · refine Or.inl ⟨src, L, m, m', [], hL, by simp, c3, c5, ?_⟩
          rw [eventsSince_of_trace (by rw [c6]; simp only [List.append_assoc]; rfl)]
          simp only [List.append_assoc, List.cons_append, List.nil_append, List.append_nil]
        · refine Or.inr ⟨src, L, F, p, f, attached, m, hL, hF, c3, fun _ => c4, c5, ?_⟩
          rw [eventsSince_of_trace (by rw [c6]; simp only [List.append_assoc]; rfl)]
          simp only [List.append_assoc])
    obtain ⟨f1, f2, f3, f4⟩ := hfacts
    obtain ⟨Y, hY⟩ := initialBuildRest_trace env st1
    have hev : eventsSince st1 (initialBuildRest env st1).1 = Y := eventsSince_of_trace hY
    rw [hev] at f1 f2 f4
    have htr : (initialBuildRest env st1).1.trace =
        st.trace ++ (compileCalls env .vertex vertexShaderSource st.gl.nextName ++ Y) := by
      rw [hY, t1]; simp only [List.append_assoc]
    have hu : usedPrograms (compileCalls env .vertex vertexShaderSource st.gl.nextName ++ Y)
        = [] := by
      simp only [usedPrograms_append, usedPrograms_compileCalls, f1]
      rfl
    constructor
    · rw [htr]
      exact h.1.append_noUse _ hu
    · intro hflag
      obtain ⟨g1, g2, g3, g4, g5⟩ := f4 hflag
      refine h.step_build _ htr hu ?_ (by omega) (Or.inr ⟨by omega, g2, ?_, ?_, ?_⟩)
      · intro x hx
        simp only [deletedPrograms_append, deletedPrograms_compileCalls,
          List.nil_append] at hx
        exact (f2 x hx).2
      · exact List.mem_append_right _ g3
      · exact List.mem_append_right _ g4
      · simp only [deletedPrograms_append, deletedPrograms_compileCalls, List.nil_append]
        exact g5

theorem Inv.initial (env : Env) : Inv (initialApp env) := by
  refine ⟨?_, ?_, ?_, ?_⟩
  · intro pre p post hsplit
    simp [initialApp] at hsplit
  · intro n hn
    simp [initialApp, deletedPrograms] at hn
  · simp [initialApp]
  · intro h0
    simp [initialApp] at h0

/-- The steps of the loop body other than the `Apply Shader` block keep the invariant. -/
theorem displayErrors_inv (st : App) (h : Inv st) : Inv (displayErrors st) := by
  unfold displayErrors
  split
  · exact h.step_draw [.showError st.errorMessage] rfl rfl rfl (by simp [usedPrograms])
      (by simp [deletedPrograms])
  · exact h

theorem previewDraw_eq (env : Env) (elapsed : F32) (st : App) :
    previewDraw env elapsed st =
      if st.shaderProgram ≠ 0 then
        { st with trace := st.trace ++ previewCalls env st elapsed }
      else st := by
  unfold previewDraw previewCalls
  by_cases h0 : st.shaderProgram = 0 <;> by_cases h1 : st.iTimeLoc = -1 <;>
    by_cases h2 : st.iResLoc = -1 <;> simp [App.emit, h0, h1, h2]

theorem usedPrograms_previewCalls (env : Env) (st : App) (elapsed : F32) :
    usedPrograms (previewCalls env st elapsed) = [st.shaderProgram] := by
  unfold previewCalls usedPrograms
  by_cases h1 : st.iTimeLoc = -1 <;> by_cases h2 : st.iResLoc = -1 <;> simp [h1, h2]

theorem deletedPrograms_previewCalls (env : Env) (st : App) (elapsed : F32) :
    deletedPrograms (previewCalls env st elapsed) = [] := by
  unfold previewCalls deletedPrograms
  by_cases h1 : st.iTimeLoc = -1 <;> by_cases h2 : st.iResLoc = -1 <;> simp [h1, h2]

theorem previewDraw_inv (env : Env) (elapsed : F32) (st : App) (h : Inv st) :
    Inv (previewDraw env elapsed st) := by
  rw [previewDraw_eq]
  by_cases h0 : st.shaderProgram = 0
  · simp [h0, h]
  · simp only [ne_eq, h0, not_false_eq_true, if_true]
    refine h.step_draw (previewCalls env st elapsed) rfl rfl rfl ?_
      (deletedPrograms_previewCalls env st elapsed)
    intro p hp
    rw [usedPrograms_previewCalls] at hp
    exact ⟨by simpa using hp, h0⟩

theorem checkGLError_inv (st : App) (h : Inv st) : Inv (checkGLError st) := by
  unfold checkGLError
  by_cases he : st.gl.error = 0
  · simp only [he, ne_eq, not_true_eq_false, if_false]
    exact h.step_draw [] (by simp) rfl rfl (by simp [usedPrograms]) (by simp [deletedPrograms])
  · simp only [ne_eq, he, not_false_eq_true, if_true]
    exact h.step_draw [_] rfl rfl rfl (by simp [usedPrograms]) (by simp [deletedPrograms])

/-- A change of local variables other than `shaderProgram` keeps the invariant. -/
theorem Inv.same {st st' : App} (h : Inv st) (ht : st'.trace = st.trace)
    (hn : st'.gl.nextName = st.gl.nextName) (hs : st'.shaderProgram = st.shaderProgram) :
    Inv st' :=
  h.step_draw [] (by simp [ht]) hn hs (by simp [usedPrograms]) (by simp [deletedPrograms])

/-- One iteration of the interactive loop keeps the invariant. -/
theorem loopBody_inv (env : Env) (inp : FrameInput) (st : App) (h : Inv st) :
    Inv (loopBody env inp st).1 := by
  unfold loopBody
  simp only []
  generalize hst1 : (if inp.applyClicked = true then _ else _ : App) = st1
  have h1 : Inv st1 := by
    subst hst1
    by_cases ha : inp.applyClicked = true <;>
      by_cases hb : inp.shaderIndex < (shaderFiles env).length <;>
      simp only [ha, hb, if_true, if_false] <;>
      exact h.same rfl rfl rfl
  by_cases hap : st1.applyShader = true
  · simp only [hap, if_true]
    have h2 := applyShaderBlock_inv env st1 h1
    by_cases hc : (applyShaderBlock env st1).2 = true
    · simp only [hc, if_true]
      exact h2
    · simp only [hc, if_false]
      refine checkGLError_inv _ (previewDraw_inv _ _ _ ?_)
      by_cases hs : inp.startClicked = true <;> simp only [hs, if_true, if_false] <;>
        exact (displayErrors_inv _ h2).same rfl rfl rfl
  · simp only [hap, if_false]
    refine checkGLError_inv _ (previewDraw_inv _ _ _ ?_)
    by_cases hs : inp.startClicked = true <;> simp only [hs, if_true, if_false] <;>
      exact (displayErrors_inv _ h1).same rfl rfl rfl

/-- The interactive loop keeps the invariant. -/
theorem mainLoop_inv (env : Env) :
    ∀ (inputs : List FrameInput) (st : App), Inv st → Inv (mainLoop env inputs st)
  | [], st, h => by simpa [mainLoop] using h
  | inp :: rest, st, h => by
      unfold mainLoop
      by_cases hc : inp.windowShouldClose = true
      · simp only [hc, if_true]
        exact h
      · simp only [hc, if_false]
        have h1 := loopBody_inv env inp st h
        by_cases hb : (loopBody env inp st).2 = true
        · simp only [hb, if_true]
          exact h1
        · simp only [hb, if_false]
          exact mainLoop_inv env rest _ h1


theorem usedPrograms_frames (env : Env) (bufLen : Nat) (st : App) (frames : List Int) :
    ∀ p ∈ usedPrograms ((frames.map (fun f => frameCalls env bufLen st f)).flatten),
      p = st.shaderProgram := by
  induction frames with
  | nil => simp [usedPrograms]
  | cons f frames ih =>
    intro p hp
    simp only [List.map_cons, List.flatten_cons, usedPrograms_append,
      usedPrograms_frameCalls, List.mem_append] at hp
    rcases hp with hp | hp
    · simpa using hp
    · exact ih p hp

theorem deletedPrograms_frames (env : Env) (bufLen : Nat) (st : App) (frames : List Int) :
    deletedPrograms ((frames.map (fun f => frameCalls env bufLen st f)).flatten) = [] := by
  induction frames with
  | nil => simp [deletedPrograms]
  | cons f frames ih =>
    simp only [List.map_cons, List.flatten_cons, deletedPrograms_append,
      deletedPrograms_frameCalls, ih, List.append_nil]

/-- The frames the offline loop renders from `frame` on with the given fuel. -/
theorem renderLoop_frames (env : Env) (bufLen fuel : Nat) (frame : Int) (st : App) :
    renderLoop env bufLen fuel frame st =
      { st with trace := st.trace ++
          (((List.range (min fuel (st.totalFrames - frame).toNat)).map
            (fun (k : Nat) => frame + (k : Int))).map
              (fun f => frameCalls env bufLen st f)).flatten } := by
  rw [renderLoop_eq, List.map_map]
  rfl

theorem renderLoop_inv (env : Env) (bufLen fuel : Nat) (frame : Int) (st : App) (h : Inv st)
    (h0 : st.shaderProgram ≠ 0) : Inv (renderLoop env bufLen fuel frame st) := by
  rw [renderLoop_frames]
  refine h.step_draw _ rfl rfl rfl ?_ (deletedPrograms_frames env bufLen st _)
  intro p hp
  exact ⟨usedPrograms_frames env bufLen st _ p hp, h0⟩

/-- The framebuffer set-up changes only the trace: the status check and, for an incomplete
framebuffer, the message. -/
theorem setupFramebuffer_eq (env : Env) (w h : Int) (st : App) :
    setupFramebuffer env w h st =
      { st with trace := st.trace ++
          ([Event.checkFramebuffer w h (env.framebufferComplete w h)] ++
            (if env.framebufferComplete w h then []
             else [Event.cerr "Framebuffer incomplete!\n"])) } := by
  unfold setupFramebuffer
  cases env.framebufferComplete w h <;> simp [App.emit]

theorem usedPrograms_setup (w h : Int) (b : Bool) :
    usedPrograms ([Event.checkFramebuffer w h b] ++
      (if b then [] else [Event.cerr "Framebuffer incomplete!\n"])) = [] := by
  cases b <;> simp [usedPrograms]

theorem deletedPrograms_setup (w h : Int) (b : Bool) :
    deletedPrograms ([Event.checkFramebuffer w h b] ++
      (if b then [] else [Event.cerr "Framebuffer incomplete!\n"])) = [] := by
  cases b <;> simp [deletedPrograms]

/-- Rendering into the open pipe keeps the invariant. -/
theorem renderToPipe_inv (env : Env) (st : App) (h : Inv st) (h0 : st.shaderProgram ≠ 0) :
    Inv (renderToPipe env st).1 := by
  unfold renderToPipe
  rw [setupFramebuffer_eq]
  have hs : Inv ({ st with trace := st.trace ++
      ([Event.checkFramebuffer st.offWidth st.offHeight
          (env.framebufferComplete st.offWidth st.offHeight)] ++
        (if env.framebufferComplete st.offWidth st.offHeight then []
         else [Event.cerr "Framebuffer incomplete!\n"])) } : App) :=
    h.step_draw _ rfl rfl rfl (by rw [usedPrograms_setup]; simp)
      (deletedPrograms_setup _ _ _)
  simp only []
  cases frameBufferSize st.offWidth st.offHeight with
  | none => exact hs
  | some len =>
    exact (renderLoop_inv env len _ 0 _ hs h0).step_draw [.pclose] rfl rfl rfl
      (by simp [usedPrograms]) (by simp [deletedPrograms])

/-- Offline rendering keeps the invariant. -/
theorem offlineRender_inv (env : Env) (st : App) (h : Inv st) :
    Inv (offlineRender env st).1 := by
  unfold offlineRender
  by_cases hg : (st.startOfflineRender && decide (st.shaderProgram ≠ 0)) = true
  · have h0 : st.shaderProgram ≠ 0 := by
      simp only [Bool.and_eq_true, decide_eq_true_eq] at hg
      exact hg.2
    simp only [hg, if_true]
    have hp : Inv (st.emit (.popen (ffmpegCommand st.offWidth st.offHeight
        (selectOutputFile env)) (env.popenOk (ffmpegCommand st.offWidth st.offHeight
        (selectOutputFile env))))) :=
      h.step_draw [_] rfl rfl rfl (by simp [usedPrograms]) (by simp [deletedPrograms])
    cases hok : env.popenOk (ffmpegCommand st.offWidth st.offHeight (selectOutputFile env))
    · simp only [Bool.not_false, if_true]
      rw [hok] at hp
      exact hp.step_draw [_] rfl rfl rfl (by simp [usedPrograms]) (by simp [deletedPrograms])
    · simp only [Bool.not_true, Bool.false_eq_true, if_false]
      rw [hok] at hp
      exact renderToPipe_inv env _ hp h0
  · simp only [hg, if_false]
    exact h

/-- Every run of `main.cpp` keeps `BoundOK`. -/
theorem mainProgram_boundOK (env : Env) (inputs : List FrameInput) :
    BoundOK (mainProgram env inputs).1.trace := by
  unfold mainProgram
  obtain ⟨hb, hi⟩ := initialBuild_inv env (initialApp env) (Inv.initial env)
  rcases hr : initialBuild env (initialApp env) with ⟨st0, exit⟩
  rw [hr] at hb hi
  simp only at hb hi ⊢
  cases exit
  · simp only [Bool.false_eq_true, if_false]
    have h1 := offlineRender_inv env _ (mainLoop_inv env inputs st0 (hi rfl))
    rcases ho : offlineRender env (mainLoop env inputs st0) with ⟨st1, thrown⟩
    rw [ho] at h1
    simp only at h1 ⊢
    cases thrown
    · simp only [Bool.false_eq_true, if_false]
      unfold cleanup
      split
      · exact h1.1.append_noUse [_] (by simp [usedPrograms])
      · exact h1.1
    · simp only [if_true]
      exact h1.1
  · simp only [if_true]
    exact hb

/-- C2: in every run of `main.cpp` (initial build, any iterations of the interactive loop,
offline rendering, cleanup) each program bound by `glUseProgram`, in the preview and in the
offline loop, is a program whose link and validation succeeded before and that has not been
deleted before. -/
theorem bound_program_is_valid (env : Env) (inputs : List FrameInput)
    (pre post : List Event) (p : Nat)
    (h : (mainProgram env inputs).1.trace = pre ++ Event.useProgram p :: post) :
    p ≠ 0 ∧ Event.linkProgram p true ∈ pre ∧ Event.validateProgram p true ∈ pre ∧
      Event.deleteProgram p ∉ pre :=
  mainProgram_boundOK env inputs pre p post h


/-- C2 in the sample run with one idle iteration: the preview binds program 3 after eleven
calls of the initial build. -/
theorem bound_program_is_valid_witness :
    (mainProgram Env.sample [FrameInput.idle]).1.trace =
      (mainProgram Env.sample [FrameInput.idle]).1.trace.take 11 ++
        Event.useProgram 3 :: (mainProgram Env.sample [FrameInput.idle]).1.trace.drop 12 ∧
    (3 ≠ 0 ∧
      Event.linkProgram 3 true ∈ (mainProgram Env.sample [FrameInput.idle]).1.trace.take 11 ∧
      Event.validateProgram 3 true ∈
        (mainProgram Env.sample [FrameInput.idle]).1.trace.take 11 ∧
      Event.deleteProgram 3 ∉ (mainProgram Env.sample [FrameInput.idle]).1.trace.take 11) :=
  ⟨rfl, bound_program_is_valid Env.sample [FrameInput.idle] _ _ 3 rfl⟩

/-! ## The offline render loop (C9, C10) -/

theorem encoderCalls_append (a b : List Event) :
    encoderCalls (a ++ b) = encoderCalls a ++ encoderCalls b := by
  simp [encoderCalls]

theorem uniform1fValues_append (loc : Int) (a b : List Event) :
    uniform1fValues loc (a ++ b) = uniform1fValues loc a ++ uniform1fValues loc b := by
  simp [uniform1fValues, List.filterMap_append]

theorem encoderCalls_frameCalls (env : Env) (bufLen : Nat) (st : App) (frame : Int) :
    encoderCalls (frameCalls env bufLen st frame) =
      [.fwrite frame bufLen (env.fwriteAccepted frame bufLen)] := by
  unfold frameCalls encoderCalls
  by_cases h1 : st.iTimeLoc = -1 <;> by_cases h2 : st.iResLoc = -1 <;>
    by_cases h3 : env.fwriteAccepted frame bufLen = bufLen <;>
    simp [h1, h2, h3]

theorem uniform1fValues_frameCalls (env : Env) (bufLen : Nat) (st : App) (frame : Int)
    (h : st.iTimeLoc ≠ -1) :
    uniform1fValues st.iTimeLoc (frameCalls env bufLen st frame) =
      [simulatedTime env.R frame st.totalFrames st.desiredDuration st.slowdownFactor] := by
  unfold frameCalls uniform1fValues
  by_cases h2 : st.iResLoc = -1 <;>
    by_cases h3 : env.fwriteAccepted frame bufLen = bufLen <;>
    simp [h, h2, h3]

theorem encoderCalls_frameCallsNoUI (env : Env) (bufLen : Nat) (st : App) (frame : Int) :
    encoderCalls (frameCallsNoUI env bufLen st frame) =
      [.fwrite frame bufLen (env.fwriteAccepted frame bufLen)] := by
  unfold frameCallsNoUI encoderCalls
  by_cases h3 : env.fwriteAccepted frame bufLen = bufLen <;> simp [h3]

theorem encoderCalls_setup (w h : Int) (b : Bool) :
    encoderCalls ([Event.checkFramebuffer w h b] ++
      (if b then [] else [Event.cerr "Framebuffer incomplete!\n"])) = [] := by
  cases b <;> simp [encoderCalls]

theorem uniform1fValues_setup (loc : Int) (w h : Int) (b : Bool) :
    uniform1fValues loc ([Event.checkFramebuffer w h b] ++
      (if b then [] else [Event.cerr "Framebuffer incomplete!\n"])) = [] := by
  cases b <;> simp [uniform1fValues]

/-- The encoder calls of a run of frames are the writes of these frames, in order. -/
theorem encoderCalls_frames (env : Env) (bufLen : Nat) (st : App) (frames : List Int) :
    encoderCalls ((frames.map (fun f => frameCalls env bufLen st f)).flatten) =
      frames.map (fun f => Event.fwrite f bufLen (env.fwriteAccepted f bufLen)) := by
  induction frames with
  | nil => simp [encoderCalls]
  | cons f frames ih =>
    simp only [List.map_cons, List.flatten_cons, encoderCalls_append, encoderCalls_frameCalls,
      ih, List.singleton_append]

theorem encoderCalls_framesNoUI (env : Env) (bufLen : Nat) (st : App) (frames : List Int) :
    encoderCalls ((frames.map (fun f => frameCallsNoUI env bufLen st f)).flatten) =
      frames.map (fun f => Event.fwrite f bufLen (env.fwriteAccepted f bufLen)) := by
  induction frames with
  | nil => simp [encoderCalls]
  | cons f frames ih =>
    simp only [List.map_cons, List.flatten_cons, encoderCalls_append,
      encoderCalls_frameCallsNoUI, ih, List.singleton_append]

/-- The values written to the time uniform over a run of frames are the simulated times of
these frames, in order. -/
theorem uniform1fValues_frames (env : Env) (bufLen : Nat) (st : App) (frames : List Int)
    (h : st.iTimeLoc ≠ -1) :
    uniform1fValues st.iTimeLoc ((frames.map (fun f => frameCalls env bufLen st f)).flatten) =
      frames.map (fun f =>
        simulatedTime env.R f st.totalFrames st.desiredDuration st.slowdownFactor) := by
  induction frames with
  | nil => simp [uniform1fValues]
  | cons f frames ih =>
    simp only [List.map_cons, List.flatten_cons, uniform1fValues_append,
      uniform1fValues_frameCalls env bufLen st f h, ih, List.singleton_append]

/-- One frame of the offline loop of `main_noui.cpp` changes only the trace. -/
theorem renderFrameNoUI_eq (env : Env) (bufLen : Nat) (frame : Int) (st : App) :
    renderFrameNoUI env bufLen frame st =
      { st with trace := st.trace ++ frameCallsNoUI env bufLen st frame } := by
  unfold renderFrameNoUI frameCallsNoUI
  by_cases h3 : env.fwriteAccepted frame bufLen = bufLen <;> simp [App.emit, h3]

theorem frameCallsNoUI_trace (env : Env) (bufLen : Nat) (st : App) (tr : List Event)
    (frame : Int) :
    frameCallsNoUI env bufLen { st with trace := tr } frame =
      frameCallsNoUI env bufLen st frame := rfl

/-- What the offline loop of `main_noui.cpp` does from `frame` on. -/
theorem renderLoopNoUI_eq (env : Env) (bufLen : Nat) :
    ∀ (fuel : Nat) (frame : Int) (st : App),
      renderLoopNoUI env bufLen fuel frame st =
        { st with trace := st.trace ++
            ((List.range (min fuel (st.totalFrames - frame).toNat)).map
              (fun (k : Nat) => frameCallsNoUI env bufLen st (frame + (k : Int)))).flatten }
  | 0, frame, st => by simp [renderLoopNoUI]
  | fuel + 1, frame, st => by
      unfold renderLoopNoUI
      by_cases h : frame < st.totalFrames
      · simp only [h, if_true]
        rw [renderFrameNoUI_eq, renderLoopNoUI_eq env bufLen fuel (frame + 1)]
        have hm : min (fuel + 1) (st.totalFrames - frame).toNat =
            min fuel (st.totalFrames - (frame + 1)).toNat + 1 := by omega
        have key : ∀ m : Nat,
            frameCallsNoUI env bufLen st frame ++
              ((List.range m).map
                (fun (k : Nat) => frameCallsNoUI env bufLen st (frame + 1 + (k : Int)))).flatten =
            ((List.range (m + 1)).map
              (fun (k : Nat) => frameCallsNoUI env bufLen st (frame + (k : Int)))).flatten := by
          intro m
          rw [List.range_succ_eq_map]
          simp only [List.map_cons, List.flatten_cons, List.map_map, Nat.cast_zero, add_zero]
          congr 2
          apply List.map_congr_left
          intro k _
          show frameCallsNoUI env bufLen st (frame + 1 + (k : Int)) =
            frameCallsNoUI env bufLen st (frame + ((k + 1 : Nat) : Int))
          congr 1
          push_cast
          ring
        simp only [hm, frameCallsNoUI_trace, List.append_assoc, key]
      · simp only [h, if_false]
        have : (st.totalFrames - frame).toNat = 0 := by omega
        simp [this]


/-- Rendering into the open pipe, when the frame buffer can be allocated and `totalFrames`
is `n`: the framebuffer check, the calls of the frames `0, 1, ..., n - 1` in this order, and
then `pclose`. -/
theorem renderToPipe_eq (env : Env) (st : App) (n bufLen : Nat)
    (hsize : frameBufferSize st.offWidth st.offHeight = some bufLen)
    (hn : st.totalFrames = (n : Int)) :
    renderToPipe env st =
      ({ st with trace := st.trace ++
          ([Event.checkFramebuffer st.offWidth st.offHeight
              (env.framebufferComplete st.offWidth st.offHeight)] ++
            (if env.framebufferComplete st.offWidth st.offHeight then []
             else [Event.cerr "Framebuffer incomplete!\n"]) ++
           ((List.range n).map
              (fun (k : Nat) => frameCalls env bufLen st (k : Int))).flatten ++
           [Event.pclose]) }, false) := by
  unfold renderToPipe
  rw [setupFramebuffer_eq]
  simp only [hsize, renderLoop_eq, frameCalls_trace, App.emit, List.append_assoc]
  simp only [hn, Int.toNat_ofNat, sub_zero, min_self, zero_add]

/-- The same for `main_noui.cpp`, where the frame buffer has 3840 * 2160 * 3 bytes and the
program is deleted at the end. -/
theorem renderToPipeNoUI_eq (env : Env) (st : App) (n : Nat)
    (hn : st.totalFrames = (n : Int)) :
    renderToPipeNoUI env st =
      ({ st with
          gl := st.gl.deleteProgram st.shaderProgram,
          trace := st.trace ++
          ([Event.checkFramebuffer OFF_WIDTH OFF_HEIGHT
              (env.framebufferComplete OFF_WIDTH OFF_HEIGHT)] ++
            (if env.framebufferComplete OFF_WIDTH OFF_HEIGHT then []
             else [Event.cerr "Framebuffer incomplete!\n"]) ++
           ((List.range n).map
              (fun (k : Nat) => frameCallsNoUI env 24883200 st (k : Int))).flatten ++
           [Event.pclose, Event.deleteProgram st.shaderProgram]) }, .returned 0) := by
  have hsize : frameBufferSize OFF_WIDTH OFF_HEIGHT = some 24883200 := by decide
  unfold renderToPipeNoUI
  rw [setupFramebuffer_eq]
  simp only [hsize, renderLoopNoUI_eq, frameCallsNoUI_trace, App.emit, List.append_assoc,
    glDeleteProgram]
  simp only [hn, Int.toNat_ofNat, sub_zero, min_self, zero_add, List.cons_append,
    List.nil_append]


/-- Offline rendering of `main.cpp` when it is started with an active program, the pipe
opens, the frame buffer can be allocated and `totalFrames` is `n`. -/
theorem offlineRender_eq (env : Env) (st : App) (n bufLen : Nat)
    (hstart : st.startOfflineRender = true) (hprog : st.shaderProgram ≠ 0)
    (hopen : env.popenOk (ffmpegCommand st.offWidth st.offHeight (selectOutputFile env)) = true)
    (hsize : frameBufferSize st.offWidth st.offHeight = some bufLen)
    (hn : st.totalFrames = (n : Int)) :
    offlineRender env st =
      ({ st with trace := st.trace ++
          ([Event.popen (ffmpegCommand st.offWidth st.offHeight (selectOutputFile env)) true] ++
           ([Event.checkFramebuffer st.offWidth st.offHeight
              (env.framebufferComplete st.offWidth st.offHeight)] ++
            (if env.framebufferComplete st.offWidth st.offHeight then []
             else [Event.cerr "Framebuffer incomplete!\n"]) ++
           ((List.range n).map
              (fun (k : Nat) => frameCalls env bufLen st (k : Int))).flatten ++
           [Event.pclose])) }, false) := by
  unfold offlineRender
  simp only [hstart, hprog, ne_eq, not_false_eq_true, decide_True, Bool.and_self, if_true,
    hopen, Bool.not_true, Bool.false_eq_true, if_false]
  rw [renderToPipe_eq env (st.emit _) n bufLen hsize hn]
  simp only [App.emit, frameCalls_trace, List.append_assoc]
  simp only [hstart]

/-- Offline rendering of `main_noui.cpp` when the pipe opens and `totalFrames` is `n`. -/
theorem offlineRenderNoUI_eq (env : Env) (st : App) (n : Nat) (d s : F32)
    (hopen : env.popenOk (ffmpegCommand OFF_WIDTH OFF_HEIGHT (selectOutputFile env)) = true) :
    offlineRenderNoUI env (n : Int) d s st =
      ({ st with
          totalFrames := (n : Int), desiredDuration := d, slowdownFactor := s,
          gl := st.gl.deleteProgram st.shaderProgram,
          trace := st.trace ++
          ([Event.popen (ffmpegCommand OFF_WIDTH OFF_HEIGHT (selectOutputFile env)) true] ++
           ([Event.checkFramebuffer OFF_WIDTH OFF_HEIGHT
              (env.framebufferComplete OFF_WIDTH OFF_HEIGHT)] ++
            (if env.framebufferComplete OFF_WIDTH OFF_HEIGHT then []
             else [Event.cerr "Framebuffer incomplete!\n"]) ++
           ((List.range n).map
              (fun (k : Nat) => frameCallsNoUI env 24883200
                { st with totalFrames := (n : Int), desiredDuration := d,
                          slowdownFactor := s } (k : Int))).flatten ++
           [Event.pclose, Event.deleteProgram st.shaderProgram])) }, .returned 0) := by
  unfold offlineRenderNoUI
  simp only [hopen, Bool.not_true, Bool.false_eq_true, if_false]
  rw [renderToPipeNoUI_eq env _ n rfl]
  simp only [App.emit, List.append_assoc]
  rfl

theorem encoderCalls_offline (env : Env) (st : App) (n bufLen : Nat) (cmd : String)
    (b : Bool) :
    encoderCalls ([Event.popen cmd true] ++
      ([Event.checkFramebuffer st.offWidth st.offHeight b] ++
        (if b then [] else [Event.cerr "Framebuffer incomplete!\n"]) ++
       ((List.range n).map (fun (k : Nat) => frameCalls env bufLen st (k : Int))).flatten ++
       [Event.pclose])) =
    (List.range n).map
      (fun (k : Nat) => Event.fwrite (k : Int) bufLen (env.fwriteAccepted (k : Int) bufLen)) ++
      [Event.pclose] := by
  have hf := encoderCalls_frames env bufLen st ((List.range n).map (fun (k : Nat) => (k : Int)))
  simp only [List.map_map] at hf
  simp only [encoderCalls_append]
  rw [show (fun (k : Nat) => frameCalls env bufLen st (k : Int)) =
    ((fun f => frameCalls env bufLen st f) ∘ fun (k : Nat) => (k : Int)) from rfl, hf]
  cases b <;> simp [encoderCalls, Function.comp]


theorem uniform1fValues_offline (env : Env) (st : App) (n bufLen : Nat) (cmd : String)
    (b : Bool) (h : st.iTimeLoc ≠ -1) :
    uniform1fValues st.iTimeLoc ([Event.popen cmd true] ++
      ([Event.checkFramebuffer st.offWidth st.offHeight b] ++
        (if b then [] else [Event.cerr "Framebuffer incomplete!\n"]) ++
       ((List.range n).map (fun (k : Nat) => frameCalls env bufLen st (k : Int))).flatten ++
       [Event.pclose])) =
    (List.range n).map
      (fun (k : Nat) =>
        simulatedTime env.R (k : Int) st.totalFrames st.desiredDuration st.slowdownFactor) := by
  have hf := uniform1fValues_frames env bufLen st
    ((List.range n).map (fun (k : Nat) => (k : Int))) h
  simp only [List.map_map] at hf
  simp only [uniform1fValues_append]
  rw [show (fun (k : Nat) => frameCalls env bufLen st (k : Int)) =
    ((fun f => frameCalls env bufLen st f) ∘ fun (k : Nat) => (k : Int)) from rfl, hf]
  cases b <;> simp [uniform1fValues, Function.comp]

theorem encoderCalls_offlineNoUI (env : Env) (st : App) (n bufLen : Nat) (cmd : String)
    (b : Bool) (p : Nat) :
    encoderCalls ([Event.popen cmd true] ++
      ([Event.checkFramebuffer OFF_WIDTH OFF_HEIGHT b] ++
        (if b then [] else [Event.cerr "Framebuffer incomplete!\n"]) ++
       ((List.range n).map
          (fun (k : Nat) => frameCallsNoUI env bufLen st (k : Int))).flatten ++
       [Event.pclose, Event.deleteProgram p])) =
    (List.range n).map
      (fun (k : Nat) => Event.fwrite (k : Int) bufLen (env.fwriteAccepted (k : Int) bufLen)) ++
      [Event.pclose] := by
  have hf := encoderCalls_framesNoUI env bufLen st
    ((List.range n).map (fun (k : Nat) => (k : Int)))
  simp only [List.map_map] at hf
  simp only [encoderCalls_append]
  rw [show (fun (k : Nat) => frameCallsNoUI env bufLen st (k : Int)) =
    ((fun f => frameCallsNoUI env bufLen st f) ∘ fun (k : Nat) => (k : Int)) from rfl, hf]
  cases b <;> simp [encoderCalls, Function.comp]

/-- C9, as stated, fails: a request for 3 frames made after the failed activation of
`shaders/bad.txt`, when no program is active, gives no call at all; with an encoder that
cannot be started the request for 3 frames gives a failed `popen` and a message; with a
render width of -1 the request for 2 frames opens the encoder and ends in the exception of
the frame-buffer constructor.  In all three runs nothing is written to the encoder stream
and it is not closed. -/
theorem render_request_without_writes :
    ((mainLoop Env.sample [FrameInput.applyBad, FrameInput.render3]
        Sample.built).shaderProgram = 0 ∧
      (mainLoop Env.sample [FrameInput.applyBad, FrameInput.render3]
        Sample.built).startOfflineRender = true ∧
      (mainLoop Env.sample [FrameInput.applyBad, FrameInput.render3]
        Sample.built).totalFrames = 3 ∧
      eventsSince
        (mainLoop Env.sample [FrameInput.applyBad, FrameInput.render3] Sample.built)
        (offlineRender Env.sample
          (mainLoop Env.sample [FrameInput.applyBad, FrameInput.render3] Sample.built)).1
        = []) ∧
    (Sample.beforeRender.totalFrames = 3 ∧
      eventsSince Sample.beforeRender (offlineRender Env.noPipe Sample.beforeRender).1 =
        [.popen ("ffmpeg -y -f rawvideo -pixel_format rgb24 -video_size 4x4 -framerate 60 " ++
            "-i - -c:v libx264 -pix_fmt yuv420p output_2.mp4") false,
         .cerr "Failed to open ffmpeg pipe.\n"]) ∧
    ((Sample.requested FrameInput.renderNegative).totalFrames = 2 ∧
      (offlineRender Env.sample (Sample.requested FrameInput.renderNegative)).2 = true ∧
      encoderCalls (eventsSince (Sample.requested FrameInput.renderNegative)
        (offlineRender Env.sample (Sample.requested FrameInput.renderNegative)).1) = []) := by
  refine ⟨⟨by decide, by decide, by decide, by decide⟩, ⟨by decide, by decide⟩,
    ⟨by decide, by decide, by decide⟩⟩

/-- C9 (amended): when the offline rendering of `main.cpp` runs (render requested with an
active program, pipe open, frame buffer of `bufLen` bytes allocated) with `totalFrames = n`, its
calls are `popen`, the framebuffer check, the calls of the frames `0, 1, ..., n - 1` in this
order, and `pclose`; the encoder stream gets exactly `n` writes of `bufLen` bytes, frame by
frame in ascending order, followed by one `pclose`; the time uniform, when the shader has
one, gets the simulated times of the frames in the same order.  The same holds for
`main_noui.cpp`, whose frames have 24883200 bytes.  In the sample run with 3 frames of 4 x 4
pixels over 2 seconds the times are 0, 1, 2 and there are three writes of 48 bytes and one
`pclose`. -/
theorem offline_render_writes (env : Env) (st : App) (n bufLen : Nat)
    (hstart : st.startOfflineRender = true) (hprog : st.shaderProgram ≠ 0)
    (hopen : env.popenOk (ffmpegCommand st.offWidth st.offHeight (selectOutputFile env)) = true)
    (hsize : frameBufferSize st.offWidth st.offHeight = some bufLen)
    (hn : st.totalFrames = (n : Int)) :
    (offlineRender env st).2 = false ∧
    eventsSince st (offlineRender env st).1 =
      [Event.popen (ffmpegCommand st.offWidth st.offHeight (selectOutputFile env)) true] ++
       ([Event.checkFramebuffer st.offWidth st.offHeight
          (env.framebufferComplete st.offWidth st.offHeight)] ++
        (if env.framebufferComplete st.offWidth st.offHeight then []
         else [Event.cerr "Framebuffer incomplete!\n"]) ++
        ((List.range n).map (fun (k : Nat) => frameCalls env bufLen st (k : Int))).flatten ++
        [Event.pclose]) ∧
    encoderCalls (eventsSince st (offlineRender env st).1) =
      (List.range n).map
        (fun (k : Nat) => Event.fwrite (k : Int) bufLen (env.fwriteAccepted (k : Int) bufLen)) ++
        [Event.pclose] ∧
    (st.iTimeLoc ≠ -1 →
      uniform1fValues st.iTimeLoc (eventsSince st (offlineRender env st).1) =
        (List.range n).map
          (fun (k : Nat) =>
            simulatedTime env.R (k : Int) (n : Int) st.desiredDuration st.slowdownFactor)) ∧
    (∀ d s : F32,
      env.popenOk (ffmpegCommand OFF_WIDTH OFF_HEIGHT (selectOutputFile env)) = true →
      eventsSince st (offlineRenderNoUI env (n : Int) d s st).1 =
        [Event.popen (ffmpegCommand OFF_WIDTH OFF_HEIGHT (selectOutputFile env)) true] ++
         ([Event.checkFramebuffer OFF_WIDTH OFF_HEIGHT
            (env.framebufferComplete OFF_WIDTH OFF_HEIGHT)] ++
          (if env.framebufferComplete OFF_WIDTH OFF_HEIGHT then []
           else [Event.cerr "Framebuffer incomplete!\n"]) ++
          ((List.range n).map
            (fun (k : Nat) => frameCallsNoUI env 24883200
              { st with totalFrames := (n : Int), desiredDuration := d, slowdownFactor := s }
              (k : Int))).flatten ++
          [Event.pclose, Event.deleteProgram st.shaderProgram]) ∧
      encoderCalls (eventsSince st (offlineRenderNoUI env (n : Int) d s st).1) =
        (List.range n).map
          (fun (k : Nat) =>
            Event.fwrite (k : Int) 24883200 (env.fwriteAccepted (k : Int) 24883200)) ++
          [Event.pclose]) ∧
    (encoderCalls (eventsSince Sample.beforeRender
        (offlineRender Env.sample Sample.beforeRender).1) =
        [.fwrite 0 48 48, .fwrite 1 48 48, .fwrite 2 48 48, .pclose] ∧
      uniform1fValues 0 (eventsSince Sample.beforeRender
        (offlineRender Env.sample Sample.beforeRender).1) =
        [F32.fin 0, F32.fin 1, F32.fin 2]) := by
  have hev := @eventsSince_of_trace st (offlineRender env st).1 _
    (by rw [offlineRender_eq env st n bufLen hstart hprog hopen hsize hn])
  refine ⟨by rw [offlineRender_eq env st n bufLen hstart hprog hopen hsize hn], hev, ?_, ?_,
    ?_, by decide, ?_⟩
  · rw [hev]
    exact encoderCalls_offline env st n bufLen _ _
  · intro hloc
    rw [hev, uniform1fValues_offline env st n bufLen _ _ hloc, hn]
  · intro d s hopen'
    have hev' := @eventsSince_of_trace st
      (offlineRenderNoUI env (n : Int) d s st).1 _
      (by rw [offlineRenderNoUI_eq env st n d s hopen'])
    refine ⟨hev', ?_⟩
    rw [hev']
    exact encoderCalls_offlineNoUI env _ n 24883200 _ _ _
  · have h3 : Sample.beforeRender.totalFrames = ((3 : Nat) : Int) := by decide
    have hev3 := @eventsSince_of_trace Sample.beforeRender
      (offlineRender Env.sample Sample.beforeRender).1 _
      (by rw [offlineRender_eq Env.sample Sample.beforeRender 3 48 (by decide) (by decide)
        (by decide) (by decide) h3])
    have hloc : Sample.beforeRender.iTimeLoc = 0 := by decide
    have hloc' : Sample.beforeRender.iTimeLoc ≠ -1 := by decide
    have hd : Sample.beforeRender.desiredDuration = F32.fin 2 := by decide
    have hs : Sample.beforeRender.slowdownFactor = F32.fin 1 := by decide
    rw [hev3, ← hloc, uniform1fValues_offline Env.sample Sample.beforeRender 3 48 _ _ hloc',
      h3, hd, hs]
    simp only [List.range_succ, List.range_zero, List.nil_append, List.map_append,
      List.map_cons, List.map_nil, List.cons_append]
    rw [simulatedTime_fin _ _ _ (by decide), simulatedTime_fin _ _ _ (by decide),
      simulatedTime_fin _ _ _ (by decide)]
    simp only [Env.sample, Rounding.exact]
    norm_num


/-- C9 (amended) in the sample run: 3 frames of 4 x 4 pixels. -/
theorem offline_render_writes_witness :
    Sample.beforeRender.startOfflineRender = true ∧
    Sample.beforeRender.shaderProgram ≠ 0 ∧
    frameBufferSize Sample.beforeRender.offWidth Sample.beforeRender.offHeight = some 48 ∧
    Sample.beforeRender.totalFrames = ((3 : Nat) : Int) ∧
    encoderCalls (eventsSince Sample.beforeRender
      (offlineRender Env.sample Sample.beforeRender).1) =
      (List.range 3).map
        (fun (k : Nat) =>
          Event.fwrite (k : Int) 48 (Env.sample.fwriteAccepted (k : Int) 48)) ++
        [Event.pclose] :=
  ⟨by decide, by decide, by decide, by decide,
   (offline_render_writes Env.sample Sample.beforeRender 3 48 (by decide) (by decide)
      (by decide) (by decide) (by decide)).2.2.1⟩

/-! ## Length of the writes (C10) -/

theorem wrapInt32_eq (x : Int) (h0 : -2147483648 ≤ x) (h1 : x < 2147483648) :
    wrapInt32 x = x := by
  unfold wrapInt32
  omega

/-- Within the `int` range the frame buffer has `offWidth * offHeight * 3` bytes. -/
theorem frameBufferSize_eq (w h : Int) (hw : 0 ≤ w) (hh : 0 ≤ h)
    (hfit : w * h * 3 < 2147483648) :
    frameBufferSize w h = some (w * h * 3).toNat := by
  have hp : 0 ≤ w * h := mul_nonneg hw hh
  unfold frameBufferSize
  rw [wrapInt32_eq (w * h) (by omega) (by omega), wrapInt32_eq (w * h * 3) (by omega) hfit]
  simp only []
  rw [if_neg (by omega)]

/-- The calls of the offline rendering of `main.cpp`, case by case: nothing when no render
was requested or no program is active; `popen` and a message when the pipe does not open;
`popen` and the framebuffer check when the frame buffer cannot be allocated; otherwise
`popen`, the framebuffer check, the frames and `pclose`. -/
theorem offlineRender_events (env : Env) (st : App) :
    eventsSince st (offlineRender env st).1 = [] ∨
    eventsSince st (offlineRender env st).1 =
      [Event.popen (ffmpegCommand st.offWidth st.offHeight (selectOutputFile env)) false,
       Event.cerr "Failed to open ffmpeg pipe.\n"] ∨
    (frameBufferSize st.offWidth st.offHeight = none ∧
      eventsSince st (offlineRender env st).1 =
        [Event.popen (ffmpegCommand st.offWidth st.offHeight (selectOutputFile env)) true] ++
         ([Event.checkFramebuffer st.offWidth st.offHeight
            (env.framebufferComplete st.offWidth st.offHeight)] ++
          (if env.framebufferComplete st.offWidth st.offHeight then []
           else [Event.cerr "Framebuffer incomplete!\n"]))) ∨
    (∃ bufLen, frameBufferSize st.offWidth st.offHeight = some bufLen ∧
      eventsSince st (offlineRender env st).1 =
        [Event.popen (ffmpegCommand st.offWidth st.offHeight (selectOutputFile env)) true] ++
         ([Event.checkFramebuffer st.offWidth st.offHeight
            (env.framebufferComplete st.offWidth st.offHeight)] ++
          (if env.framebufferComplete st.offWidth st.offHeight then []
           else [Event.cerr "Framebuffer incomplete!\n"]) ++
          ((List.range st.totalFrames.toNat).map
            (fun (k : Nat) => frameCalls env bufLen st (k : Int))).flatten ++
          [Event.pclose])) := by
  by_cases hg : (st.startOfflineRender && decide (st.shaderProgram ≠ 0)) = true
  · have hstart : st.startOfflineRender = true := by
      simp only [Bool.and_eq_true, decide_eq_true_eq] at hg
      exact hg.1
    have hprog : st.shaderProgram ≠ 0 := by
      simp only [Bool.and_eq_true, decide_eq_true_eq] at hg
      exact hg.2
    cases hok : env.popenOk (ffmpegCommand st.offWidth st.offHeight (selectOutputFile env))
    · refine Or.inr (Or.inl (eventsSince_of_trace ?_))
      unfold offlineRender
      simp [hstart, hprog, hok, App.emit]
    · cases hsz : frameBufferSize st.offWidth st.offHeight with
      | none =>
        refine Or.inr (Or.inr (Or.inl ⟨rfl, eventsSince_of_trace ?_⟩))
        unfold offlineRender renderToPipe
        simp only [hg, hok, if_true, Bool.not_true, Bool.false_eq_true, if_false,
          setupFramebuffer_eq, App.emit, hsz, List.append_assoc]
      | some bufLen =>
        refine Or.inr (Or.inr (Or.inr ⟨bufLen, rfl, eventsSince_of_trace ?_⟩))
        by_cases hneg : 0 ≤ st.totalFrames
        · have hn : st.totalFrames = ((st.totalFrames.toNat : Nat) : Int) := by omega
          rw [offlineRender_eq env st st.totalFrames.toNat bufLen hstart hprog hok hsz hn]
        · unfold offlineRender renderToPipe
          have h0 : st.totalFrames.toNat = 0 := by omega
          simp only [hg, hok, if_true, Bool.not_true, Bool.false_eq_true, if_false,
            setupFramebuffer_eq, App.emit, hsz, h0, renderLoop, List.range_zero,
            List.map_nil, List.flatten_nil, List.append_nil, List.append_assoc]
  · refine Or.inl (eventsSince_of_trace ?_)
    have hg' : ¬(st.startOfflineRender = true ∧ ¬st.shaderProgram = 0) := by simpa using hg
    unfold offlineRender
    simp [hg']


/-- C10, as stated, fails: in the sample run with a render of 2 x 715827883 pixels the
encoder is opened with `-video_size 2x715827883`, for which a frame has 4294967298 bytes,
but the `int` product `offWidth * offHeight * 3` wraps to 2, the frame buffer has 2 bytes,
and 2 bytes are written for the frame; nothing rejects the write. -/
theorem write_length_differs :
    (2 : Int) * 715827883 * 3 = 4294967298 ∧
    frameBufferSize 2 715827883 = some 2 ∧
    Event.popen
      ("ffmpeg -y -f rawvideo -pixel_format rgb24 -video_size 2x715827883 -framerate 60 " ++
        "-i - -c:v libx264 -pix_fmt yuv420p output_2.mp4") true ∈
      (mainProgram Env.sample [FrameInput.renderHuge]).1.trace ∧
    encoderCalls (mainProgram Env.sample [FrameInput.renderHuge]).1.trace =
      [.fwrite 0 2 2, .pclose] := by
  refine ⟨by decide, by decide, by decide, by decide⟩

/-- C10 (amended): when `offWidth` and `offHeight` are not negative and
`offWidth * offHeight * 3` fits into an `int`, every write to the encoder stream has exactly
`offWidth * offHeight * 3` bytes, for the dimensions the encoder was opened with; the length
is fixed when the frame buffer is allocated and is not checked at the write. -/
theorem write_length_matches (env : Env) (st : App)
    (hw : 0 ≤ st.offWidth) (hh : 0 ≤ st.offHeight)
    (hfit : st.offWidth * st.offHeight * 3 < 2147483648)
    (frame : Int) (len accepted : Nat)
    (hmem : Event.fwrite frame len accepted ∈ eventsSince st (offlineRender env st).1) :
    (len : Int) = st.offWidth * st.offHeight * 3 ∧
    Event.popen (ffmpegCommand st.offWidth st.offHeight (selectOutputFile env)) true ∈
      eventsSince st (offlineRender env st).1 := by
  have hsize := frameBufferSize_eq st.offWidth st.offHeight hw hh hfit
  rcases offlineRender_events env st with h | h | ⟨hnone, _⟩ | ⟨bufLen, hsome, h⟩
  · rw [h] at hmem
    cases hmem
  · rw [h] at hmem
    simp at hmem
  · rw [hsize] at hnone
    cases hnone
  · rw [hsize] at hsome
    have hb : bufLen = (st.offWidth * st.offHeight * 3).toNat := (Option.some.inj hsome).symm
    have henc : Event.fwrite frame len accepted ∈
        encoderCalls (eventsSince st (offlineRender env st).1) := by
      unfold encoderCalls
      exact List.mem_filter.mpr ⟨hmem, rfl⟩
    rw [h, encoderCalls_offline] at henc
    constructor
    · rcases List.mem_append.mp henc with hm | hm
      · obtain ⟨k, _, hk⟩ := List.mem_map.mp hm
        simp only [Event.fwrite.injEq] at hk
        have hp : 0 ≤ st.offWidth * st.offHeight := mul_nonneg hw hh
        omega
      · simp at hm
    · rw [h]
      simp

/-- C10 (amended) in the sample run with 3 frames of 4 x 4 pixels: the first write has 48
bytes. -/
theorem write_length_matches_witness :
    Event.fwrite 0 48 48 ∈ eventsSince Sample.beforeRender
      (offlineRender Env.sample Sample.beforeRender).1 ∧
    ((48 : Nat) : Int) = Sample.beforeRender.offWidth * Sample.beforeRender.offHeight * 3 :=
  ⟨by decide,
   (write_length_matches Env.sample Sample.beforeRender (by decide) (by decide) (by decide)
      0 48 48 (by decide)).1⟩

/-! ## Partial writes (C11) -/

/-- The indices below `n` are those below `k`, then `k`, then `k + 1 + i` for `i` below
`n - (k + 1)`. -/
theorem range_split (n k : Nat) (hk : k < n) :
    List.range n =
      List.range k ++ k :: (List.range (n - (k + 1))).map (fun i => k + 1 + i) := by
  obtain ⟨m, rfl⟩ : ∃ m, n = k + (1 + m) := ⟨n - (k + 1), by omega⟩
  rw [List.range_add, List.range_add 1 m]
  have hm : k + (1 + m) - (k + 1) = m := by omega
  simp [hm, List.map_map, Function.comp, Nat.add_assoc, List.range_succ]

/-- The calls of a frame whose write comes back short end with the write and the message. -/
theorem frameCalls_short (env : Env) (bufLen : Nat) (st : App) (frame : Int)
    (h : env.fwriteAccepted frame bufLen ≠ bufLen) :
    ∃ pre, frameCalls env bufLen st frame =
      pre ++ [Event.fwrite frame bufLen (env.fwriteAccepted frame bufLen),
              Event.cerr ("Error writing frame " ++ decimalInt frame ++ " to ffmpeg.\n")] := by
  refine ⟨[.useProgram st.shaderProgram] ++
    (if st.iTimeLoc ≠ -1 then
      [.uniform1f st.iTimeLoc
        (simulatedTime env.R frame st.totalFrames st.desiredDuration st.slowdownFactor)]
     else []) ++
    (if st.iResLoc ≠ -1 then
      [.uniform3f st.iResLoc (F32.ofInt env.R st.offWidth) (F32.ofInt env.R st.offHeight)
        (F32.fin 1)]
     else []) ++ [.drawArrays, .readPixels st.offWidth st.offHeight], ?_⟩
  unfold frameCalls
  rw [if_pos h]
  simp only [List.append_assoc, List.cons_append, List.nil_append]

theorem frameCallsNoUI_short (env : Env) (bufLen : Nat) (st : App) (frame : Int)
    (h : env.fwriteAccepted frame bufLen ≠ bufLen) :
    ∃ pre, frameCallsNoUI env bufLen st frame =
      pre ++ [Event.fwrite frame bufLen (env.fwriteAccepted frame bufLen),
              Event.cerr ("Error writing frame " ++ decimalInt frame ++ " to ffmpeg.\n")] := by
  refine ⟨[.useProgram st.shaderProgram,
   .uniform1f st.iTimeLoc
      (simulatedTime env.R frame st.totalFrames st.desiredDuration st.slowdownFactor),
   .uniform2f st.iResLoc (F32.ofInt env.R OFF_WIDTH) (F32.ofInt env.R OFF_HEIGHT),
   .uniform1f st.iZoomLoc (F32.fin 2),
   .uniform2f st.iCenterLoc (F32.fin 0) (F32.fin 0),
   .drawArrays, .readPixels OFF_WIDTH OFF_HEIGHT], ?_⟩
  unfold frameCallsNoUI
  rw [if_pos h]
  simp only [List.append_assoc, List.cons_append, List.nil_append]

/-- A run of frames in which the write of frame `k` comes back short: up to that write, the
write and its message, and then the complete calls of all later frames. -/
theorem frames_after_short {calls : Int → List Event} (n k : Nat) (hk : k < n)
    (e1 e2 : Event) (h : ∃ pre, calls (k : Int) = pre ++ [e1, e2]) :
    ∃ pre, ((List.range n).map (fun (i : Nat) => calls (i : Int))).flatten =
      pre ++ [e1, e2] ++
        ((List.range (n - (k + 1))).map
          (fun (i : Nat) => calls ((k + 1 + i : Nat) : Int))).flatten := by
  obtain ⟨p, hp⟩ := h
  refine ⟨((List.range k).map (fun (i : Nat) => calls (i : Int))).flatten ++ p, ?_⟩
  rw [range_split n k hk]
  simp only [List.map_append, List.map_cons, List.flatten_append, List.flatten_cons, hp,
    List.map_map, List.append_assoc]
  rfl
/-- C11: when the offline rendering of `main.cpp` runs (render requested with an active
program, pipe open, frame buffer of `bufLen` bytes allocated, `totalFrames = n`) and the
write of frame `k` reports fewer bytes than supplied, the loop goes on: the short write is
followed by its message on `std::cerr`, then by the complete calls (bind, uniforms, draw,
read back, write) of every later frame `k + 1, ..., n - 1` in ascending order, and then by
`pclose`; the encoder stream gets all `n` writes and one `pclose`, and the rendering ends
regularly.  The same holds for `main_noui.cpp`, which then deletes the program and returns
`0`. -/
theorem partial_write_continues (env : Env) (st : App) (n bufLen : Nat)
    (hstart : st.startOfflineRender = true) (hprog : st.shaderProgram ≠ 0)
    (hopen : env.popenOk (ffmpegCommand st.offWidth st.offHeight (selectOutputFile env)) = true)
    (hsize : frameBufferSize st.offWidth st.offHeight = some bufLen)
    (hn : st.totalFrames = (n : Int))
    (k : Nat) (hk : k < n) :
    (env.fwriteAccepted (k : Int) bufLen < bufLen →
      (offlineRender env st).2 = false ∧
      (∃ pre, eventsSince st (offlineRender env st).1 =
        pre ++
          [Event.fwrite (k : Int) bufLen (env.fwriteAccepted (k : Int) bufLen),
           Event.cerr ("Error writing frame " ++ decimalInt (k : Int) ++ " to ffmpeg.\n")] ++
          ((List.range (n - (k + 1))).map
            (fun (i : Nat) => frameCalls env bufLen st ((k + 1 + i : Nat) : Int))).flatten ++
          [Event.pclose]) ∧
      encoderCalls (eventsSince st (offlineRender env st).1) =
        (List.range n).map
          (fun (i : Nat) =>
            Event.fwrite (i : Int) bufLen (env.fwriteAccepted (i : Int) bufLen)) ++
          [Event.pclose]) ∧
    (∀ d s : F32,
      env.popenOk (ffmpegCommand OFF_WIDTH OFF_HEIGHT (selectOutputFile env)) = true →
      env.fwriteAccepted (k : Int) 24883200 < 24883200 →
      (offlineRenderNoUI env (n : Int) d s st).2 = Exit.returned 0 ∧
      (∃ pre, eventsSince st (offlineRenderNoUI env (n : Int) d s st).1 =
        pre ++
          [Event.fwrite (k : Int) 24883200 (env.fwriteAccepted (k : Int) 24883200),
           Event.cerr ("Error writing frame " ++ decimalInt (k : Int) ++ " to ffmpeg.\n")] ++
          ((List.range (n - (k + 1))).map
            (fun (i : Nat) => frameCallsNoUI env 24883200
              { st with totalFrames := (n : Int), desiredDuration := d, slowdownFactor := s }
              ((k + 1 + i : Nat) : Int))).flatten ++
          [Event.pclose, Event.deleteProgram st.shaderProgram]) ∧
      encoderCalls (eventsSince st (offlineRenderNoUI env (n : Int) d s st).1) =
        (List.range n).map
          (fun (i : Nat) =>
            Event.fwrite (i : Int) 24883200 (env.fwriteAccepted (i : Int) 24883200)) ++
          [Event.pclose]) := by
  constructor
  · intro hshort
    have heq := offlineRender_eq env st n bufLen hstart hprog hopen hsize hn
    have hev := @eventsSince_of_trace st (offlineRender env st).1 _ (by rw [heq])
    obtain ⟨pre, hpre⟩ := @frames_after_short (fun f => frameCalls env bufLen st f)
      n k hk _ _ (frameCalls_short env bufLen st (k : Int) (Nat.ne_of_lt hshort))
    refine ⟨by rw [heq],
      ⟨[Event.popen (ffmpegCommand st.offWidth st.offHeight (selectOutputFile env)) true] ++
        ([Event.checkFramebuffer st.offWidth st.offHeight
            (env.framebufferComplete st.offWidth st.offHeight)] ++
          (if env.framebufferComplete st.offWidth st.offHeight then []
           else [Event.cerr "Framebuffer incomplete!\n"])) ++ pre, ?_⟩, ?_⟩
    · rw [hev, hpre]
      simp only [List.append_assoc, List.cons_append, List.nil_append]
    · rw [hev]
      exact encoderCalls_offline env st n bufLen _ _
  · intro d s hopen' hshort
    have heq := offlineRenderNoUI_eq env st n d s hopen'
    have hev := @eventsSince_of_trace st (offlineRenderNoUI env (n : Int) d s st).1 _
      (by rw [heq])
    obtain ⟨pre, hpre⟩ := @frames_after_short
      (fun f => frameCallsNoUI env 24883200
        { st with totalFrames := (n : Int), desiredDuration := d, slowdownFactor := s } f)
      n k hk _ _ (frameCallsNoUI_short env 24883200 _ (k : Int) (Nat.ne_of_lt hshort))
    refine ⟨by rw [heq],
      ⟨[Event.popen (ffmpegCommand OFF_WIDTH OFF_HEIGHT (selectOutputFile env)) true] ++
        ([Event.checkFramebuffer OFF_WIDTH OFF_HEIGHT
            (env.framebufferComplete OFF_WIDTH OFF_HEIGHT)] ++
          (if env.framebufferComplete OFF_WIDTH OFF_HEIGHT then []
           else [Event.cerr "Framebuffer incomplete!\n"])) ++ pre, ?_⟩, ?_⟩
    · rw [hev, hpre]
      simp only [List.append_assoc, List.cons_append, List.nil_append]
    · rw [hev]
      exact encoderCalls_offlineNoUI env _ n 24883200 _ _ _
/-- C11 in the run with 5 frames of 4 x 4 pixels in which the pipe takes only 24 of the 48
bytes of frame 1: the frames 2, 3 and 4 are still written and the pipe is closed. -/
theorem partial_write_continues_witness :
    Env.shortWrite.fwriteAccepted 1 48 < 48 ∧
    (offlineRender Env.shortWrite Sample.beforeRender5).2 = false ∧
    encoderCalls (eventsSince Sample.beforeRender5
      (offlineRender Env.shortWrite Sample.beforeRender5).1) =
      [.fwrite 0 48 48, .fwrite 1 48 24, .fwrite 2 48 48, .fwrite 3 48 48, .fwrite 4 48 48,
       .pclose] :=
  ⟨by decide,
   ((partial_write_continues Env.shortWrite Sample.beforeRender5 5 48 (by decide) (by decide)
      (by decide) (by decide) (by decide) 1 (by decide)).1 (by decide)).1,
   ((partial_write_continues Env.shortWrite Sample.beforeRender5 5 48 (by decide) (by decide)
      (by decide) (by decide) (by decide) 1 (by decide)).1 (by decide)).2.2.trans
        (by decide)⟩

/-! ## Validation of the render request (C12) -/

/-- The calls of the offline rendering of `main.cpp` when a render was requested and a
program is active, by the answer of `popen` and the allocation of the frame buffer. -/
theorem offlineRender_started (env : Env) (st : App)
    (hstart : st.startOfflineRender = true) (hprog : st.shaderProgram ≠ 0) :
    (env.popenOk (ffmpegCommand st.offWidth st.offHeight (selectOutputFile env)) = false ∧
      (offlineRender env st).2 = false ∧
      eventsSince st (offlineRender env st).1 =
        [Event.popen (ffmpegCommand st.offWidth st.offHeight (selectOutputFile env)) false,
         Event.cerr "Failed to open ffmpeg pipe.\n"]) ∨
    (env.popenOk (ffmpegCommand st.offWidth st.offHeight (selectOutputFile env)) = true ∧
      frameBufferSize st.offWidth st.offHeight = none ∧
      (offlineRender env st).2 = true ∧
      eventsSince st (offlineRender env st).1 =
        [Event.popen (ffmpegCommand st.offWidth st.offHeight (selectOutputFile env)) true] ++
         ([Event.checkFramebuffer st.offWidth st.offHeight
            (env.framebufferComplete st.offWidth st.offHeight)] ++
          (if env.framebufferComplete st.offWidth st.offHeight then []
           else [Event.cerr "Framebuffer incomplete!\n"]))) ∨
    (env.popenOk (ffmpegCommand st.offWidth st.offHeight (selectOutputFile env)) = true ∧
      ∃ bufLen, frameBufferSize st.offWidth st.offHeight = some bufLen ∧
      (offlineRender env st).2 = false ∧
      eventsSince st (offlineRender env st).1 =
        [Event.popen (ffmpegCommand st.offWidth st.offHeight (selectOutputFile env)) true] ++
         ([Event.checkFramebuffer st.offWidth st.offHeight
            (env.framebufferComplete st.offWidth st.offHeight)] ++
          (if env.framebufferComplete st.offWidth st.offHeight then []
           else [Event.cerr "Framebuffer incomplete!\n"]) ++
          ((List.range st.totalFrames.toNat).map
            (fun (k : Nat) => frameCalls env bufLen st (k : Int))).flatten ++
          [Event.pclose])) := by
  have hg : (st.startOfflineRender && decide (st.shaderProgram ≠ 0)) = true := by
    simp [hstart, hprog]
  cases hok : env.popenOk (ffmpegCommand st.offWidth st.offHeight (selectOutputFile env))
  · refine Or.inl ⟨rfl, ?_, eventsSince_of_trace ?_⟩
    · unfold offlineRender
      simp [hstart, hprog, hok, App.emit]
    · unfold offlineRender
      simp [hstart, hprog, hok, App.emit]
  · cases hsz : frameBufferSize st.offWidth st.offHeight with
    | none =>
      refine Or.inr (Or.inl ⟨rfl, rfl, ?_, eventsSince_of_trace ?_⟩)
      · unfold offlineRender renderToPipe
        simp only [hg, hok, if_true, Bool.not_true, Bool.false_eq_true, if_false,
          setupFramebuffer_eq, App.emit, hsz, List.append_assoc]
      · unfold offlineRender renderToPipe
        simp only [hg, hok, if_true, Bool.not_true, Bool.false_eq_true, if_false,
          setupFramebuffer_eq, App.emit, hsz, List.append_assoc]
    | some bufLen =>
      refine Or.inr (Or.inr ⟨rfl, bufLen, rfl, ?_, eventsSince_of_trace ?_⟩)
      · unfold offlineRender renderToPipe
        simp only [hg, hok, if_true, Bool.not_true, Bool.false_eq_true, if_false,
          setupFramebuffer_eq, App.emit, hsz, List.append_assoc]
      · by_cases hneg : 0 ≤ st.totalFrames
        · have hn : st.totalFrames = ((st.totalFrames.toNat : Nat) : Int) := by omega
          rw [offlineRender_eq env st st.totalFrames.toNat bufLen hstart hprog hok hsz hn]
        · unfold offlineRender renderToPipe
          have h0 : st.totalFrames.toNat = 0 := by omega
          simp only [hg, hok, if_true, Bool.not_true, Bool.false_eq_true, if_false,
            setupFramebuffer_eq, App.emit, hsz, h0, renderLoop, List.range_zero,
            List.map_nil, List.flatten_nil, List.append_nil, List.append_assoc]
/-- The calls of the offline rendering of `main_noui.cpp`, by the answer of `popen`. -/
theorem offlineRenderNoUI_started (env : Env) (st : App) (tf : Int) (d s : F32) :
    (env.popenOk (ffmpegCommand OFF_WIDTH OFF_HEIGHT (selectOutputFile env)) = false ∧
      (offlineRenderNoUI env tf d s st).2 = Exit.returned (-1) ∧
      eventsSince st (offlineRenderNoUI env tf d s st).1 =
        [Event.popen (ffmpegCommand OFF_WIDTH OFF_HEIGHT (selectOutputFile env)) false,
         Event.cerr "Failed to open ffmpeg pipe.\n"]) ∨
    (env.popenOk (ffmpegCommand OFF_WIDTH OFF_HEIGHT (selectOutputFile env)) = true ∧
      (offlineRenderNoUI env tf d s st).2 = Exit.returned 0 ∧
      eventsSince st (offlineRenderNoUI env tf d s st).1 =
        [Event.popen (ffmpegCommand OFF_WIDTH OFF_HEIGHT (selectOutputFile env)) true] ++
         ([Event.checkFramebuffer OFF_WIDTH OFF_HEIGHT
            (env.framebufferComplete OFF_WIDTH OFF_HEIGHT)] ++
          (if env.framebufferComplete OFF_WIDTH OFF_HEIGHT then []
           else [Event.cerr "Framebuffer incomplete!\n"]) ++
          ((List.range tf.toNat).map
            (fun (k : Nat) => frameCallsNoUI env 24883200
              { st with totalFrames := tf, desiredDuration := d, slowdownFactor := s }
              (k : Int))).flatten ++
          [Event.pclose, Event.deleteProgram st.shaderProgram])) := by
  have hsz : frameBufferSize OFF_WIDTH OFF_HEIGHT = some 24883200 := by decide
  cases hok : env.popenOk (ffmpegCommand OFF_WIDTH OFF_HEIGHT (selectOutputFile env))
  · refine Or.inl ⟨rfl, ?_, eventsSince_of_trace ?_⟩
    · unfold offlineRenderNoUI
      simp [hok, App.emit]
    · unfold offlineRenderNoUI
      simp [hok, App.emit]
  · refine Or.inr ⟨rfl, ?_, eventsSince_of_trace ?_⟩
    · unfold offlineRenderNoUI renderToPipeNoUI
      simp only [hok, Bool.not_true, Bool.false_eq_true, if_false, hsz]
    · by_cases hneg : 0 ≤ tf
      · obtain ⟨n, rfl⟩ : ∃ n : Nat, tf = (n : Int) := ⟨tf.toNat, by omega⟩
        rw [offlineRenderNoUI_eq env st n d s hok]
        simp only [Int.toNat_ofNat]
      · unfold offlineRenderNoUI renderToPipeNoUI
        have h0 : tf.toNat = 0 := by omega
        simp only [hok, Bool.not_true, Bool.false_eq_true, if_false,
          setupFramebuffer_eq, App.emit, hsz, h0, renderLoopNoUI, List.range_zero,
          List.map_nil, List.flatten_nil, List.append_nil, List.append_assoc, glDeleteProgram,
          List.cons_append, List.nil_append]

/-- C12, as stated, fails: in the sample run a request for 0 frames of 4 x 4 pixels opens
the encoder, creates the offscreen target and closes the encoder, with no message at all; a
request for 2 frames of 0 x 4 pixels, and one for 2 frames of 4 x 0 pixels, opens the
encoder with `-video_size 0x4` (`4x0`), creates the target, and draws and writes both
frames. -/
theorem invalid_request_not_rejected :
    eventsSince (Sample.requested FrameInput.renderNoFrames)
      (offlineRender Env.sample (Sample.requested FrameInput.renderNoFrames)).1 =
      [.popen ("ffmpeg -y -f rawvideo -pixel_format rgb24 -video_size 4x4 -framerate 60 " ++
          "-i - -c:v libx264 -pix_fmt yuv420p output_2.mp4") true,
       .checkFramebuffer 4 4 true, .pclose] ∧
    (Event.popen ("ffmpeg -y -f rawvideo -pixel_format rgb24 -video_size 0x4 -framerate 60 " ++
          "-i - -c:v libx264 -pix_fmt yuv420p output_2.mp4") true ∈
        eventsSince (Sample.requested FrameInput.renderNoWidth)
          (offlineRender Env.sample (Sample.requested FrameInput.renderNoWidth)).1 ∧
      Event.checkFramebuffer 0 4 false ∈
        eventsSince (Sample.requested FrameInput.renderNoWidth)
          (offlineRender Env.sample (Sample.requested FrameInput.renderNoWidth)).1 ∧
      drawCount (eventsSince (Sample.requested FrameInput.renderNoWidth)
          (offlineRender Env.sample (Sample.requested FrameInput.renderNoWidth)).1) = 2 ∧
      encoderCalls (eventsSince (Sample.requested FrameInput.renderNoWidth)
          (offlineRender Env.sample (Sample.requested FrameInput.renderNoWidth)).1) =
        [.fwrite 0 0 0, .fwrite 1 0 0, .pclose]) ∧
    (Event.popen ("ffmpeg -y -f rawvideo -pixel_format rgb24 -video_size 4x0 -framerate 60 " ++
          "-i - -c:v libx264 -pix_fmt yuv420p output_2.mp4") true ∈
        eventsSince (Sample.requested FrameInput.renderNoHeight)
          (offlineRender Env.sample (Sample.requested FrameInput.renderNoHeight)).1 ∧
      Event.checkFramebuffer 4 0 false ∈
        eventsSince (Sample.requested FrameInput.renderNoHeight)
          (offlineRender Env.sample (Sample.requested FrameInput.renderNoHeight)).1 ∧
      drawCount (eventsSince (Sample.requested FrameInput.renderNoHeight)
          (offlineRender Env.sample (Sample.requested FrameInput.renderNoHeight)).1) = 2 ∧
      encoderCalls (eventsSince (Sample.requested FrameInput.renderNoHeight)
          (offlineRender Env.sample (Sample.requested FrameInput.renderNoHeight)).1) =
        [.fwrite 0 0 0, .fwrite 1 0 0, .pclose]) := by
  refine ⟨by decide, ⟨by decide, by decide, by decide, by decide⟩,
    ⟨by decide, by decide, by decide, by decide⟩⟩
/-- C12 (amended): the offline rendering does not validate the request.  Whenever a render
is requested while a program is active, whatever `totalFrames`, `offWidth` and `offHeight`
are, its first call is `popen` with the requested dimensions; when the pipe opened, the
offscreen target is created next; with `totalFrames < 1` and a frame buffer that could be
allocated no frame is drawn or written and the pipe is closed right after the target is
created.  Only a pipe that did not open ends the request, with a message, before the target
is created.  `main_noui.cpp` opens the pipe first for every `totalFrames` as well, and with
`totalFrames < 1` it creates the target, closes the pipe and deletes the program. -/
theorem render_request_not_validated (env : Env) (st : App)
    (hstart : st.startOfflineRender = true) (hprog : st.shaderProgram ≠ 0) :
    (eventsSince st (offlineRender env st).1).head? =
      some (Event.popen (ffmpegCommand st.offWidth st.offHeight (selectOutputFile env))
        (env.popenOk (ffmpegCommand st.offWidth st.offHeight (selectOutputFile env)))) ∧
    (env.popenOk (ffmpegCommand st.offWidth st.offHeight (selectOutputFile env)) = true →
      (eventsSince st (offlineRender env st).1).take 2 =
        [Event.popen (ffmpegCommand st.offWidth st.offHeight (selectOutputFile env)) true,
         Event.checkFramebuffer st.offWidth st.offHeight
           (env.framebufferComplete st.offWidth st.offHeight)]) ∧
    (env.popenOk (ffmpegCommand st.offWidth st.offHeight (selectOutputFile env)) = true →
      st.totalFrames < 1 → frameBufferSize st.offWidth st.offHeight ≠ none →
      (offlineRender env st).2 = false ∧
      eventsSince st (offlineRender env st).1 =
        [Event.popen (ffmpegCommand st.offWidth st.offHeight (selectOutputFile env)) true,
         Event.checkFramebuffer st.offWidth st.offHeight
           (env.framebufferComplete st.offWidth st.offHeight)] ++
        (if env.framebufferComplete st.offWidth st.offHeight then []
         else [Event.cerr "Framebuffer incomplete!\n"]) ++ [Event.pclose]) ∧
    (env.popenOk (ffmpegCommand st.offWidth st.offHeight (selectOutputFile env)) = false →
      (offlineRender env st).2 = false ∧
      eventsSince st (offlineRender env st).1 =
        [Event.popen (ffmpegCommand st.offWidth st.offHeight (selectOutputFile env)) false,
         Event.cerr "Failed to open ffmpeg pipe.\n"]) ∧
    (∀ (tf : Int) (d s : F32),
      (eventsSince st (offlineRenderNoUI env tf d s st).1).head? =
        some (Event.popen (ffmpegCommand OFF_WIDTH OFF_HEIGHT (selectOutputFile env))
          (env.popenOk (ffmpegCommand OFF_WIDTH OFF_HEIGHT (selectOutputFile env)))) ∧
      (env.popenOk (ffmpegCommand OFF_WIDTH OFF_HEIGHT (selectOutputFile env)) = true →
        tf < 1 →
        eventsSince st (offlineRenderNoUI env tf d s st).1 =
          [Event.popen (ffmpegCommand OFF_WIDTH OFF_HEIGHT (selectOutputFile env)) true,
           Event.checkFramebuffer OFF_WIDTH OFF_HEIGHT
             (env.framebufferComplete OFF_WIDTH OFF_HEIGHT)] ++
          (if env.framebufferComplete OFF_WIDTH OFF_HEIGHT then []
           else [Event.cerr "Framebuffer incomplete!\n"]) ++
          [Event.pclose, Event.deleteProgram st.shaderProgram])) := by
  refine ⟨?_, ?_, ?_, ?_, ?_⟩
  · rcases offlineRender_started env st hstart hprog with
      ⟨hok, _, hev⟩ | ⟨hok, _, _, hev⟩ | ⟨hok, bufLen, _, _, hev⟩
    all_goals rw [hev, hok]
    all_goals rfl
  · intro hopen
    rcases offlineRender_started env st hstart hprog with
      ⟨hok, _, _⟩ | ⟨_, _, _, hev⟩ | ⟨_, bufLen, _, _, hev⟩
    · rw [hopen] at hok
      cases hok
    all_goals rw [hev]
    all_goals rfl
  · intro hopen hframes hsize
    rcases offlineRender_started env st hstart hprog with
      ⟨hok, _, _⟩ | ⟨_, hnone, _, _⟩ | ⟨_, bufLen, _, hret, hev⟩
    · rw [hopen] at hok
      cases hok
    · exact absurd hnone hsize
    · have h0 : st.totalFrames.toNat = 0 := by omega
      refine ⟨hret, ?_⟩
      rw [hev, h0]
      simp only [List.range_zero, List.map_nil, List.flatten_nil, List.append_nil,
        List.append_assoc, List.cons_append, List.nil_append]
  · intro hclosed
    rcases offlineRender_started env st hstart hprog with
      ⟨_, hret, hev⟩ | ⟨hok, _, _, _⟩ | ⟨hok, _, _, _, _⟩
    · exact ⟨hret, hev⟩
    · rw [hclosed] at hok
      cases hok
    · rw [hclosed] at hok
      cases hok
  · intro tf d s
    rcases offlineRenderNoUI_started env st tf d s with ⟨hok, _, hev⟩ | ⟨hok, _, hev⟩
    · refine ⟨by rw [hev, hok]; rfl, ?_⟩
      intro hopen
      rw [hopen] at hok
      cases hok
    · refine ⟨by rw [hev, hok]; rfl, ?_⟩
      intro _ hframes
      have h0 : tf.toNat = 0 := by omega
      rw [hev, h0]
      simp only [List.range_zero, List.map_nil, List.flatten_nil, List.append_nil,
        List.append_assoc, List.cons_append, List.nil_append]

/-- C12 (amended) in the sample run with a request for 0 frames of 4 x 4 pixels: the first
call of the rendering is `popen`. -/
theorem render_request_not_validated_witness :
    (Sample.requested FrameInput.renderNoFrames).startOfflineRender = true ∧
    (Sample.requested FrameInput.renderNoFrames).shaderProgram ≠ 0 ∧
    (Sample.requested FrameInput.renderNoFrames).totalFrames < 1 ∧
    (eventsSince (Sample.requested FrameInput.renderNoFrames)
      (offlineRender Env.sample (Sample.requested FrameInput.renderNoFrames)).1).head? =
      some (Event.popen
        (ffmpegCommand (Sample.requested FrameInput.renderNoFrames).offWidth
          (Sample.requested FrameInput.renderNoFrames).offHeight (selectOutputFile Env.sample))
        (Env.sample.popenOk
          (ffmpegCommand (Sample.requested FrameInput.renderNoFrames).offWidth
            (Sample.requested FrameInput.renderNoFrames).offHeight
            (selectOutputFile Env.sample)))) :=
  ⟨by decide, by decide, by decide,
   (render_request_not_validated Env.sample (Sample.requested FrameInput.renderNoFrames)
      (by decide) (by decide)).1⟩

/-! ## Incomplete offscreen target (C13) -/

theorem drawCount_append (a b : List Event) : drawCount (a ++ b) = drawCount a + drawCount b := by
  simp [drawCount, List.count_append]

theorem drawCount_frameCalls (env : Env) (bufLen : Nat) (st : App) (frame : Int) :
    drawCount (frameCalls env bufLen st frame) = 1 := by
  unfold frameCalls
  simp only [drawCount_append]
  by_cases h1 : st.iTimeLoc ≠ -1 <;> by_cases h2 : st.iResLoc ≠ -1 <;>
    by_cases h3 : env.fwriteAccepted frame bufLen ≠ bufLen <;>
    simp [drawCount, h1, h2, h3]

theorem drawCount_frameCallsNoUI (env : Env) (bufLen : Nat) (st : App) (frame : Int) :
    drawCount (frameCallsNoUI env bufLen st frame) = 1 := by
  unfold frameCallsNoUI
  simp only [drawCount_append]
  by_cases h3 : env.fwriteAccepted frame bufLen ≠ bufLen <;>
    simp [drawCount, h3]

/-- A run of frames with one draw each has as many draws as frames. -/
theorem drawCount_frames (calls : Nat → List Event) (h : ∀ k, drawCount (calls k) = 1) :
    ∀ n : Nat, drawCount (((List.range n).map calls).flatten) = n
  | 0 => by simp [drawCount]
  | n + 1 => by
      rw [List.range_succ, List.map_append, List.flatten_append, drawCount_append,
        drawCount_frames calls h n]
      simp [h]
/-- C13, as stated, fails: in the run of the sample with a driver that reports the
framebuffer of 4 x 4 pixels as incomplete the request for 3 frames is not aborted: after the
framebuffer check and its message the three frames are drawn and written and the pipe is
closed. -/
theorem incomplete_target_still_rendered :
    Env.noTarget.framebufferComplete 4 4 = false ∧
    (eventsSince Sample.noTargetBeforeRender
      (offlineRender Env.noTarget Sample.noTargetBeforeRender).1).take 3 =
      [.popen ("ffmpeg -y -f rawvideo -pixel_format rgb24 -video_size 4x4 -framerate 60 " ++
          "-i - -c:v libx264 -pix_fmt yuv420p output_2.mp4") true,
       .checkFramebuffer 4 4 false, .cerr "Framebuffer incomplete!\n"] ∧
    drawCount (eventsSince Sample.noTargetBeforeRender
      (offlineRender Env.noTarget Sample.noTargetBeforeRender).1) = 3 ∧
    encoderCalls (eventsSince Sample.noTargetBeforeRender
      (offlineRender Env.noTarget Sample.noTargetBeforeRender).1) =
      [.fwrite 0 48 48, .fwrite 1 48 48, .fwrite 2 48 48, .pclose] := by
  refine ⟨by decide, by decide, by decide, by decide⟩

/-- C13 (amended): when the offline rendering of `main.cpp` runs (render requested with an
active program, pipe open), the frame buffer of `bufLen` bytes can be allocated, and the
framebuffer is reported incomplete, the failure is written to `std::cerr` and the rendering
goes on: all frames below `totalFrames` are drawn, read back and written, and the pipe is
closed.  The same holds for `main_noui.cpp`, whose frame buffer has 24883200 bytes. -/
theorem incomplete_target_only_reported (env : Env) (st : App) (bufLen : Nat)
    (hstart : st.startOfflineRender = true) (hprog : st.shaderProgram ≠ 0)
    (hopen : env.popenOk (ffmpegCommand st.offWidth st.offHeight (selectOutputFile env)) = true)
    (hsize : frameBufferSize st.offWidth st.offHeight = some bufLen) :
    (env.framebufferComplete st.offWidth st.offHeight = false →
      (offlineRender env st).2 = false ∧
      eventsSince st (offlineRender env st).1 =
        [Event.popen (ffmpegCommand st.offWidth st.offHeight (selectOutputFile env)) true,
         Event.checkFramebuffer st.offWidth st.offHeight false,
         Event.cerr "Framebuffer incomplete!\n"] ++
        ((List.range st.totalFrames.toNat).map
          (fun (k : Nat) => frameCalls env bufLen st (k : Int))).flatten ++
        [Event.pclose] ∧
      drawCount (eventsSince st (offlineRender env st).1) = st.totalFrames.toNat ∧
      encoderCalls (eventsSince st (offlineRender env st).1) =
        (List.range st.totalFrames.toNat).map
          (fun (k : Nat) =>
            Event.fwrite (k : Int) bufLen (env.fwriteAccepted (k : Int) bufLen)) ++
          [Event.pclose]) ∧
    (∀ (tf : Int) (d s : F32),
      env.popenOk (ffmpegCommand OFF_WIDTH OFF_HEIGHT (selectOutputFile env)) = true →
      env.framebufferComplete OFF_WIDTH OFF_HEIGHT = false →
      (offlineRenderNoUI env tf d s st).2 = Exit.returned 0 ∧
      eventsSince st (offlineRenderNoUI env tf d s st).1 =
        [Event.popen (ffmpegCommand OFF_WIDTH OFF_HEIGHT (selectOutputFile env)) true,
         Event.checkFramebuffer OFF_WIDTH OFF_HEIGHT false,
         Event.cerr "Framebuffer incomplete!\n"] ++
        ((List.range tf.toNat).map
          (fun (k : Nat) => frameCallsNoUI env 24883200
            { st with totalFrames := tf, desiredDuration := d, slowdownFactor := s }
            (k : Int))).flatten ++
        [Event.pclose, Event.deleteProgram st.shaderProgram] ∧
      drawCount (eventsSince st (offlineRenderNoUI env tf d s st).1) = tf.toNat ∧
      encoderCalls (eventsSince st (offlineRenderNoUI env tf d s st).1) =
        (List.range tf.toNat).map
          (fun (k : Nat) =>
            Event.fwrite (k : Int) 24883200 (env.fwriteAccepted (k : Int) 24883200)) ++
          [Event.pclose]) := by
  constructor
  · intro hinc
    rcases offlineRender_started env st hstart hprog with
      ⟨hok, _, _⟩ | ⟨_, hnone, _, _⟩ | ⟨_, len, hlen, hret, hev⟩
    · rw [hopen] at hok
      cases hok
    · rw [hsize] at hnone
      cases hnone
    · rw [hsize] at hlen
      obtain rfl : bufLen = len := Option.some.inj hlen
      have hev' : eventsSince st (offlineRender env st).1 =
          [Event.popen (ffmpegCommand st.offWidth st.offHeight (selectOutputFile env)) true,
           Event.checkFramebuffer st.offWidth st.offHeight false,
           Event.cerr "Framebuffer incomplete!\n"] ++
          ((List.range st.totalFrames.toNat).map
            (fun (k : Nat) => frameCalls env bufLen st (k : Int))).flatten ++
          [Event.pclose] := by
        rw [hev, hinc]
        simp only [Bool.false_eq_true, if_false, List.append_assoc, List.cons_append,
          List.nil_append]
      refine ⟨hret, hev', ?_, ?_⟩
      · rw [hev']
        simp only [drawCount_append]
        rw [drawCount_frames _ (fun k => drawCount_frameCalls env bufLen st (k : Int))
          st.totalFrames.toNat]
        simp [drawCount]
      · rw [hev]
        exact encoderCalls_offline env st st.totalFrames.toNat bufLen _ _
  · intro tf d s hopen' hinc
    rcases offlineRenderNoUI_started env st tf d s with ⟨hok, _, _⟩ | ⟨_, hret, hev⟩
    · rw [hopen'] at hok
      cases hok
    · have hev' : eventsSince st (offlineRenderNoUI env tf d s st).1 =
          [Event.popen (ffmpegCommand OFF_WIDTH OFF_HEIGHT (selectOutputFile env)) true,
           Event.checkFramebuffer OFF_WIDTH OFF_HEIGHT false,
           Event.cerr "Framebuffer incomplete!\n"] ++
          ((List.range tf.toNat).map
            (fun (k : Nat) => frameCallsNoUI env 24883200
              { st with totalFrames := tf, desiredDuration := d, slowdownFactor := s }
              (k : Int))).flatten ++
          [Event.pclose, Event.deleteProgram st.shaderProgram] := by
        rw [hev, hinc]
        simp only [Bool.false_eq_true, if_false, List.append_assoc, List.cons_append,
          List.nil_append]
      refine ⟨hret, hev', ?_, ?_⟩
      · rw [hev']
        simp only [drawCount_append]
        rw [drawCount_frames _ (fun k => drawCount_frameCallsNoUI env 24883200 _ (k : Int))
          tf.toNat]
        simp [drawCount]
      · rw [hev]
        exact encoderCalls_offlineNoUI env _ tf.toNat 24883200 _ _ _

/-- C13 (amended) in the run without a complete framebuffer: 3 frames of 4 x 4 pixels are
drawn. -/
theorem incomplete_target_only_reported_witness :
    Sample.noTargetBeforeRender.startOfflineRender = true ∧
    Sample.noTargetBeforeRender.shaderProgram ≠ 0 ∧
    Env.noTarget.framebufferComplete Sample.noTargetBeforeRender.offWidth
      Sample.noTargetBeforeRender.offHeight = false ∧
    drawCount (eventsSince Sample.noTargetBeforeRender
      (offlineRender Env.noTarget Sample.noTargetBeforeRender).1) = 3 :=
  ⟨by decide, by decide, by decide,
   ((incomplete_target_only_reported Env.noTarget Sample.noTargetBeforeRender 48 (by decide)
      (by decide) (by decide) (by decide)).1 (by decide)).2.2.1.trans (by decide)⟩

/-! ## Diagnostics in the control panel (C14) -/

/-- How `compileShader` changes the state, with the text it leaves in `shaderError`. -/
theorem compileShader_eq (env : Env) (kind : ShaderKind) (source : String) (st : App) :
    ∃ g,
      compileShader env kind source st =
        (env.compileStatus st.gl.nextName kind source, st.gl.nextName,
          { st with gl := g, trace := st.trace ++ compileCalls env kind source st.gl.nextName,
                    shaderError :=
                      if env.compileStatus st.gl.nextName kind source then st.shaderError
                      else compileDiagnostic env kind st.gl.nextName source }) ∧
      g.nextName = st.gl.nextName + 1 := by
  refine ⟨(compileShader env kind source st).2.2.gl, ?_⟩
  unfold compileShader compileCalls compileDiagnostic
  cases h : env.compileStatus st.gl.nextName kind source <;>
    simp [h, App.emit, glDeleteShader, GLState.deleteShader_nextName]

/-- `linkProgram` leaves `errorMessage` alone and only adds calls to the trace. -/
theorem linkProgram_errorMessage (env : Env) (v f : Nat) (st : App) :
    (linkProgram env v f st).2.errorMessage = st.errorMessage ∧
    ∃ X, (linkProgram env v f st).2.trace = st.trace ++ X := by
  obtain ⟨attached, g, e, h1, _, _⟩ := linkProgram_spec env v f st
  rw [h1]
  exact ⟨rfl, _, rfl⟩

/-- The link stage leaves `errorMessage` alone and only adds calls to the trace. -/
theorem applyLink_errorMessage (env : Env) (st : App) :
    (applyLink env st).1.errorMessage = st.errorMessage ∧
    ∃ X, (applyLink env st).1.trace = st.trace ++ X := by
  obtain ⟨attached, m, _, _, _, ht, _⟩ := applyLink_spec env st
  refine ⟨?_, _, by rw [ht]; simp only [List.append_assoc]; rfl⟩
  obtain ⟨attached, g, e, h1, _, _⟩ := linkProgram_spec env st.vertShader st.fragShader st
  unfold applyLink
  rw [h1]
  cases (env.linkStatus st.gl.nextName attached && env.validateStatus st.gl.nextName attached)
  all_goals rfl

/-- The fragment stage when the supplied source does not compile: the failed compilation,
its message on `std::cerr`, the deletion of the vertex shader, and the compilation of the
fallback; `errorMessage` and the selection are left alone. -/
theorem applyFragment_failed (env : Env) (src : String) (st : App)
    (hf : env.compileStatus st.gl.nextName .fragment src = false) :
    (applyFragment env src st).1.errorMessage = st.errorMessage ∧
    (applyFragment env src st).1.vertShader = st.vertShader ∧
    ∃ tail,
      (applyFragment env src st).1.trace =
        st.trace ++
          [.createShader .fragment st.gl.nextName,
           .compileShader st.gl.nextName .fragment src false,
           .deleteShader st.gl.nextName,
           .cerr (compileDiagnostic env .fragment st.gl.nextName src ++ "\n"),
           .deleteShader st.vertShader,
           .createShader .fragment (st.gl.nextName + 1),
           .compileShader (st.gl.nextName + 1) .fragment fallbackFragmentShaderSource
             (env.compileStatus (st.gl.nextName + 1) .fragment fallbackFragmentShaderSource)] ++
          tail := by
  obtain ⟨g, h1, h2⟩ := compileShader_eq env .fragment src st
  unfold applyFragment
  rw [h1]
  simp only [hf, Bool.not_false, if_true, Bool.false_eq_true, if_false]
  generalize hst1 : glDeleteShader _ _ = st1
  have t1 : st1.trace = st.trace ++ compileCalls env .fragment src st.gl.nextName ++
      [.cerr (compileDiagnostic env .fragment st.gl.nextName src ++ "\n"),
       .deleteShader st.vertShader] := by
    subst hst1; simp [glDeleteShader, App.emit]
  have n1 : st1.gl.nextName = st.gl.nextName + 1 := by
    subst hst1; simp [glDeleteShader, App.emit, GLState.deleteShader_nextName, h2]
  have v1 : st1.vertShader = st.vertShader := by subst hst1; rfl
  have e1 : st1.errorMessage = st.errorMessage := by subst hst1; rfl
  obtain ⟨g', k1, k2⟩ := compileShader_eq env .fragment fallbackFragmentShaderSource st1
  rw [k1, n1]
  cases hok' : env.compileStatus (st.gl.nextName + 1) .fragment fallbackFragmentShaderSource
  · refine ⟨?_, ?_, ⟨[.deleteShader (st.gl.nextName + 1),
      .cerr (compileDiagnostic env .fragment (st.gl.nextName + 1)
        fallbackFragmentShaderSource ++ "\n"), .deleteShader st.vertShader], ?_⟩⟩
    · simp [App.emit, glDeleteShader, e1]
    · simp [App.emit, glDeleteShader, v1]
    · simp [App.emit, glDeleteShader, t1, compileCalls, hf, hok', v1]
  · refine ⟨?_, ?_, ⟨[], ?_⟩⟩
    · simp [e1]
    · simp [v1]
    · simp [t1, compileCalls, hf, hok']
/-- The source stage when the selected file can be read and is not empty: its content is
the source and nothing else happens. -/
theorem applySource_loaded (env : Env) (st : App) (src : String)
    (hfile : (shaderFiles env).getD st.currentShaderIndex "fallback" ≠ "fallback")
    (hread : env.readFile ((shaderFiles env).getD st.currentShaderIndex "fallback") = some src)
    (hne : src.isEmpty = false) (hem : st.errorMessage = "") :
    applySource env st = (src, st) := by
  unfold applySource loadShaderFile
  simp only [hfile, if_false, hread, hne, Bool.false_eq_true, hem, ne_eq, not_true_eq_false]
  rw [← hem]

/-- The `Apply Shader` block when the vertex shader compiles: the rest of the block runs
with an empty `errorMessage`, the selection unchanged and the vertex shader in `nextName`. -/
theorem applyShaderBlock_vertex_ok (env : Env) (st : App)
    (hv : env.compileStatus st.gl.nextName .vertex vertexShaderSource = true) :
    ∃ st1, applyShaderBlock env st = applyBuild env st1 ∧
      st1.errorMessage = "" ∧ st1.currentShaderIndex = st.currentShaderIndex ∧
      st1.gl.nextName = st.gl.nextName + 1 ∧ st1.vertShader = st.gl.nextName ∧
      ∃ X, st1.trace = st.trace ++ X := by
  obtain ⟨r1, r2, _, _⟩ := applyRelease_spec st
  obtain ⟨g, h1, h2⟩ := compileShader_eq env .vertex vertexShaderSource (applyRelease st)
  have hok : (compileShader env .vertex vertexShaderSource (applyRelease st)).1 = true := by
    rw [h1, r2, hv]
  have hem : (applyRelease st).errorMessage = "" := rfl
  have hci : (applyRelease st).currentShaderIndex = st.currentShaderIndex := by
    unfold applyRelease
    by_cases h : st.shaderProgram = 0
    · simp [h]
    · simp [h, glDeleteProgram]
  refine ⟨{ (compileShader env .vertex vertexShaderSource (applyRelease st)).2.2 with
      vertShader := (compileShader env .vertex vertexShaderSource (applyRelease st)).2.1 },
    ?_, ?_, ?_, ?_, ?_, ?_⟩
  · unfold applyShaderBlock
    simp only [hok, Bool.not_true, Bool.false_eq_true, if_false]
  · rw [h1]
    exact hem
  · rw [h1]
    exact hci
  · rw [h1]
    simp [h2, r2]
  · rw [h1]
    exact r2
  · rw [h1]
    exact ⟨_, by simp only [r1, List.append_assoc]; rfl⟩
/-- The rest of the `Apply Shader` block when the selected file is loaded and its text does
not compile: `errorMessage` stays empty and the calls of the fragment stage are made. -/
theorem applyBuild_failed (env : Env) (st : App) (src : String)
    (hfile : (shaderFiles env).getD st.currentShaderIndex "fallback" ≠ "fallback")
    (hread : env.readFile ((shaderFiles env).getD st.currentShaderIndex "fallback") = some src)
    (hne : src.isEmpty = false) (hem : st.errorMessage = "")
    (hf : env.compileStatus st.gl.nextName .fragment src = false) :
    (applyBuild env st).1.errorMessage = "" ∧
    ∃ Y, (applyBuild env st).1.trace = (applyFragment env src st).1.trace ++ Y := by
  obtain ⟨he, _, _⟩ := applyFragment_failed env src st hf
  obtain ⟨le, X, lt⟩ := applyLink_errorMessage env (applyFragment env src st).1
  unfold applyBuild
  rw [applySource_loaded env st src hfile hread hne hem]
  simp only []
  cases hc : (applyFragment env src st).2
  · simp only [Bool.false_eq_true, if_false]
    exact ⟨by rw [le, he, hem], X, lt⟩
  · simp only [if_true]
    exact ⟨by rw [he, hem], [], by simp⟩

/-- C14, as stated, fails: in the run with the strict compiler the user applies
`shaders/bad.txt`, whose text does not compile; the activation recovers with the fallback
(program 7 is active afterwards) and the compile diagnostic is written to `std::cerr`, but
the control panel shows no text in that iteration, and `errorMessage` is empty when the
`Apply Shader` block ends.  The text the panel shows from the next iteration on is that of
the OpenGL error check, not the compile diagnostic. -/
theorem compile_diagnostic_not_shown :
    fragmentCompiles (eventsSince Sample.strictBuilt
      (loopBody Env.strict FrameInput.applyBad Sample.strictBuilt).1) =
      [("BAD", false), (fallbackFragmentShaderSource, true)] ∧
    (loopBody Env.strict FrameInput.applyBad Sample.strictBuilt).1.shaderProgram = 7 ∧
    cerrMessages (eventsSince Sample.strictBuilt
      (applyShaderBlock Env.strict Sample.strictSelected).1) =
      ["Shader compilation failed (fragment):\n0:1: syntax error\n"] ∧
    (applyShaderBlock Env.strict Sample.strictSelected).1.errorMessage = "" ∧
    shownErrors (eventsSince Sample.strictBuilt
      (loopBody Env.strict FrameInput.applyBad Sample.strictBuilt).1) = [] ∧
    shownErrors (eventsSince Sample.strictBuilt
      (mainLoop Env.strict [FrameInput.applyBad, FrameInput.idle] Sample.strictBuilt)) =
      ["OpenGL error: 1281"] := by
  refine ⟨by decide, by decide, by decide, by decide, by decide, by decide⟩

/-- C14 (amended): when the `Apply Shader` block loads the selected file and its text fails
to compile as fragment shader, the compile diagnostic is written to `std::cerr` and not to
the text of the control panel: whether the activation then recovers with the fallback or
ends through `continue`, `errorMessage` is empty when the block ends, and the error display
that follows the block in the same iteration (`main.cpp:357-360`) shows no text. -/
theorem compile_diagnostic_on_cerr_only (env : Env) (st : App) (src : String)
    (hfile : (shaderFiles env).getD st.currentShaderIndex "fallback" ≠ "fallback")
    (hread : env.readFile ((shaderFiles env).getD st.currentShaderIndex "fallback") = some src)
    (hne : src.isEmpty = false)
    (hv : env.compileStatus st.gl.nextName .vertex vertexShaderSource = true)
    (hf : env.compileStatus (st.gl.nextName + 1) .fragment src = false) :
    Event.compileShader (st.gl.nextName + 1) .fragment src false ∈
      eventsSince st (applyShaderBlock env st).1 ∧
    Event.cerr (compileDiagnostic env .fragment (st.gl.nextName + 1) src ++ "\n") ∈
      eventsSince st (applyShaderBlock env st).1 ∧
    (applyShaderBlock env st).1.errorMessage = "" ∧
    displayErrors (applyShaderBlock env st).1 = (applyShaderBlock env st).1 := by
  obtain ⟨st1, hb, e1, c1, n1, v1, X, tX⟩ := applyShaderBlock_vertex_ok env st hv
  rw [← c1] at hfile hread
  rw [← n1] at hf
  obtain ⟨_, _, tail, tf⟩ := applyFragment_failed env src st1 hf
  obtain ⟨hem, Y, tY⟩ := applyBuild_failed env st1 src hfile hread hne e1 hf
  have hev : eventsSince st (applyShaderBlock env st).1 = _ :=
    eventsSince_of_trace (by rw [hb, tY, tf, tX]; simp only [List.append_assoc]; rfl)
  rw [hb] at hev ⊢
  refine ⟨?_, ?_, hem, ?_⟩
  · rw [hev, n1]
    simp
  · rw [hev, n1]
    simp
  · unfold displayErrors
    simp [hem]

/-- C14 (amended) in the run with the strict compiler: when the block that applies
`shaders/bad.txt` ends, `errorMessage` is empty. -/
theorem compile_diagnostic_on_cerr_only_witness :
    Env.strict.compileStatus (Sample.strictSelected.gl.nextName + 1) .fragment "BAD" = false ∧
    Event.cerr "Shader compilation failed (fragment):\n0:1: syntax error\n" ∈
      eventsSince Sample.strictSelected (applyShaderBlock Env.strict Sample.strictSelected).1 ∧
    (applyShaderBlock Env.strict Sample.strictSelected).1.errorMessage = "" :=
  ⟨by decide,
   (compile_diagnostic_on_cerr_only Env.strict Sample.strictSelected "BAD" (by decide)
      (by decide) (by decide) (by decide) (by decide)).2.1,
   (compile_diagnostic_on_cerr_only Env.strict Sample.strictSelected "BAD" (by decide)
      (by decide) (by decide) (by decide) (by decide)).2.2.1⟩

/-! ## The fallback and the vertex shader (C15) -/

/-- The build stages of the `Apply Shader` block have the shape `BuildShape`; after a failure
no program is active. -/
theorem applyBuild_shape (env : Env) (st : App) :
    BuildShape env st.gl.nextName st.vertShader (eventsSince st (applyBuild env st).1)
      (applyBuild env st).2 (applyBuild env st).1.shaderProgram
      (applyBuild env st).1.gl.nextName ∧
    ((applyBuild env st).2 = true → (applyBuild env st).1.shaderProgram = 0) := by
  obtain ⟨_, hshape⟩ := applyBuild_spec env st
  rcases hshape with ⟨src, L, m, m', hL, c1, c2, c3, c4, c5, c6⟩ |
    ⟨src, L, F, p, f, attached, m, hL, hF, c3, c4, c5, c6⟩
  · refine ⟨Or.inl ⟨src, L, m, m', [.deleteShader st.vertShader], hL, ?_, c1, c2, c3, c5, ?_⟩,
      fun _ => c4⟩
    · intro e he
      exact ⟨_, by simpa using he⟩
    · rw [eventsSince_of_trace (by rw [c6]; simp only [List.append_assoc]; rfl)]
      simp only [List.append_assoc, List.cons_append, List.nil_append]
  · refine ⟨Or.inr ⟨src, L, F, p, f, attached, m, hL, hF, c3, ?_, c5, ?_⟩, ?_⟩
    · intro hf
      rw [c4, hf]
      rfl
    · rw [eventsSince_of_trace (by rw [c6]; simp only [List.append_assoc]; rfl)]
      simp only [List.append_assoc]
    · intro hf
      rw [c4, hf]
      rfl

/-- The build stages of the initial build have the shape `BuildShape`. -/
theorem initialBuildRest_shape (env : Env) (st : App) :
    BuildShape env st.gl.nextName st.vertShader (eventsSince st (initialBuildRest env st).1)
      (initialBuildRest env st).2 (initialBuildRest env st).1.shaderProgram
      (initialBuildRest env st).1.gl.nextName := by
  obtain ⟨_, hshape⟩ := initialBuildRest_spec env st
  rcases hshape with ⟨src, L, m, m', hL, c1, c2, c3, c5, c6⟩ |
    ⟨src, L, F, p, f, attached, m, hL, hF, c3, c4, c5, c6⟩
  · refine Or.inl ⟨src, L, m, m', [], hL, by simp, c1, c2, c3, c5, ?_⟩
    rw [eventsSince_of_trace (by rw [c6]; simp only [List.append_assoc]; rfl)]
    simp only [List.append_assoc, List.cons_append, List.nil_append, List.append_nil]
  · refine Or.inr ⟨src, L, F, p, f, attached, m, hL, hF, c3, fun _ => c4, c5, ?_⟩
    rw [eventsSince_of_trace (by rw [c6]; simp only [List.append_assoc]; rfl)]
    simp only [List.append_assoc]

theorem fragmentCompiles_deleteShaders (L : List Event)
    (hL : ∀ e ∈ L, ∃ t, e = Event.deleteShader t) : fragmentCompiles L = [] := by
  induction L with
  | nil => rfl
  | cons a L ih =>
    obtain ⟨t, rfl⟩ := hL a (List.mem_cons_self _ _)
    simpa [fragmentCompiles] using ih (fun e he => hL e (List.mem_cons_of_mem _ he))

/-- A build in which the supplied fragment source fails and the fallback compiles: the
vertex shader is deleted before the program is created, and the link is given the deleted
vertex shader and the fallback. -/
theorem BuildShape.fallback {env : Env} {n v : Nat} {evs : List Event} {flag : Bool}
    {sp n' : Nat} (h : BuildShape env n v evs flag sp n') (src : String)
    (hc : fragmentCompiles evs = [(src, false), (fallbackFragmentShaderSource, true)]) :
    ∃ pre post,
      evs = pre ++ [Event.attachShader (n + 2) v, Event.attachShader (n + 2) (n + 1)] ++ post ∧
      Event.compileShader n .fragment src false ∈ pre ∧
      Event.deleteShader v ∈ pre ∧
      Event.compileShader (n + 1) .fragment fallbackFragmentShaderSource true ∈ pre ∧
      Event.createProgram (n + 2) ∈ pre ∧
      (flag = false → sp = n + 2) := by
  rcases h with ⟨src', L, m, m', tail, hL, htail, e1, e2, _, _, rfl⟩ |
    ⟨src', L, F, p, f, attached, m, hL, hF, _, hsp, _, rfl⟩
  · exfalso
    simp only [fragmentCompiles_append, fragmentCompiles_cerr L hL,
      fragmentCompiles_compileCalls_fragment, fragmentCompiles_deleteShaders tail htail] at hc
    simp [fragmentCompiles, e2] at hc
  · rcases hF with ⟨d1, rfl, rfl, rfl⟩ | ⟨d1, d2, ⟨m1, rfl⟩, rfl, rfl⟩
    · exfalso
      simp only [fragmentCompiles_append, fragmentCompiles_cerr L hL,
        fragmentCompiles_compileCalls_fragment, fragmentCompiles_linkCalls,
        fragmentCompiles_failure, d1] at hc
      simp [fragmentCompiles] at hc
    · simp only [fragmentCompiles_append, fragmentCompiles_cerr L hL,
        fragmentCompiles_compileCalls_fragment, fragmentCompiles_linkCalls,
        fragmentCompiles_failure, d1, d2] at hc
      simp [fragmentCompiles] at hc
      subst hc
      refine ⟨L ++ (compileCalls env .fragment src' n ++ [.cerr m1, .deleteShader v] ++
          compileCalls env .fragment fallbackFragmentShaderSource (n + 1)) ++
            [.createProgram (n + 2)],
        [.linkProgram (n + 2) (env.linkStatus (n + 2) attached)] ++
          (if env.linkStatus (n + 2) attached then
            [.validateProgram (n + 2) (env.validateStatus (n + 2) attached)] ++
              (if env.validateStatus (n + 2) attached then []
               else [.deleteProgram (n + 2)])
           else [.deleteProgram (n + 2)]) ++
          (if flag then [Event.cerr m] else []) ++ [.deleteShader v, .deleteShader (n + 1)],
        ?_, ?_, ?_, ?_, ?_, hsp⟩
      · simp only [linkCalls, List.append_assoc, List.cons_append, List.nil_append]
      · simp [compileCalls, d1]
      · simp
      · simp [compileCalls, d2]
      · simp
/-- C15: the code does not do what the claim says.  In every run of the `Apply Shader` block
and of the initial build in which the supplied fragment source fails to compile and the
fallback compiles, the vertex shader compiled by this activation (name `nextName`) has been
deleted by `glDeleteShader` before the program is created: `linkProgram` is given the name
of the deleted vertex shader together with the fallback fragment shader.  When the build
succeeds all the same, the new program is the active one. -/
theorem fallback_link_gets_deleted_vertex (env : Env) (st : App) (src : String) :
    (fragmentCompiles (eventsSince st (applyShaderBlock env st).1) =
        [(src, false), (fallbackFragmentShaderSource, true)] →
      ∃ pre post,
        eventsSince st (applyShaderBlock env st).1 =
          pre ++ [Event.attachShader (st.gl.nextName + 3) st.gl.nextName,
                  Event.attachShader (st.gl.nextName + 3) (st.gl.nextName + 2)] ++ post ∧
        Event.compileShader st.gl.nextName .vertex vertexShaderSource true ∈ pre ∧
        Event.deleteShader st.gl.nextName ∈ pre ∧
        Event.compileShader (st.gl.nextName + 2) .fragment fallbackFragmentShaderSource true
          ∈ pre ∧
        Event.createProgram (st.gl.nextName + 3) ∈ pre ∧
        ((applyShaderBlock env st).2 = false →
          (applyShaderBlock env st).1.shaderProgram = st.gl.nextName + 3)) ∧
    (fragmentCompiles (eventsSince st (initialBuild env st).1) =
        [(src, false), (fallbackFragmentShaderSource, true)] →
      ∃ pre post,
        eventsSince st (initialBuild env st).1 =
          pre ++ [Event.attachShader (st.gl.nextName + 3) st.gl.nextName,
                  Event.attachShader (st.gl.nextName + 3) (st.gl.nextName + 2)] ++ post ∧
        Event.compileShader st.gl.nextName .vertex vertexShaderSource true ∈ pre ∧
        Event.deleteShader st.gl.nextName ∈ pre ∧
        Event.compileShader (st.gl.nextName + 2) .fragment fallbackFragmentShaderSource true
          ∈ pre ∧
        Event.createProgram (st.gl.nextName + 3) ∈ pre ∧
        ((initialBuild env st).2 = false →
          (initialBuild env st).1.shaderProgram = st.gl.nextName + 3)) := by
  constructor
  · intro hc
    rcases applyShaderBlock_cases env st with ⟨c1, c2, c3, c4, ⟨m, c5⟩, _⟩ |
      ⟨c1, st1, e1, t1, n1, v1, s1, _⟩
    · exfalso
      rw [eventsSince_of_trace (by rw [c5]; simp only [List.append_assoc]; rfl)] at hc
      simp only [fragmentCompiles_append, fragmentCompiles_release,
        fragmentCompiles_compileCalls_vertex] at hc
      simp [fragmentCompiles] at hc
    · obtain ⟨Y, hY⟩ := applyBuild_trace env st1
      have hev : eventsSince st1 (applyBuild env st1).1 = Y := eventsSince_of_trace hY
      have hall : eventsSince st (applyShaderBlock env st).1 =
          ((if st.shaderProgram ≠ 0 then [Event.deleteProgram st.shaderProgram] else []) ++
            compileCalls env .vertex vertexShaderSource st.gl.nextName) ++ Y :=
        eventsSince_of_trace (by rw [e1, hY, t1]; simp only [List.append_assoc])
      rw [hall] at hc ⊢
      simp only [fragmentCompiles_append, fragmentCompiles_release,
        fragmentCompiles_compileCalls_vertex, List.nil_append] at hc
      obtain ⟨hshape, _⟩ := applyBuild_shape env st1
      rw [hev] at hshape
      obtain ⟨pre, post, hY', p1, p2, p3, p4, p5⟩ := hshape.fallback src hc
      simp only [n1, v1, show st.gl.nextName + 1 + 2 = st.gl.nextName + 3 from rfl,
        show st.gl.nextName + 1 + 1 = st.gl.nextName + 2 from rfl] at hY' p1 p2 p3 p4 p5
      refine ⟨((if st.shaderProgram ≠ 0 then [Event.deleteProgram st.shaderProgram] else []) ++
          compileCalls env .vertex vertexShaderSource st.gl.nextName) ++ pre, post, ?_, ?_, ?_,
        ?_, ?_, ?_⟩
      · rw [hY']
        simp only [List.append_assoc]
      · refine List.mem_append_left _ (List.mem_append_right _ ?_)
        simp [compileCalls, c1]
      · exact List.mem_append_right _ p2
      · exact List.mem_append_right _ p3
      · exact List.mem_append_right _ p4
      · rw [e1]
        exact p5
  · intro hc
    rcases initialBuild_cases env st with ⟨c1, c2, c3, c4, ⟨m, c5⟩, _⟩ |
      ⟨c1, st1, e1, t1, n1, v1, s1, _⟩
    · exfalso
      rw [eventsSince_of_trace (by rw [c5]; simp only [List.append_assoc]; rfl)] at hc
      simp only [fragmentCompiles_append, fragmentCompiles_compileCalls_vertex] at hc
      simp [fragmentCompiles] at hc
    · obtain ⟨Y, hY⟩ := initialBuildRest_trace env st1
      have hev : eventsSince st1 (initialBuildRest env st1).1 = Y := eventsSince_of_trace hY
      have hall : eventsSince st (initialBuild env st).1 =
          compileCalls env .vertex vertexShaderSource st.gl.nextName ++ Y :=
        eventsSince_of_trace (by rw [e1, hY, t1]; simp only [List.append_assoc])
      rw [hall] at hc ⊢
      simp only [fragmentCompiles_append, fragmentCompiles_compileCalls_vertex,
        List.nil_append] at hc
      have hshape := initialBuildRest_shape env st1
      rw [hev] at hshape
      obtain ⟨pre, post, hY', p1, p2, p3, p4, p5⟩ := hshape.fallback src hc
      simp only [n1, v1, show st.gl.nextName + 1 + 2 = st.gl.nextName + 3 from rfl,
        show st.gl.nextName + 1 + 1 = st.gl.nextName + 2 from rfl] at hY' p1 p2 p3 p4 p5
      refine ⟨compileCalls env .vertex vertexShaderSource st.gl.nextName ++ pre, post,
        ?_, ?_, ?_, ?_, ?_, ?_⟩
      · rw [hY']
        simp only [List.append_assoc]
      · refine List.mem_append_left _ ?_
        simp [compileCalls, c1]
      · exact List.mem_append_right _ p2
      · exact List.mem_append_right _ p3
      · exact List.mem_append_right _ p4
      · rw [e1]
        exact p5
/-- C15 in the run with the strict compiler: the activation of `shaders/bad.txt` deletes
the vertex shader 4 before it creates program 7 and attaches shader 4 to it, which leaves
`GL_INVALID_VALUE` in the error flag; the initial build of a catalog that starts with
`shaders/bad.txt` does the same with vertex shader 1 and program 4. -/
theorem fallback_link_gets_deleted_vertex_witness :
    eventsSince Sample.strictSelected (applyShaderBlock Env.strict Sample.strictSelected).1 =
      [.deleteProgram 3, .createShader .vertex 4,
       .compileShader 4 .vertex vertexShaderSource true,
       .createShader .fragment 5, .compileShader 5 .fragment "BAD" false, .deleteShader 5,
       .cerr "Shader compilation failed (fragment):\n0:1: syntax error\n",
       .deleteShader 4,
       .createShader .fragment 6, .compileShader 6 .fragment fallbackFragmentShaderSource true,
       .createProgram 7, .attachShader 7 4, .attachShader 7 6,
       .linkProgram 7 true, .validateProgram 7 true, .deleteShader 4, .deleteShader 6] ∧
    (applyShaderBlock Env.strict Sample.strictSelected).1.gl.error = GL_INVALID_VALUE ∧
    (∃ pre post,
      eventsSince Sample.strictSelected (applyShaderBlock Env.strict Sample.strictSelected).1 =
        pre ++ [Event.attachShader (Sample.strictSelected.gl.nextName + 3)
                  Sample.strictSelected.gl.nextName,
                Event.attachShader (Sample.strictSelected.gl.nextName + 3)
                  (Sample.strictSelected.gl.nextName + 2)] ++ post ∧
      Event.compileShader Sample.strictSelected.gl.nextName .vertex vertexShaderSource true
        ∈ pre ∧
      Event.deleteShader Sample.strictSelected.gl.nextName ∈ pre ∧
      Event.compileShader (Sample.strictSelected.gl.nextName + 2) .fragment
        fallbackFragmentShaderSource true ∈ pre ∧
      Event.createProgram (Sample.strictSelected.gl.nextName + 3) ∈ pre ∧
      ((applyShaderBlock Env.strict Sample.strictSelected).2 = false →
        (applyShaderBlock Env.strict Sample.strictSelected).1.shaderProgram =
          Sample.strictSelected.gl.nextName + 3)) ∧
    (∃ pre post,
      eventsSince (initialApp Env.strictBadFirst)
          (initialBuild Env.strictBadFirst (initialApp Env.strictBadFirst)).1 =
        pre ++ [Event.attachShader ((initialApp Env.strictBadFirst).gl.nextName + 3)
                  (initialApp Env.strictBadFirst).gl.nextName,
                Event.attachShader ((initialApp Env.strictBadFirst).gl.nextName + 3)
                  ((initialApp Env.strictBadFirst).gl.nextName + 2)] ++ post ∧
      Event.compileShader (initialApp Env.strictBadFirst).gl.nextName .vertex
        vertexShaderSource true ∈ pre ∧
      Event.deleteShader (initialApp Env.strictBadFirst).gl.nextName ∈ pre ∧
      Event.compileShader ((initialApp Env.strictBadFirst).gl.nextName + 2) .fragment
        fallbackFragmentShaderSource true ∈ pre ∧
      Event.createProgram ((initialApp Env.strictBadFirst).gl.nextName + 3) ∈ pre ∧
      ((initialBuild Env.strictBadFirst (initialApp Env.strictBadFirst)).2 = false →
        (initialBuild Env.strictBadFirst (initialApp Env.strictBadFirst)).1.shaderProgram =
          (initialApp Env.strictBadFirst).gl.nextName + 3)) :=
  ⟨rfl, by decide,
   (fallback_link_gets_deleted_vertex Env.strict Sample.strictSelected "BAD").1 (by decide),
   (fallback_link_gets_deleted_vertex Env.strictBadFirst (initialApp Env.strictBadFirst)
      "BAD").2 (by decide)⟩

/-! ## Each program is destroyed once (C16) -/

theorem createdPrograms_append (a b : List Event) :
    createdPrograms (a ++ b) = createdPrograms a ++ createdPrograms b := by
  simp [createdPrograms, List.filterMap_append]

theorem mem_createdPrograms (evs : List Event) (n : Nat) :
    n ∈ createdPrograms evs ↔ Event.createProgram n ∈ evs := by
  unfold createdPrograms
  rw [List.mem_filterMap]
  constructor
  · rintro ⟨e, he, h⟩
    cases e <;> simp at h
    subst h
    exact he
  · intro h
    exact ⟨_, h, rfl⟩

theorem createdPrograms_cerr (L : List Event) (hL : ∀ e ∈ L, ∃ t, e = Event.cerr t) :
    createdPrograms L = [] := by
  induction L with
  | nil => rfl
  | cons a L ih =>
    obtain ⟨t, rfl⟩ := hL a (List.mem_cons_self _ _)
    simpa [createdPrograms] using ih (fun e he => hL e (List.mem_cons_of_mem _ he))

theorem createdPrograms_deleteShaders (L : List Event)
    (hL : ∀ e ∈ L, ∃ t, e = Event.deleteShader t) : createdPrograms L = [] := by
  induction L with
  | nil => rfl
  | cons a L ih =>
    obtain ⟨t, rfl⟩ := hL a (List.mem_cons_self _ _)
    simpa [createdPrograms] using ih (fun e he => hL e (List.mem_cons_of_mem _ he))

theorem createdPrograms_compileCalls (env : Env) (kind : ShaderKind) (src : String) (n : Nat) :
    createdPrograms (compileCalls env kind src n) = [] := by
  unfold compileCalls createdPrograms
  cases env.compileStatus n kind src <;> simp

theorem createdPrograms_linkCalls (env : Env) (p v f : Nat)
    (attached : List (ShaderKind × String)) :
    createdPrograms (linkCalls env p v f attached) = [p] := by
  unfold linkCalls createdPrograms
  cases env.linkStatus p attached <;> cases env.validateStatus p attached <;> simp

theorem createdPrograms_release (sp : Nat) :
    createdPrograms (if sp ≠ 0 then [Event.deleteProgram sp] else []) = [] := by
  by_cases h : sp = 0 <;> simp [h, createdPrograms]

theorem createdPrograms_failure (b : Bool) (m : String) :
    createdPrograms (if b then [Event.cerr m] else []) = [] := by
  cases b <;> simp [createdPrograms]

theorem createdPrograms_previewCalls (env : Env) (st : App) (elapsed : F32) :
    createdPrograms (previewCalls env st elapsed) = [] := by
  unfold previewCalls createdPrograms
  by_cases h1 : st.iTimeLoc = -1 <;> by_cases h2 : st.iResLoc = -1 <;> simp [h1, h2]

theorem createdPrograms_frameCalls (env : Env) (bufLen : Nat) (st : App) (frame : Int) :
    createdPrograms (frameCalls env bufLen st frame) = [] := by
  unfold frameCalls createdPrograms
  by_cases h1 : st.iTimeLoc = -1 <;> by_cases h2 : st.iResLoc = -1 <;>
    by_cases h3 : env.fwriteAccepted frame bufLen = bufLen <;> simp [h1, h2, h3]

theorem createdPrograms_setup (w h : Int) (b : Bool) :
    createdPrograms ([Event.checkFramebuffer w h b] ++
      (if b then [] else [Event.cerr "Framebuffer incomplete!\n"])) = [] := by
  cases b <;> simp [createdPrograms]

/-- The scan of two traces in a row. -/
theorem bindScan_append (a c : List Event) :
    ∀ b : Bool, bindScan b (a ++ c) = (bindScan b a).bind (fun b' => bindScan b' c) := by
  induction a with
  | nil => intro b; rfl
  | cons e a ih =>
    intro b
    cases e
    case deleteProgram n => cases b <;> simp [bindScan, ih]
    all_goals simp [bindScan, ih]

/-- Calls that bind no program leave the scan in the unbound state. -/
theorem bindScan_noUse (evs : List Event) (h : usedPrograms evs = []) :
    bindScan false evs = some false := by
  induction evs with
  | nil => rfl
  | cons e evs ih =>
    cases e <;> simp [usedPrograms] at h <;> simp only [bindScan] <;>
      exact ih (by simpa [usedPrograms] using h)

theorem bindScan_previewCalls (env : Env) (st : App) (elapsed : F32) :
    bindScan false (previewCalls env st elapsed) = some false := by
  unfold previewCalls
  by_cases h1 : st.iTimeLoc = -1 <;> by_cases h2 : st.iResLoc = -1 <;>
    simp [h1, h2, bindScan]

theorem bindScan_frameCalls (env : Env) (bufLen : Nat) (st : App) (frame : Int) :
    bindScan false (frameCalls env bufLen st frame) = some false := by
  unfold frameCalls
  by_cases h1 : st.iTimeLoc = -1 <;> by_cases h2 : st.iResLoc = -1 <;>
    by_cases h3 : env.fwriteAccepted frame bufLen = bufLen <;> simp [h1, h2, h3, bindScan]
/-- While no draw call is issued a bound program stays bound, unless the scan fails. -/
theorem bindScan_stays (mid : List Event) (h : Event.drawArrays ∉ mid) :
    bindScan true mid = some true ∨ bindScan true mid = none := by
  induction mid with
  | nil => exact Or.inl rfl
  | cons e mid ih =>
    have ih' := ih (fun hm => h (List.mem_cons_of_mem _ hm))
    cases e
    case drawArrays => exact absurd (List.mem_cons_self _ _) h
    case deleteProgram n => exact Or.inr rfl
    all_goals simpa [bindScan] using ih'

/-- A trace that passes the scan has a draw call between every `glUseProgram` and every
later `glDeleteProgram`. -/
theorem bindScan_sound (tr : List Event) (b0 b : Bool) (h : bindScan b0 tr = some b)
    (pre mid post : List Event) (p q : Nat)
    (hs : tr = pre ++ Event.useProgram p :: (mid ++ Event.deleteProgram q :: post)) :
    Event.drawArrays ∈ mid := by
  subst hs
  rw [bindScan_append] at h
  cases hpre : bindScan b0 pre with
  | none => rw [hpre] at h; cases h
  | some b1 =>
    rw [hpre] at h
    simp only [Option.bind, bindScan] at h
    rw [bindScan_append] at h
    by_contra hnd
    rcases bindScan_stays mid hnd with h1 | h1
    · rw [h1] at h
      simp [bindScan] at h
    · rw [h1] at h
      cases h

theorem count_deleteProgram (tr : List Event) (p : Nat) :
    tr.count (Event.deleteProgram p) = (deletedPrograms tr).count p := by
  induction tr with
  | nil => rfl
  | cons e tr ih =>
    cases e
    case deleteProgram n =>
      by_cases hn : n = p
      · subst hn
        simp [deletedPrograms] at ih ⊢
        exact ih
      · have hn' : ¬ p = n := fun h => hn h.symm
        simp [deletedPrograms, List.count_cons, hn, hn'] at ih ⊢
        exact ih
    all_goals simpa [deletedPrograms, List.count_cons] using ih

/-- Calls that create and delete no program and pass the scan keep the invariant. -/
theorem Life.append_calls {tr : List Event} {n sp : Nat} (h : Life tr n sp) (evs : List Event)
    (hc : createdPrograms evs = []) (hd : deletedPrograms evs = [])
    (hs : bindScan false evs = some false) : Life (tr ++ evs) n sp := by
  obtain ⟨l0, l1, l2, l3, l4, l5, l6⟩ := h
  refine ⟨l0, ?_, ?_, ?_, ?_, ?_, ?_⟩
  · rw [createdPrograms_append, hc, List.append_nil]
    exact l1
  · rw [createdPrograms_append, hc, List.append_nil]
    exact l2
  · rw [deletedPrograms_append, hd, List.append_nil]
    exact l3
  · rw [createdPrograms_append, hc, List.append_nil, deletedPrograms_append, hd,
      List.append_nil]
    exact l4
  · rw [createdPrograms_append, hc, List.append_nil]
    exact l5
  · rw [bindScan_append, l6]
    exact hs
/-- A build keeps the invariant: it binds nothing, deletes the program that was active, and
creates at most one program with a fresh name, which it deletes again when the build fails
and leaves as the active program when the build succeeds. -/
theorem Life.after_build {tr : List Event} {n sp : Nat} (h : Life tr n sp) (evs : List Event)
    (L : List Nat) (flag : Bool) (n' : Nat)
    (hc : createdPrograms evs = L)
    (hd : deletedPrograms evs =
      (if sp ≠ 0 then [sp] else []) ++ (if flag then L else []))
    (hu : usedPrograms evs = [])
    (hL : L = [] ∨ ∃ p, L = [p] ∧ n ≤ p ∧ p < n') (hn : n ≤ n')
    (hflag : flag = false → L ≠ []) :
    Life (tr ++ evs) n' (if flag then 0 else L.headD 0) := by
  obtain ⟨l0, l1, l2, l3, l4, l5, l6⟩ := h
  have hsd : sp ∉ deletedPrograms tr := fun hm => ((l4 sp).mp hm).2 rfl
  have hsub : ∀ q, q ∈ deletedPrograms tr → q ∈ createdPrograms tr := fun q hq =>
    ((l4 q).mp hq).1
  have hscan : bindScan false (tr ++ evs) = some false := by
    rw [bindScan_append, l6]
    exact bindScan_noUse evs hu
  have hrel : ∀ q, q ∈ (if sp ≠ 0 then [sp] else []) ↔ (q = sp ∧ sp ≠ 0) := by
    intro q
    by_cases h0 : sp = 0 <;> simp [h0]
  have hrelnd : (if sp ≠ 0 then [sp] else [] : List Nat).Nodup := by
    by_cases h0 : sp = 0 <;> simp [h0]
  rcases hL with rfl | ⟨p, rfl, hp1, hp2⟩
  · have hf : flag = true := by
      cases flag
      · exact absurd rfl (hflag rfl)
      · rfl
    subst hf
    simp only [if_true, List.append_nil] at hd ⊢
    refine ⟨by omega, ?_, ?_, ?_, ?_, ?_, hscan⟩
    · intro q hq
      rw [createdPrograms_append, hc, List.append_nil] at hq
      have := l1 q hq
      omega
    · rw [createdPrograms_append, hc, List.append_nil]
      exact l2
    · rw [deletedPrograms_append, hd]
      refine List.Nodup.append l3 hrelnd ?_
      intro q hq1 hq2
      rw [hrel] at hq2
      exact hsd (hq2.1 ▸ hq1)
    · intro q
      rw [deletedPrograms_append, hd, createdPrograms_append, hc, List.append_nil,
        List.mem_append, hrel, l4]
      constructor
      · rintro (⟨hq, _⟩ | ⟨rfl, h0⟩)
        · exact ⟨hq, fun h0 => by have := l1 q hq; omega⟩
        · exact ⟨l5 h0, h0⟩
      · rintro ⟨hq, h0⟩
        by_cases hqs : q = sp
        · exact Or.inr ⟨hqs, hqs ▸ h0⟩
        · exact Or.inl ⟨hq, hqs⟩
    · intro h0
      exact absurd rfl h0
  · have hpc : p ∉ createdPrograms tr := fun hm => by have := l1 p hm; omega
    have hpd : p ∉ deletedPrograms tr := fun hm => hpc (hsub p hm)
    have hps : sp ≠ p := by
      intro hsp
      by_cases h0 : sp = 0
      · omega
      · exact hpc (hsp ▸ l5 h0)
    have hcr : ∀ q, q ∈ createdPrograms (tr ++ evs) ↔ q ∈ createdPrograms tr ∨ q = p := by
      intro q
      rw [createdPrograms_append, hc]
      simp
    refine ⟨by omega, ?_, ?_, ?_, ?_, ?_, hscan⟩
    · intro q hq
      rcases (hcr q).mp hq with hq | rfl
      · have := l1 q hq
        omega
      · omega
    · rw [createdPrograms_append, hc]
      exact List.Nodup.append l2 (by simp) (by
        intro q hq1 hq2
        simp at hq2
        exact hpc (hq2 ▸ hq1))
    · rw [deletedPrograms_append, hd]
      refine List.Nodup.append l3 ?_ ?_
      · refine List.Nodup.append hrelnd (by cases flag <;> simp) ?_
        intro q hq1 hq2
        rw [hrel] at hq1
        cases flag
        · simp at hq2
        · simp at hq2
          exact hps (hq1.1 ▸ hq2)
      · intro q hq1 hq2
        rcases List.mem_append.mp hq2 with hq2 | hq2
        · rw [hrel] at hq2
          exact hsd (hq2.1 ▸ hq1)
        · cases flag
          · simp at hq2
          · simp at hq2
            exact hpd (hq2 ▸ hq1)
    · intro q
      rw [hcr, deletedPrograms_append, hd, List.mem_append, List.mem_append, hrel, l4]
      cases flag
      · simp only [Bool.false_eq_true, if_false, List.not_mem_nil, or_false, List.headD_cons]
        constructor
        · rintro (⟨hq, _⟩ | ⟨rfl, h0⟩)
          · exact ⟨Or.inl hq, fun hqp => hpc (hqp ▸ hq)⟩
          · exact ⟨Or.inl (l5 h0), hps⟩
        · rintro ⟨hq | hq, hqp⟩
          · by_cases hqs : q = sp
            · refine Or.inr ⟨hqs, fun h0 => ?_⟩
              have := l1 q hq
              omega
            · exact Or.inl ⟨hq, hqs⟩
          · exact absurd hq hqp
      · simp only [if_true, List.mem_singleton]
        constructor
        · rintro (⟨hq, _⟩ | ⟨rfl, h0⟩ | rfl)
          · exact ⟨Or.inl hq, fun h0 => by have := l1 q hq; omega⟩
          · exact ⟨Or.inl (l5 h0), h0⟩
          · exact ⟨Or.inr rfl, by omega⟩
        · rintro ⟨hq | hq, h0⟩
          · by_cases hqs : q = sp
            · exact Or.inr (Or.inl ⟨hqs, hqs ▸ h0⟩)
            · exact Or.inl ⟨hq, hqs⟩
          · exact Or.inr (Or.inr hq)
    · intro h0
      cases flag
      · simp only [Bool.false_eq_true, if_false, List.headD_cons] at h0 ⊢
        exact (hcr p).mpr (Or.inr rfl)
      · exact absurd rfl h0
/-- The programs a build creates and deletes: at most one program is created, with a name
from `n` on; it is deleted again exactly when the build fails, and it is the value of
`shaderProgram` when the build succeeds. -/
theorem BuildShape.programs {env : Env} {n v : Nat} {evs : List Event} {flag : Bool}
    {sp n' : Nat} (h : BuildShape env n v evs flag sp n') :
    ∃ L, createdPrograms evs = L ∧ deletedPrograms evs = (if flag then L else []) ∧
      usedPrograms evs = [] ∧
      (L = [] ∨ ∃ p, L = [p] ∧ n ≤ p ∧ p < n' ∧ (flag = false → sp = p)) ∧ n ≤ n' ∧
      (flag = false → L ≠ []) := by
  rcases h with ⟨src, L, m, m', tail, hL, htail, _, _, hflag, hn', rfl⟩ |
    ⟨src, L, F, p, f, attached, m, hL, hF, hflag, hsp, hn', rfl⟩
  · refine ⟨[], ?_, ?_, ?_, Or.inl rfl, by omega, ?_⟩
    · simp only [createdPrograms_append, createdPrograms_cerr L hL,
        createdPrograms_compileCalls, createdPrograms_deleteShaders tail htail]
      simp [createdPrograms]
    · simp only [deletedPrograms_append, deletedPrograms_cerr L hL,
        deletedPrograms_compileCalls, deletedPrograms_deleteShaders tail htail]
      simp [deletedPrograms]
    · simp only [usedPrograms_append, usedPrograms_cerr L hL, usedPrograms_compileCalls,
        usedPrograms_deleteShaders tail htail]
      simp [usedPrograms]
    · intro hf
      rw [hflag] at hf
      cases hf
  · have hFu : usedPrograms F = [] ∧ deletedPrograms F = [] ∧ createdPrograms F = [] ∧
        n < p := by
      rcases hF with ⟨_, rfl, rfl, _⟩ | ⟨_, _, ⟨m1, rfl⟩, rfl, _⟩
      · exact ⟨usedPrograms_compileCalls _ _ _ _, deletedPrograms_compileCalls _ _ _ _,
          createdPrograms_compileCalls _ _ _ _, by omega⟩
      · refine ⟨?_, ?_, ?_, by omega⟩
        · simp only [usedPrograms_append, usedPrograms_compileCalls]
          simp [usedPrograms]
        · simp only [deletedPrograms_append, deletedPrograms_compileCalls]
          simp [deletedPrograms]
        · simp only [createdPrograms_append, createdPrograms_compileCalls]
          simp [createdPrograms]
    obtain ⟨hFu, hFd, hFc, hnp⟩ := hFu
    refine ⟨[p], ?_, ?_, ?_, Or.inr ⟨p, rfl, by omega, by omega, hsp⟩, by omega, by simp⟩
    · simp only [createdPrograms_append, createdPrograms_cerr L hL, hFc,
        createdPrograms_linkCalls, createdPrograms_failure]
      simp [createdPrograms]
    · simp only [deletedPrograms_append, deletedPrograms_cerr L hL, hFd,
        deletedPrograms_linkCalls, deletedPrograms_failure]
      rw [hflag]
      cases (env.linkStatus p attached && env.validateStatus p attached) <;>
        simp [deletedPrograms]
    · simp only [usedPrograms_append, usedPrograms_cerr L hL, hFu, usedPrograms_linkCalls,
        usedPrograms_failure]
      simp [usedPrograms]

/-- A step that only adds calls which create and delete no program and pass the scan keeps
the invariant. -/
theorem Owned.after_calls {st st' : App} (h : Owned st) (evs : List Event)
    (ht : st'.trace = st.trace ++ evs) (hn : st'.gl.nextName = st.gl.nextName)
    (hs : st'.shaderProgram = st.shaderProgram)
    (hc : createdPrograms evs = []) (hd : deletedPrograms evs = [])
    (hb : bindScan false evs = some false) : Owned st' := by
  unfold Owned at h ⊢
  rw [ht, hn, hs]
  exact Life.append_calls h evs hc hd hb

/-- A change of local variables other than `shaderProgram` keeps the invariant. -/
theorem Owned.unchanged {st st' : App} (h : Owned st) (ht : st'.trace = st.trace)
    (hn : st'.gl.nextName = st.gl.nextName) (hs : st'.shaderProgram = st.shaderProgram) :
    Owned st' :=
  h.after_calls [] (by simp [ht]) hn hs rfl rfl rfl

/-- The `Apply Shader` block keeps the ownership invariant. -/
theorem applyShaderBlock_owned (env : Env) (st : App) (h : Owned st) :
    Owned (applyShaderBlock env st).1 := by
  unfold Owned at h ⊢
  rcases applyShaderBlock_cases env st with ⟨c1, c2, c3, c4, ⟨m, c5⟩, _⟩ |
    ⟨c1, st1, e1, t1, n1, v1, s1, _⟩
  · have key := Life.after_build h
      ((if st.shaderProgram ≠ 0 then [Event.deleteProgram st.shaderProgram] else []) ++
        compileCalls env .vertex vertexShaderSource st.gl.nextName ++ [.cerr m])
      [] true (st.gl.nextName + 1)
      (by
        simp only [createdPrograms_append, createdPrograms_release,
          createdPrograms_compileCalls]
        simp [createdPrograms])
      (by
        simp only [deletedPrograms_append, deletedPrograms_release,
          deletedPrograms_compileCalls]
        simp [deletedPrograms])
      (by
        simp only [usedPrograms_append, usedPrograms_release, usedPrograms_compileCalls]
        simp [usedPrograms])
      (Or.inl rfl) (by omega) (by intro hf; cases hf)
    rw [c5, c4, c3]
    simpa only [List.append_assoc] using key
  · obtain ⟨hshape, hsp0⟩ := applyBuild_shape env st1
    obtain ⟨Y, hY⟩ := applyBuild_trace env st1
    rw [eventsSince_of_trace hY] at hshape
    obtain ⟨L, b1, b2, b3, b4, b5, b6⟩ := hshape.programs
    have key := Life.after_build h
      ((if st.shaderProgram ≠ 0 then [Event.deleteProgram st.shaderProgram] else []) ++
        compileCalls env .vertex vertexShaderSource st.gl.nextName ++ Y)
      L (applyBuild env st1).2 (applyBuild env st1).1.gl.nextName
      (by
        simp only [createdPrograms_append, createdPrograms_release,
          createdPrograms_compileCalls, b1]
        rfl)
      (by
        simp only [deletedPrograms_append, deletedPrograms_release,
          deletedPrograms_compileCalls, b2, List.append_nil])
      (by
        simp only [usedPrograms_append, usedPrograms_release, usedPrograms_compileCalls, b3]
        rfl)
      (by
        rcases b4 with h0 | ⟨p, hp, hp1, hp2, _⟩
        · exact Or.inl h0
        · exact Or.inr ⟨p, hp, by omega, hp2⟩)
      (by omega) b6
    have hsp : (applyBuild env st1).1.shaderProgram =
        if (applyBuild env st1).2 then 0 else L.headD 0 := by
      cases hf : (applyBuild env st1).2
      · rcases b4 with h0 | ⟨p, hp, _, _, hp3⟩
        · exact absurd h0 (b6 hf)
        · rw [hp3 hf, hp]
          rfl
      · exact hsp0 hf
    rw [e1, hY, t1, hsp]
    simpa only [List.append_assoc] using key
/-- The initial build, started with no active program, establishes the ownership invariant:
for the new program when it succeeds, and with no program left when it fails. -/
theorem initialBuild_owned (env : Env) (st : App) (h : Owned st) (h0 : st.shaderProgram = 0) :
    Life (initialBuild env st).1.trace (initialBuild env st).1.gl.nextName
      (if (initialBuild env st).2 then 0 else (initialBuild env st).1.shaderProgram) := by
  unfold Owned at h
  rw [h0] at h
  rcases initialBuild_cases env st with ⟨c1, c2, c3, c4, ⟨m, c5⟩, _⟩ |
    ⟨c1, st1, e1, t1, n1, v1, s1, _⟩
  · have key := Life.after_build h
      (compileCalls env .vertex vertexShaderSource st.gl.nextName ++ [.cerr m])
      [] true (st.gl.nextName + 1)
      (by
        simp only [createdPrograms_append, createdPrograms_compileCalls]
        simp [createdPrograms])
      (by
        simp only [deletedPrograms_append, deletedPrograms_compileCalls]
        simp [deletedPrograms])
      (by
        simp only [usedPrograms_append, usedPrograms_compileCalls]
        simp [usedPrograms])
      (Or.inl rfl) (by omega) (by intro hf; cases hf)
    rw [c5, c4, c2]
    simpa only [List.append_assoc] using key
  · have hshape := initialBuildRest_shape env st1
    obtain ⟨Y, hY⟩ := initialBuildRest_trace env st1
    rw [eventsSince_of_trace hY] at hshape
    obtain ⟨L, b1, b2, b3, b4, b5, b6⟩ := hshape.programs
    have key := Life.after_build h
      (compileCalls env .vertex vertexShaderSource st.gl.nextName ++ Y)
      L (initialBuildRest env st1).2 (initialBuildRest env st1).1.gl.nextName
      (by
        simp only [createdPrograms_append, createdPrograms_compileCalls, b1]
        rfl)
      (by
        simp only [deletedPrograms_append, deletedPrograms_compileCalls, b2]
        simp)
      (by
        simp only [usedPrograms_append, usedPrograms_compileCalls, b3]
        rfl)
      (by
        rcases b4 with h0 | ⟨p, hp, hp1, hp2, _⟩
        · exact Or.inl h0
        · exact Or.inr ⟨p, hp, by omega, hp2⟩)
      (by omega) b6
    have hsp : (if (initialBuildRest env st1).2 then 0
        else (initialBuildRest env st1).1.shaderProgram) =
        if (initialBuildRest env st1).2 then 0 else L.headD 0 := by
      cases hf : (initialBuildRest env st1).2
      · rcases b4 with h0 | ⟨p, hp, _, _, hp3⟩
        · exact absurd h0 (b6 hf)
        · simp only [Bool.false_eq_true, if_false]
          rw [hp3 hf, hp]
          rfl
      · rfl
    rw [e1, hY, t1, hsp]
    simpa only [List.append_assoc] using key

theorem Owned.at_start (env : Env) : Owned (initialApp env) := by
  refine ⟨Nat.zero_lt_one, ?_, ?_, ?_, ?_, ?_, rfl⟩
  · intro p hp
    simp [initialApp, createdPrograms] at hp
  · simp [initialApp, createdPrograms]
  · simp [initialApp, deletedPrograms]
  · intro p
    simp [initialApp, createdPrograms, deletedPrograms]
  · intro h
    exact absurd rfl h

theorem displayErrors_owned (st : App) (h : Owned st) : Owned (displayErrors st) := by
  unfold displayErrors
  split
  · exact h.after_calls [.showError st.errorMessage] rfl rfl rfl rfl rfl rfl
  · exact h

theorem previewDraw_owned (env : Env) (elapsed : F32) (st : App) (h : Owned st) :
    Owned (previewDraw env elapsed st) := by
  rw [previewDraw_eq]
  by_cases h0 : st.shaderProgram = 0
  · simp [h0, h]
  · simp only [ne_eq, h0, not_false_eq_true, if_true]
    exact h.after_calls (previewCalls env st elapsed) rfl rfl rfl
      (createdPrograms_previewCalls env st elapsed)
      (deletedPrograms_previewCalls env st elapsed) (bindScan_previewCalls env st elapsed)

theorem checkGLError_owned (st : App) (h : Owned st) : Owned (checkGLError st) := by
  unfold checkGLError
  by_cases he : st.gl.error = 0
  · simp only [he, ne_eq, not_true_eq_false, if_false]
    exact h.after_calls [] (by simp) rfl rfl rfl rfl rfl
  · simp only [ne_eq, he, not_false_eq_true, if_true]
    exact h.after_calls [_] rfl rfl rfl rfl rfl rfl

/-- One iteration of the interactive loop keeps the ownership invariant. -/
theorem loopBody_owned (env : Env) (inp : FrameInput) (st : App) (h : Owned st) :
    Owned (loopBody env inp st).1 := by
  unfold loopBody
  simp only []
  generalize hst1 : (if inp.applyClicked = true then _ else _ : App) = st1
  have h1 : Owned st1 := by
    subst hst1
    by_cases ha : inp.applyClicked = true <;>
      by_cases hb : inp.shaderIndex < (shaderFiles env).length <;>
      simp only [ha, hb, if_true, if_false] <;>
      exact h.unchanged rfl rfl rfl
  by_cases hap : st1.applyShader = true
  · simp only [hap, if_true]
    have h2 := applyShaderBlock_owned env st1 h1
    by_cases hc : (applyShaderBlock env st1).2 = true
    · simp only [hc, if_true]
      exact h2
    · simp only [hc, if_false]
      refine checkGLError_owned _ (previewDraw_owned _ _ _ ?_)
      by_cases hs : inp.startClicked = true <;> simp only [hs, if_true, if_false] <;>
        exact (displayErrors_owned _ h2).unchanged rfl rfl rfl
  · simp only [hap, if_false]
    refine checkGLError_owned _ (previewDraw_owned _ _ _ ?_)
    by_cases hs : inp.startClicked = true <;> simp only [hs, if_true, if_false] <;>
      exact (displayErrors_owned _ h1).unchanged rfl rfl rfl

/-- The interactive loop keeps the ownership invariant. -/
theorem mainLoop_owned (env : Env) :
    ∀ (inputs : List FrameInput) (st : App), Owned st → Owned (mainLoop env inputs st)
  | [], st, h => by simpa [mainLoop] using h
  | inp :: rest, st, h => by
      unfold mainLoop
      by_cases hc : inp.windowShouldClose = true
      · simp only [hc, if_true]
        exact h
      · simp only [hc, if_false]
        have h1 := loopBody_owned env inp st h
        by_cases hb : (loopBody env inp st).2 = true
        · simp only [hb, if_true]
          exact h1
        · simp only [hb, if_false]
          exact mainLoop_owned env rest _ h1
theorem createdPrograms_frames (env : Env) (bufLen : Nat) (st : App) (frames : List Nat) :
    createdPrograms ((frames.map (fun (k : Nat) => frameCalls env bufLen st (k : Int))).flatten)
      = [] := by
  induction frames with
  | nil => rfl
  | cons f frames ih =>
    simp only [List.map_cons, List.flatten_cons, createdPrograms_append,
      createdPrograms_frameCalls, ih, List.append_nil]

theorem deletedPrograms_frameRun (env : Env) (bufLen : Nat) (st : App) (frames : List Nat) :
    deletedPrograms ((frames.map (fun (k : Nat) => frameCalls env bufLen st (k : Int))).flatten)
      = [] := by
  induction frames with
  | nil => rfl
  | cons f frames ih =>
    simp only [List.map_cons, List.flatten_cons, deletedPrograms_append,
      deletedPrograms_frameCalls, ih, List.append_nil]

theorem bindScan_frames (env : Env) (bufLen : Nat) (st : App) (frames : List Nat) :
    bindScan false ((frames.map (fun (k : Nat) => frameCalls env bufLen st (k : Int))).flatten)
      = some false := by
  induction frames with
  | nil => rfl
  | cons f frames ih =>
    simp only [List.map_cons, List.flatten_cons, bindScan_append, bindScan_frameCalls,
      Option.bind, ih]

/-- Rendering into the open pipe leaves the context and `shaderProgram` alone and only adds
calls to the trace. -/
theorem renderToPipe_fields (env : Env) (st : App) :
    (renderToPipe env st).1.gl = st.gl ∧
    (renderToPipe env st).1.shaderProgram = st.shaderProgram ∧
    ∃ evs, (renderToPipe env st).1.trace = st.trace ++ evs := by
  unfold renderToPipe
  rw [setupFramebuffer_eq]
  simp only []
  cases frameBufferSize st.offWidth st.offHeight with
  | none => exact ⟨rfl, rfl, _, rfl⟩
  | some len =>
    simp only [renderLoop_frames, App.emit]
    exact ⟨trivial, trivial, _, by simp only [List.append_assoc]; rfl⟩

/-- Offline rendering leaves the context and `shaderProgram` alone and only adds calls to
the trace. -/
theorem offlineRender_fields (env : Env) (st : App) :
    (offlineRender env st).1.gl = st.gl ∧
    (offlineRender env st).1.shaderProgram = st.shaderProgram ∧
    (offlineRender env st).1.trace = st.trace ++ eventsSince st (offlineRender env st).1 := by
  have key : (offlineRender env st).1.gl = st.gl ∧
      (offlineRender env st).1.shaderProgram = st.shaderProgram ∧
      ∃ evs, (offlineRender env st).1.trace = st.trace ++ evs := by
    unfold offlineRender
    by_cases hg : (st.startOfflineRender && decide (st.shaderProgram ≠ 0)) = true
    · simp only [hg, if_true]
      cases hok : env.popenOk (ffmpegCommand st.offWidth st.offHeight (selectOutputFile env))
      · simp only [Bool.not_false, if_true, App.emit]
        exact ⟨trivial, trivial, _, by simp only [List.append_assoc]; rfl⟩
      · simp only [Bool.not_true, Bool.false_eq_true, if_false]
        obtain ⟨g1, g2, evs, g3⟩ := renderToPipe_fields env
          (st.emit (.popen (ffmpegCommand st.offWidth st.offHeight (selectOutputFile env))
            true))
        exact ⟨g1, g2, _, by rw [g3]; simp only [App.emit, List.append_assoc]; rfl⟩
    · simp only [hg, if_false]
      exact ⟨rfl, rfl, [], by simp⟩
  obtain ⟨k1, k2, evs, k3⟩ := key
  refine ⟨k1, k2, ?_⟩
  rw [eventsSince_of_trace k3]
  exact k3

/-- Offline rendering keeps the ownership invariant. -/
theorem offlineRender_owned (env : Env) (st : App) (h : Owned st) :
    Owned (offlineRender env st).1 := by
  obtain ⟨g1, g2, g3⟩ := offlineRender_fields env st
  have hfacts : createdPrograms (eventsSince st (offlineRender env st).1) = [] ∧
      deletedPrograms (eventsSince st (offlineRender env st).1) = [] ∧
      bindScan false (eventsSince st (offlineRender env st).1) = some false := by
    rcases offlineRender_events env st with he | he | ⟨_, he⟩ | ⟨bufLen, _, he⟩
    · rw [he]
      exact ⟨rfl, rfl, rfl⟩
    · rw [he]
      exact ⟨rfl, rfl, rfl⟩
    · rw [he]
      cases env.framebufferComplete st.offWidth st.offHeight
      all_goals exact ⟨rfl, rfl, rfl⟩
    · rw [he]
      cases env.framebufferComplete st.offWidth st.offHeight
      all_goals
        refine ⟨?_, ?_, ?_⟩
        · simp only [createdPrograms_append, createdPrograms_frames]
          rfl
        · simp only [deletedPrograms_append, deletedPrograms_frameRun]
          rfl
        · have h1 : ∀ (b : Bool) (c : String) (ok : Bool),
              bindScan b [Event.popen c ok] = some b := fun _ _ _ => rfl
          have h2 : ∀ (b : Bool) (w h : Int) (ok : Bool),
              bindScan b [Event.checkFramebuffer w h ok] = some b := fun _ _ _ _ => rfl
          have h3 : ∀ (b : Bool) (m : String), bindScan b [Event.cerr m] = some b :=
            fun _ _ => rfl
          have h4 : ∀ b : Bool, bindScan b [Event.pclose] = some b := fun _ => rfl
          have h5 : ∀ b : Bool, bindScan b [] = some b := fun _ => rfl
          simp only [Bool.false_eq_true, if_false, if_true, bindScan_append, h1, h2, h3, h4,
            h5, bindScan_frames, Option.some_bind]
  obtain ⟨f1, f2, f3⟩ := hfacts
  exact h.after_calls (eventsSince st (offlineRender env st).1) g3 (by rw [g1]) g2 f1 f2 f3
/-- With no active program every created program has been deleted. -/
theorem Life.closed {tr : List Event} {n : Nat} (h : Life tr n 0) (q : Nat)
    (hq : q ∈ createdPrograms tr) : q ∈ deletedPrograms tr := by
  obtain ⟨_, l1, _, _, l4, _, _⟩ := h
  exact (l4 q).mpr ⟨hq, fun h0 => by have := l1 q hq; omega⟩

/-- Deleting the active program, if there is one, leaves no program behind. -/
theorem Life.after_cleanup {tr : List Event} {n sp : Nat} (h : Life tr n sp) :
    Life (tr ++ (if sp ≠ 0 then [Event.deleteProgram sp] else [])) n 0 := by
  have key := Life.after_build h (if sp ≠ 0 then [Event.deleteProgram sp] else []) [] true n
    (createdPrograms_release sp)
    (by rw [deletedPrograms_release]; simp)
    (usedPrograms_release sp) (Or.inl rfl) (Nat.le_refl n) (by intro hf; cases hf)
  simpa using key

/-- A list of iterations that is used up stands for a run in which the window is closed
next: one more iteration with `glfwWindowShouldClose` set changes nothing. -/
theorem mainLoop_close (env : Env) (closing : FrameInput)
    (hc : closing.windowShouldClose = true) :
    ∀ (inputs : List FrameInput) (st : App),
      mainLoop env (inputs ++ [closing]) st = mainLoop env inputs st
  | [], st => by simp [mainLoop, hc]
  | inp :: rest, st => by
      simp only [List.cons_append, mainLoop]
      by_cases hw : inp.windowShouldClose = true
      · simp only [hw, if_true]
      · simp only [hw, if_false]
        by_cases hb : (loopBody env inp st).2 = true
        · simp only [hb, if_true]
        · simp only [hb, if_false]
          exact mainLoop_close env closing hc rest _

/-- The state a run of `main.cpp` ends in satisfies the ownership invariant, with no program
left unless the process was terminated by an exception. -/
theorem mainProgram_life (env : Env) (inputs : List FrameInput) :
    ∃ n sp, Life (mainProgram env inputs).1.trace n sp ∧
      ((mainProgram env inputs).2 ≠ Exit.terminated → sp = 0) := by
  unfold mainProgram
  have hi := initialBuild_owned env (initialApp env) (Owned.at_start env) rfl
  rcases hr : initialBuild env (initialApp env) with ⟨st0, exit⟩
  rw [hr] at hi
  simp only at hi ⊢
  cases exit
  · simp only [Bool.false_eq_true, if_false] at hi ⊢
    have h1 : Owned (offlineRender env (mainLoop env inputs st0)).1 :=
      offlineRender_owned env _ (mainLoop_owned env inputs st0 hi)
    rcases ho : offlineRender env (mainLoop env inputs st0) with ⟨st1, thrown⟩
    rw [ho] at h1
    simp only at h1 ⊢
    cases thrown
    · simp only [Bool.false_eq_true, if_false]
      refine ⟨st1.gl.nextName, 0, ?_, fun _ => rfl⟩
      have hc := Life.after_cleanup h1
      unfold cleanup
      by_cases h0 : st1.shaderProgram = 0
      · simpa [h0] using hc
      · simpa [h0, glDeleteProgram] using hc
    · simp only [if_true]
      exact ⟨_, _, h1, fun hne => absurd rfl hne⟩
  · simp only [if_true] at hi ⊢
    exact ⟨_, 0, hi, fun _ => rfl⟩

/-- C16 (amended): in every run of `main.cpp` (initial build, any iterations of the
interactive loop with activations that succeed or fail, offline rendering, and the cleanup
when it is reached) no program is deleted twice, every deleted program is one that `linkProgram` created, and between a
`glUseProgram` and a later `glDeleteProgram` there is always a draw call, so no program is
deleted between being bound for a draw and that draw; and when `main` returns (with `0`
after the cleanup, or with `-1` from the initial build) every program that was created has
been deleted exactly once. -/
theorem program_destroyed_once (env : Env) (inputs : List FrameInput) :
    (∀ p, (mainProgram env inputs).1.trace.count (Event.deleteProgram p) ≤ 1) ∧
    (∀ p, Event.deleteProgram p ∈ (mainProgram env inputs).1.trace →
      Event.createProgram p ∈ (mainProgram env inputs).1.trace) ∧
    ((mainProgram env inputs).2 ≠ Exit.terminated →
      ∀ p, Event.createProgram p ∈ (mainProgram env inputs).1.trace →
        (mainProgram env inputs).1.trace.count (Event.deleteProgram p) = 1) ∧
    (∀ (pre mid post : List Event) (p q : Nat),
      (mainProgram env inputs).1.trace =
        pre ++ Event.useProgram p :: (mid ++ Event.deleteProgram q :: post) →
      Event.drawArrays ∈ mid) := by
  obtain ⟨n, sp, hlife, hsp⟩ := mainProgram_life env inputs
  have hle : ∀ p, (mainProgram env inputs).1.trace.count (Event.deleteProgram p) ≤ 1 := by
    intro p
    rw [count_deleteProgram]
    exact List.nodup_iff_count_le_one.mp hlife.2.2.2.1 p
  refine ⟨hle, ?_, ?_, ?_⟩
  · intro p hp
    rw [← mem_deletedPrograms] at hp
    rw [← mem_createdPrograms]
    exact ((hlife.2.2.2.2.1 p).mp hp).1
  · intro hexit p hp
    have h0 := hsp hexit
    subst h0
    have hd : Event.deleteProgram p ∈ (mainProgram env inputs).1.trace :=
      (mem_deletedPrograms _ _).mp (hlife.closed p ((mem_createdPrograms _ _).mpr hp))
    have hpos : 0 < (mainProgram env inputs).1.trace.count (Event.deleteProgram p) :=
      List.count_pos_iff.mpr hd
    have := hle p
    omega
  · intro pre mid post p q hs
    exact bindScan_sound _ false false hlife.2.2.2.2.2.2 pre mid post p q hs

/-- C16 (amended) in the sample run in which the user applies `shaders/bad.txt` (program 6 fails to
link), then `shaders/good.txt` (program 9), and renders 3 frames: the programs 3, 6 and 9
are created, each of them is deleted once, and `main` returns 0. -/
theorem program_destroyed_once_witness :
    createdPrograms
      (mainProgram Env.sample
        [FrameInput.applyBad, FrameInput.applyGood, FrameInput.render3]).1.trace = [3, 6, 9] ∧
    (mainProgram Env.sample
      [FrameInput.applyBad, FrameInput.applyGood, FrameInput.render3]).2 = Exit.returned 0 ∧
    (mainProgram Env.sample
      [FrameInput.applyBad, FrameInput.applyGood, FrameInput.render3]).1.trace.count
        (Event.deleteProgram 3) = 1 ∧
    (mainProgram Env.sample
      [FrameInput.applyBad, FrameInput.applyGood, FrameInput.render3]).1.trace.count
        (Event.deleteProgram 6) = 1 ∧
    (mainProgram Env.sample
      [FrameInput.applyBad, FrameInput.applyGood, FrameInput.render3]).1.trace.count
        (Event.deleteProgram 9) = 1 :=
  ⟨by decide, by decide,
   (program_destroyed_once Env.sample
      [FrameInput.applyBad, FrameInput.applyGood, FrameInput.render3]).2.2.1 (by decide) 3
      (by decide),
   (program_destroyed_once Env.sample
      [FrameInput.applyBad, FrameInput.applyGood, FrameInput.render3]).2.2.1 (by decide) 6
      (by decide),
   (program_destroyed_once Env.sample
      [FrameInput.applyBad, FrameInput.applyGood, FrameInput.render3]).2.2.1 (by decide) 9
      (by decide)⟩

/-- C16, as stated, fails: in the sample run with a render width of -1 the size of the frame
buffer is negative, its constructor throws and the process ends without reaching the
cleanup; program 3, the active one, has been created and is never deleted. -/
theorem frame_buffer_exception_ends_run :
    frameBufferSize (-1) 4 = none ∧
    (mainProgram Env.sample [FrameInput.renderNegative]).2 = Exit.terminated ∧
    createdPrograms (mainProgram Env.sample [FrameInput.renderNegative]).1.trace = [3] ∧
    deletedPrograms (mainProgram Env.sample [FrameInput.renderNegative]).1.trace = [] := by
  refine ⟨by decide, by decide, by decide, by decide⟩

end GLSLStudio
